import Mathlib

set_option maxHeartbeats 1000000

/-!
Verification development for the C bridge layer of quickjs-go
(src/bridge.c, src/bridge.h).

The bridge functions are shallowly embedded as Lean functions over an
explicit `EngineState`.  The embedded engine (QuickJS) is an external
collaborator: its primitives (`JS_NewObject`, `JS_NewClass`,
`JS_DefinePropertyValueStr`, ...) are modelled by their interface
contracts.  Engine calls that can fail internally (out of memory, engine
errors) consult a failure schedule `schedule : Nat -> Bool` indexed by a
running counter of fallible engine calls, so theorems quantify over every
possible placement of engine failures.

Reference counting is modelled at the bridge's level of abstraction:
`JS_DupValue` increments, `JS_FreeValue` decrements, and property tables /
the class-prototype table hold slot references.  The engine's recursive
release of children when an object's count reaches zero is engine-internal
and not modelled; leak-freedom of the bridge is expressed as a balance
between reference counts and slot references plus the references the
bridge's caller holds.

Property definition is modelled as taking ownership of the value on
success and leaving ownership with the caller on failure, which is the
convention bridge.c's error paths are written against.
-/

-- ============================================================================
-- Generic association list helpers (first-occurrence lookup / update)
-- ============================================================================

/-- First-occurrence lookup in an association list. -/
def lookupA {κ α : Type} [DecidableEq κ] : List (κ × α) → κ → Option α
  | [], _ => none
  | e :: r, k => if e.1 = k then some e.2 else lookupA r k

/-- Replace the value at the first occurrence of a key, or append the pair
if the key is absent (the update performed by engine property tables). -/
def upsertA {κ α : Type} [DecidableEq κ] : List (κ × α) → κ → α → List (κ × α)
  | [], k, v => [(k, v)]
  | e :: r, k, v => if e.1 = k then (k, v) :: r else e :: upsertA r k v

/-- Replace the value at the first occurrence of a key; no effect when the
key is absent (used for the object store, whose keys are preallocated). -/
def updateA {κ α : Type} [DecidableEq κ] : List (κ × α) → κ → α → List (κ × α)
  | [], _, _ => []
  | e :: r, k, v => if e.1 = k then (k, v) :: r else e :: updateA r k v

-- ============================================================================
-- Data model: values, objects, descriptor entries (bridge.h)
-- ============================================================================

/-- Exception kinds thrown by the bridge (bridge.c Throw* wrappers) or by
the engine itself (`engineFailure`: out of memory and similar). -/
inductive ErrKind where
  | jsSyntaxError
  | jsTypeError
  | jsReferenceError
  | jsRangeError
  | jsInternalError
  | engineFailure
deriving DecidableEq, Repr

/-- Engine value handles, restricted to the shapes the bridge code
distinguishes: `JS_UNDEFINED`, the `JS_EXCEPTION` marker, and object
handles (identified by an allocation id in the object store). -/
inductive JSVal where
  | undefined
  | exception
  | obj (id : Nat)
deriving DecidableEq, Repr

/-- What an object is: a plain object, or a native C function created by
`JS_NewCFunction2` carrying its `JSCFunctionEnum` kind, its magic value
(the Go handler id) and its name.  The choice of Go proxy trampoline in
`CreateCFunction` is determined by `ftype`. -/
inductive ObjKind where
  | plain
  | cfunc (ftype : Nat) (magic : Int) (fname : String)
deriving DecidableEq, Repr

/-- A property slot: a data property (value plus attribute flags) or an
accessor property (getter and setter values). -/
inductive PropVal where
  | data (v : JSVal) (flags : Nat)
  | accessor (getter setter : JSVal)
deriving DecidableEq, Repr

/-- Per-object store record: kind, class id, prototype reference, property
table, and reference count. -/
structure ObjData where
  kind : ObjKind
  classId : Nat
  protoVal : JSVal
  props : List (String × PropVal)
  rc : Nat
deriving DecidableEq, Repr

/-- MethodEntry of bridge.h. -/
structure MethodEntry where
  name : String
  handler_id : Int
  length : Nat
  is_static : Bool
deriving DecidableEq, Repr

/-- AccessorEntry of bridge.h; a handler id of 0 means "absent". -/
structure AccessorEntry where
  name : String
  getter_id : Int
  setter_id : Int
  is_static : Bool
deriving DecidableEq, Repr

/-- PropertyEntry of bridge.h. -/
structure PropertyEntry where
  name : String
  value : JSVal
  is_static : Bool
  flags : Nat
deriving DecidableEq, Repr

/-- Observable actions of a run: member bindings (recorded when the bind
succeeds, tagged with the target object), property reads, and host-record
(opaque handle) association.  No bridge function in src/bridge.c performs
an opaque association during instance creation; the constructor is the
event vocabulary so that its absence is expressible. -/
inductive Event where
  | bindMethod (target : JSVal) (m : MethodEntry)
  | bindAccessor (target : JSVal) (a : AccessorEntry)
  | bindProperty (target : JSVal) (p : PropertyEntry)
  | getProp (target : JSVal) (name : String)
  | setOpaque (target : JSVal) (hostId : Int)
deriving DecidableEq, Repr

/-- The engine state threaded through the embedded bridge functions. -/
structure EngineState where
  /-- Failure oracle for fallible engine calls, indexed by `fcnt`. -/
  schedule : Nat → Bool
  /-- Count of fallible engine calls made so far. -/
  fcnt : Nat
  /-- The class id counter behind `JS_NewClassID`. -/
  nextClassId : Nat
  /-- Class ids registered with the runtime by `JS_NewClass`. -/
  registry : List Nat
  /-- The class prototype table written by `JS_SetClassProto`. -/
  classProtos : List (Nat × JSVal)
  /-- Fresh object allocator. -/
  nextObj : Nat
  /-- The object store. -/
  objs : List (Nat × ObjData)
  /-- The context's pending exception (kind and message). -/
  pendingError : Option (ErrKind × String)
  /-- Log of observable actions. -/
  trace : List Event

-- ============================================================================
-- Constants (bridge.c constant getters, quickjs.h values)
-- ============================================================================

def JS_PROP_CONFIGURABLE : Nat := 1
def JS_PROP_WRITABLE : Nat := 2
def JS_PROP_ENUMERABLE : Nat := 4

def GetPropertyWritableConfigurable : Nat := JS_PROP_WRITABLE + JS_PROP_CONFIGURABLE
def GetPropertyConfigurable : Nat := JS_PROP_CONFIGURABLE

/-- JSCFunctionEnum values from quickjs.h, surfaced by the bridge's
constant getters. -/
def GetCFuncGeneric : Nat := 0
def GetCFuncGenericMagic : Nat := 1
def GetCFuncConstructor : Nat := 2
def GetCFuncConstructorMagic : Nat := 3
def GetCFuncGetterMagic : Nat := 10
def GetCFuncSetterMagic : Nat := 11

-- ============================================================================
-- Engine primitives (QuickJS interface model)
-- ============================================================================

/-- Value classification wrappers (bridge.c JS_IsException / JS_IsUndefined). -/
def JS_IsException : JSVal → Bool
  | JSVal.exception => true
  | _ => false

def JS_IsUndefined : JSVal → Bool
  | JSVal.undefined => true
  | _ => false

/-- Consult the failure schedule for the next fallible engine call. -/
def fallibleCall (s : EngineState) : Bool × EngineState :=
  (s.schedule s.fcnt, { s with fcnt := s.fcnt + 1 })

/-- The bridge's error-throwing wrappers: record the pending exception and
return the `JS_EXCEPTION` marker. -/
def ThrowSyntaxError (s : EngineState) (msg : String) : JSVal × EngineState :=
  (JSVal.exception, { s with pendingError := some (ErrKind.jsSyntaxError, msg) })

def ThrowTypeError (s : EngineState) (msg : String) : JSVal × EngineState :=
  (JSVal.exception, { s with pendingError := some (ErrKind.jsTypeError, msg) })

def ThrowReferenceError (s : EngineState) (msg : String) : JSVal × EngineState :=
  (JSVal.exception, { s with pendingError := some (ErrKind.jsReferenceError, msg) })

def ThrowRangeError (s : EngineState) (msg : String) : JSVal × EngineState :=
  (JSVal.exception, { s with pendingError := some (ErrKind.jsRangeError, msg) })

def ThrowInternalError (s : EngineState) (msg : String) : JSVal × EngineState :=
  (JSVal.exception, { s with pendingError := some (ErrKind.jsInternalError, msg) })

/-- An engine-internal failure (out of memory and similar). -/
def ThrowEngineFailure (s : EngineState) : JSVal × EngineState :=
  (JSVal.exception, { s with pendingError := some (ErrKind.engineFailure, "") })

/-- Drop one reference in the object store. -/
def freeValObjs (l : List (Nat × ObjData)) : JSVal → List (Nat × ObjData)
  | JSVal.obj i =>
    match lookupA l i with
    | none => l
    | some d => updateA l i ({ d with rc := d.rc - 1 })
  | _ => l

/-- Add one reference in the object store. -/
def dupValObjs (l : List (Nat × ObjData)) : JSVal → List (Nat × ObjData)
  | JSVal.obj i =>
    match lookupA l i with
    | none => l
    | some d => updateA l i ({ d with rc := d.rc + 1 })
  | _ => l

/-- `JS_FreeValue`: drop one reference.  Recursive release of children on
reaching zero is engine-internal and not modelled (see header comment). -/
def JS_FreeValue (s : EngineState) (v : JSVal) : EngineState :=
  { s with objs := freeValObjs s.objs v }

/-- `JS_DupValue`: add one reference. -/
def JS_DupValue (s : EngineState) (v : JSVal) : EngineState :=
  { s with objs := dupValObjs s.objs v }

/-- Allocate a fresh object in the store with a single (caller-owned)
reference. -/
def allocObj (s : EngineState) (k : ObjKind) (cid : Nat) (pv : JSVal) :
    JSVal × EngineState :=
  let i := s.nextObj
  (JSVal.obj i,
    { s with nextObj := i + 1,
             objs := (i, { kind := k, classId := cid, protoVal := pv,
                           props := [], rc := 1 }) :: s.objs })

/-- `JS_NewObject`: allocate a fresh plain object (class `JS_CLASS_OBJECT`,
modelled as class id 1). -/
def JS_NewObject (s : EngineState) : JSVal × EngineState :=
  let (fail, s1) := fallibleCall s
  if fail then ThrowEngineFailure s1
  else allocObj s1 ObjKind.plain 1 JSVal.undefined

/-- `JS_NewCFunction2`: allocate a native function object carrying its
function kind, magic and name. -/
def JS_NewCFunction2 (s : EngineState) (fname : String) (flen : Nat)
    (ftype : Nat) (magic : Int) : JSVal × EngineState :=
  let _ := flen
  let (fail, s1) := fallibleCall s
  if fail then ThrowEngineFailure s1
  else allocObj s1 (ObjKind.cfunc ftype magic fname) 1 JSVal.undefined

/-- Release the references held by a property slot that is being
overwritten (the engine frees the old value when a property is redefined). -/
def releasePropValObjs (l : List (Nat × ObjData)) :
    Option PropVal → List (Nat × ObjData)
  | none => l
  | some (PropVal.data v _) => freeValObjs l v
  | some (PropVal.accessor g t) => freeValObjs (freeValObjs l g) t

/-- Core property definition on an object known by id: overwrite or append
the slot, then release the previous slot's references.  Ownership of the
references inside `pv` transfers from the caller to the slot. -/
def defineOwnObjs (l : List (Nat × ObjData)) (oid : Nat) (n : String)
    (pv : PropVal) : List (Nat × ObjData) :=
  match lookupA l oid with
  | none => l
  | some d =>
    let old := lookupA d.props n
    let d1 : ObjData := { d with props := upsertA d.props n pv }
    releasePropValObjs (updateA l oid d1) old

def defineOwn (s : EngineState) (oid : Nat) (n : String) (pv : PropVal) :
    EngineState :=
  { s with objs := defineOwnObjs s.objs oid n pv }

def defineOwnOnVal (s : EngineState) (target : JSVal) (n : String)
    (pv : PropVal) : EngineState :=
  match target with
  | JSVal.obj oid => defineOwn s oid n pv
  | _ => s

/-- `JS_DefinePropertyValueStr`: define a data property.  On success the
value's reference is owned by the slot; on failure (engine failure, or a
target that is not a live object) the caller keeps ownership and receives
-1. -/
def JS_DefinePropertyValueStr (s : EngineState) (target : JSVal) (n : String)
    (v : JSVal) (flags : Nat) : Int × EngineState :=
  let (fail, s1) := fallibleCall s
  if fail then (-1, s1)
  else
    match target with
    | JSVal.obj oid =>
      match lookupA s1.objs oid with
      | some _ => (0, defineOwn s1 oid n (PropVal.data v flags))
      | none => (-1, s1)
    | _ => (-1, s1)

/-- `JS_DefinePropertyGetSet`: define an accessor property; same ownership
convention as `JS_DefinePropertyValueStr`. -/
def JS_DefinePropertyGetSet (s : EngineState) (target : JSVal) (n : String)
    (getter setter : JSVal) (flags : Nat) : Int × EngineState :=
  let _ := flags
  let (fail, s1) := fallibleCall s
  if fail then (-1, s1)
  else
    match target with
    | JSVal.obj oid =>
      match lookupA s1.objs oid with
      | some _ => (0, defineOwn s1 oid n (PropVal.accessor getter setter))
      | none => (-1, s1)
    | _ => (-1, s1)

/-- The pure value read by `JS_GetPropertyStr`: the stored data value; a
slot with a host accessor would dispatch into the host, which is outside
the model (modelled as `undefined`). -/
def getPropPure (s : EngineState) (target : JSVal) (n : String) : JSVal :=
  match target with
  | JSVal.obj oid =>
    match lookupA s.objs oid with
    | some d =>
      match lookupA d.props n with
      | some (PropVal.data v _) => v
      | some (PropVal.accessor _ _) => JSVal.undefined
      | none => JSVal.undefined
    | none => JSVal.undefined
  | _ => JSVal.undefined

/-- `JS_GetPropertyStr`: read a property; the returned value is a fresh
owned reference (duplicated). -/
def JS_GetPropertyStr (s : EngineState) (target : JSVal) (n : String) :
    JSVal × EngineState :=
  let (fail, s1) := fallibleCall s
  if fail then ThrowEngineFailure s1
  else
    let v := getPropPure s1 target n
    (v, JS_DupValue { s1 with trace := s1.trace ++ [Event.getProp target n] } v)

/-- `JS_NewClassID`: allocate the next class id from the engine's counter. -/
def JS_NewClassID (s : EngineState) : Nat × EngineState :=
  (s.nextClassId, { s with nextClassId := s.nextClassId + 1 })

/-- `JS_NewClass`: register a class id with the runtime; 0 on success,
-1 on engine failure. -/
def JS_NewClass (s : EngineState) (cid : Nat) : Int × EngineState :=
  let (fail, s1) := fallibleCall s
  if fail then (-1, s1)
  else (0, { s1 with registry := cid :: s1.registry })

/-- `JS_SetConstructor`: define `func.prototype = proto` (flags 0) and
`proto.constructor = func` (writable and configurable), each holding a
duplicated reference (quickjs JS_SetConstructor2). -/
def JS_SetConstructor (s : EngineState) (func_obj proto : JSVal) : EngineState :=
  let s1 := defineOwnOnVal (JS_DupValue s proto) func_obj "prototype"
              (PropVal.data proto 0)
  defineOwnOnVal (JS_DupValue s1 func_obj) proto "constructor"
    (PropVal.data func_obj GetPropertyWritableConfigurable)

/-- `JS_SetClassProto`: install a class prototype; the caller's reference
is consumed by the class prototype table. -/
def JS_SetClassProto (s : EngineState) (cid : Nat) (proto : JSVal) :
    EngineState :=
  { s with classProtos := (cid, proto) :: s.classProtos }

/-- `JS_NewObjectProtoClass`: allocate an object with the given prototype
(holding a duplicated reference to it) and class id. -/
def JS_NewObjectProtoClass (s : EngineState) (proto : JSVal) (cid : Nat) :
    JSVal × EngineState :=
  let (fail, s1) := fallibleCall s
  if fail then ThrowEngineFailure s1
  else allocObj (JS_DupValue s1 proto) ObjKind.plain cid proto

-- ============================================================================
-- bridge.c : CreateCFunction
-- ============================================================================

/-- CreateCFunction (bridge.c, lines 163-200): select the Go proxy by
function type and create the native function; reject unsupported types
with a TypeError.  The proxy trampoline choice is determined by the
function type stored in the created object's kind. -/
def CreateCFunction (s : EngineState) (fname : String) (flen : Nat)
    (func_type : Nat) (handler_id : Int) : JSVal × EngineState :=
  if func_type = GetCFuncConstructorMagic then
    JS_NewCFunction2 s fname flen func_type handler_id
  else if func_type = GetCFuncGenericMagic then
    JS_NewCFunction2 s fname flen func_type handler_id
  else if func_type = GetCFuncGetterMagic then
    JS_NewCFunction2 s fname flen func_type handler_id
  else if func_type = GetCFuncSetterMagic then
    JS_NewCFunction2 s fname flen func_type handler_id
  else
    ThrowTypeError s "unsupported function type"

-- ============================================================================
-- bridge.c : member binding helpers
-- ============================================================================

/-- BindMethodToObject (bridge.c, lines 353-371). -/
def BindMethodToObject (s : EngineState) (obj : JSVal) (m : MethodEntry) :
    JSVal × EngineState :=
  let (mf, s1) := CreateCFunction s m.name m.length GetCFuncGenericMagic
                    m.handler_id
  if JS_IsException mf then (mf, s1)
  else
    let (res, s2) := JS_DefinePropertyValueStr s1 obj m.name mf
                       GetPropertyWritableConfigurable
    if res < 0 then
      let s3 := JS_FreeValue s2 mf
      ThrowInternalError s3 "failed to bind method"
    else
      (JSVal.undefined, { s2 with trace := s2.trace ++ [Event.bindMethod obj m] })

/-- BindAccessorToObject (bridge.c, lines 373-415).  `JS_NewAtom` /
`JS_FreeAtom` are modelled as identities (atoms are strings here). -/
def BindAccessorToObject (s : EngineState) (obj : JSVal) (a : AccessorEntry) :
    JSVal × EngineState :=
  let (g, s1) :=
    if a.getter_id ≠ 0 then
      CreateCFunction s a.name 0 GetCFuncGetterMagic a.getter_id
    else (JSVal.undefined, s)
  if JS_IsException g then (g, s1)
  else
    let (t, s2) :=
      if a.setter_id ≠ 0 then
        CreateCFunction s1 a.name 1 GetCFuncSetterMagic a.setter_id
      else (JSVal.undefined, s1)
    if JS_IsException t then
      let s3 := if JS_IsUndefined g then s2 else JS_FreeValue s2 g
      (t, s3)
    else
      let (res, s3) := JS_DefinePropertyGetSet s2 obj a.name g t
                         GetPropertyConfigurable
      if res < 0 then
        let s4 := if JS_IsUndefined g then s3 else JS_FreeValue s3 g
        let s5 := if JS_IsUndefined t then s4 else JS_FreeValue s4 t
        ThrowInternalError s5 "failed to bind accessor"
      else
        (JSVal.undefined,
         { s3 with trace := s3.trace ++ [Event.bindAccessor obj a] })

/-- BindPropertyToObject (bridge.c, lines 417-437): duplicate the value
(the definition takes ownership), define a real data property, release the
duplicate on failure. -/
def BindPropertyToObject (s : EngineState) (obj : JSVal) (p : PropertyEntry) :
    JSVal × EngineState :=
  let s1 := JS_DupValue s p.value
  let (res, s2) := JS_DefinePropertyValueStr s1 obj p.name p.value p.flags
  if res < 0 then
    let s3 := JS_FreeValue s2 p.value
    ThrowInternalError s3 "failed to bind property"
  else
    (JSVal.undefined, { s2 with trace := s2.trace ++ [Event.bindProperty obj p] })

/-- The method loop of BindMembersToObject. -/
def bindMethods (s : EngineState) (obj : JSVal) (st : Bool) :
    List MethodEntry → JSVal × EngineState
  | [] => (JSVal.undefined, s)
  | m :: rest =>
    if m.is_static = st then
      let (r, s1) := BindMethodToObject s obj m
      if JS_IsException r then (r, s1) else bindMethods s1 obj st rest
    else bindMethods s obj st rest

/-- The accessor loop of BindMembersToObject. -/
def bindAccessors (s : EngineState) (obj : JSVal) (st : Bool) :
    List AccessorEntry → JSVal × EngineState
  | [] => (JSVal.undefined, s)
  | a :: rest =>
    if a.is_static = st then
      let (r, s1) := BindAccessorToObject s obj a
      if JS_IsException r then (r, s1) else bindAccessors s1 obj st rest
    else bindAccessors s obj st rest

/-- The data-property loop of BindMembersToObject. -/
def bindProperties (s : EngineState) (obj : JSVal) (st : Bool) :
    List PropertyEntry → JSVal × EngineState
  | [] => (JSVal.undefined, s)
  | p :: rest =>
    if p.is_static = st then
      let (r, s1) := BindPropertyToObject s obj p
      if JS_IsException r then (r, s1) else bindProperties s1 obj st rest
    else bindProperties s obj st rest

/-- BindMembersToObject (bridge.c, lines 310-351): bind the entries whose
is-static flag matches, methods first, then accessors, then data
properties, aborting on the first failure. -/
def BindMembersToObject (s : EngineState) (obj : JSVal)
    (methods : List MethodEntry) (accessors : List AccessorEntry)
    (properties : List PropertyEntry) (st : Bool) : JSVal × EngineState :=
  let (r1, s1) := bindMethods s obj st methods
  if JS_IsException r1 then (r1, s1)
  else
    let (r2, s2) := bindAccessors s1 obj st accessors
    if JS_IsException r2 then (r2, s2)
    else
      let (r3, s3) := bindProperties s2 obj st properties
      if JS_IsException r3 then (r3, s3)
      else (JSVal.undefined, s3)

-- ============================================================================
-- bridge.c : CreateClass
-- ============================================================================

/-- JSClassDef as used by the bridge: the class name (a null pointer is
modelled as `none`). -/
structure JSClassDef where
  class_name : Option String
deriving DecidableEq, Repr

/-- CreateClass (bridge.c, lines 232-308).  Returns the constructor value
(or exception), the content of the `class_id` out-parameter (written by
`JS_NewClassID` before the range check, `none` when validation failed
before allocation), and the final state. -/
def CreateClass (s : EngineState) (class_def : Option JSClassDef)
    (constructor_id : Int) (methods : List MethodEntry)
    (accessors : List AccessorEntry) (properties : List PropertyEntry) :
    JSVal × Option Nat × EngineState :=
  -- Step 1: input validation
  match class_def with
  | none =>
    let (v, s1) := ThrowInternalError s "class_def or class_name is null"
    (v, none, s1)
  | some cd =>
    match cd.class_name with
    | none =>
      let (v, s1) := ThrowInternalError s "class_def or class_name is null"
      (v, none, s1)
    | some nm =>
      if nm = "" then
        let (v, s1) := ThrowInternalError s "class_name cannot be empty"
        (v, none, s1)
      else
        -- Step 2: allocate the class id
        let (cid, s1) := JS_NewClassID s
        if 65536 ≤ cid then  -- 1 << 16
          let (v, s2) := ThrowRangeError s1 "class ID exceeds maximum value"
          (v, some cid, s2)
        else
          -- Step 3: register the class definition
          let (res, s2) := JS_NewClass s1 cid
          if res ≠ 0 then
            let (v, s3) := ThrowInternalError s2 "JS_NewClass failed"
            (v, some cid, s3)
          else
            -- Step 4: create the prototype object
            let (proto, s3) := JS_NewObject s2
            if JS_IsException proto then (proto, some cid, s3)
            else
              -- Step 5: bind instance members to the prototype
              let (pr, s4) := BindMembersToObject s3 proto methods accessors
                                properties false
              if JS_IsException pr then
                (pr, some cid, JS_FreeValue s4 proto)
              else
                -- Step 6: create the constructor function
                let (ctor, s5) := CreateCFunction s4 nm 2
                                    GetCFuncConstructorMagic constructor_id
                if JS_IsException ctor then
                  (ctor, some cid, JS_FreeValue s5 proto)
                else
                  -- Step 7: associate constructor with prototype
                  let s6 := JS_SetConstructor s5 ctor proto
                  -- Step 8: set the class prototype
                  let s7 := JS_SetClassProto s6 cid proto
                  -- Step 9: bind static members to the constructor
                  let (cr, s8) := BindMembersToObject s7 ctor methods accessors
                                    properties true
                  if JS_IsException cr then
                    (cr, some cid, JS_FreeValue s8 ctor)
                  else
                    (ctor, some cid, s8)

-- ============================================================================
-- bridge.c : CreateClassInstance
-- ============================================================================

/-- The instance-property loop of CreateClassInstance (only entries with
is-static = false are processed). -/
def bindInstanceProps (s : EngineState) (obj : JSVal) :
    List PropertyEntry → JSVal × EngineState
  | [] => (JSVal.undefined, s)
  | p :: rest =>
    if p.is_static = false then
      let (r, s1) := BindPropertyToObject s obj p
      if JS_IsException r then (r, s1) else bindInstanceProps s1 obj rest
    else bindInstanceProps s obj rest

/-- CreateClassInstance (bridge.c, lines 456-509): check the class-id
range, read the constructor's prototype, allocate the instance with that
prototype and class id, bind the non-static instance properties, and
return the object.  Host-record (opaque) association is not performed
here. -/
def CreateClassInstance (s : EngineState) (constructor : JSVal)
    (class_id : Nat) (instance_properties : List PropertyEntry) :
    JSVal × EngineState :=
  if 65536 ≤ class_id then  -- 1 << 16
    ThrowRangeError s "class ID exceeds maximum value"
  else
    let (proto, s1) := JS_GetPropertyStr s constructor "prototype"
    if JS_IsException proto then (proto, s1)
    else
      let (obj, s2) := JS_NewObjectProtoClass s1 proto class_id
      let s3 := JS_FreeValue s2 proto
      if JS_IsException obj then (obj, s3)
      else
        let (r, s4) := bindInstanceProps s3 obj instance_properties
        if JS_IsException r then (r, JS_FreeValue s4 obj)
        else (obj, s4)

-- ============================================================================
-- bridge.c : opaque handle codec
-- ============================================================================

/-- IntToOpaque (bridge.c, lines 100-102): `(void*)(intptr_t)id` — the
32-bit signed id is sign-extended to the 64-bit pointer width; the pointer
is modelled as its 64-bit unsigned bit pattern. -/
def IntToOpaque (id : Int) : Nat := (id % (2 : Int) ^ 64).toNat

/-- OpaqueToInt (bridge.c, lines 104-106): `(int32_t)(intptr_t)opaque` —
truncate the pointer bits to 32 and reinterpret as two's-complement. -/
def OpaqueToInt (p : Nat) : Int :=
  if p % 2 ^ 32 < 2 ^ 31 then ((p % 2 ^ 32 : Nat) : Int)
  else ((p % 2 ^ 32 : Nat) : Int) - 2 ^ 32

-- ============================================================================
-- bridge.c : execution timeout (TimeoutStruct, timeoutHandler,
-- SetExecuteTimeout)
-- ============================================================================

/-- TimeoutStruct (bridge.c, lines 531-534). -/
structure TimeoutStruct where
  start : Int
  timeout : Int
deriving DecidableEq, Repr

/-- The malloc heap of timeout tokens plus the interrupt-handler slot of
the runtime: `installed` is the token pointer currently registered with
`JS_SetInterruptHandler`. -/
structure TimerWorld where
  heap : List (Nat × TimeoutStruct)
  nextTok : Nat
  installed : Option Nat
deriving Repr

/-- timeoutHandler (bridge.c, lines 536-552) invoked on the token `tok`
currently installed, at wall-clock time `now`.  Returns the handler's int
result (`0` continue, `1` abort), or `none` when the token has already
been freed (an access to freed memory, undefined behaviour in C). -/
def timeoutHandler (w : TimerWorld) (now : Int) (tok : Nat) :
    Option Int × TimerWorld :=
  match lookupA w.heap tok with
  | none => (none, w)
  | some ts =>
    if ts.timeout ≤ 0 then
      (some 0, { w with heap := w.heap.filter (fun e => !(e.1 = tok)) })
    else if now - ts.start > ts.timeout then
      (some 1, { w with heap := w.heap.filter (fun e => !(e.1 = tok)) })
    else (some 0, w)

/-- SetExecuteTimeout (bridge.c, lines 554-559): malloc a fresh token,
record the arming time and duration, and install it as the interrupt
opaque.  Whatever token was installed before is overwritten without being
freed. -/
def SetExecuteTimeout (w : TimerWorld) (now : Int) (timeout : Int) :
    TimerWorld :=
  { heap := (w.nextTok, { start := now, timeout := timeout }) :: w.heap,
    nextTok := w.nextTok + 1,
    installed := some w.nextTok }

-- ============================================================================
-- bridge.c : LoadModuleBytecode
-- ============================================================================

/-- The tag of the deserialized unit: a module (`JS_TAG_MODULE`) or
anything else (a plain script unit). -/
inductive UnitTag where
  | moduleUnit
  | scriptUnit
deriving DecidableEq, Repr

/-- Engine actions performed by LoadModuleBytecode, in order. -/
inductive LMAct where
  | readObject
  | resolveModule
  | setImportMeta
  | evalFunction
  | stdAwait
  | freeObject
deriving DecidableEq, Repr

/-- Result summary of LoadModuleBytecode: an exception handle, the
deserialized unit returned unevaluated, or the evaluation result. -/
inductive LMRes where
  | exceptionRes
  | unevaluatedUnit
  | evaluationResult
deriving DecidableEq, Repr

/-- LoadModuleBytecode (bridge.c, lines 566-594), parameterised by the
outcome of deserialization (`readFails`), the tag of the unit, the
`load_only` flag, and the outcome of module resolution (`resolveFails`).
Returns the result summary and the ordered list of engine actions
performed after `JS_ReadObject`. -/
def LoadModuleBytecode (readFails : Bool) (tag : UnitTag) (load_only : Bool)
    (resolveFails : Bool) : LMRes × List LMAct :=
  if readFails then (LMRes.exceptionRes, [LMAct.readObject])
  else if load_only then
    if tag = UnitTag.moduleUnit then
      (LMRes.unevaluatedUnit, [LMAct.readObject, LMAct.setImportMeta])
    else
      (LMRes.unevaluatedUnit, [LMAct.readObject])
  else
    if tag = UnitTag.moduleUnit then
      if resolveFails then
        (LMRes.exceptionRes,
         [LMAct.readObject, LMAct.resolveModule, LMAct.freeObject])
      else
        (LMRes.evaluationResult,
         [LMAct.readObject, LMAct.resolveModule, LMAct.setImportMeta,
          LMAct.evalFunction, LMAct.stdAwait])
    else
      (LMRes.evaluationResult, [LMAct.readObject, LMAct.evalFunction])

-- ============================================================================
-- Specification-side definitions: reference accounting, well-formedness,
-- trace and property-table characterizations
-- ============================================================================

/-- References to object `o` held by a value. -/
def valRefs (o : Nat) : JSVal → Nat
  | JSVal.obj i => if i = o then 1 else 0
  | _ => 0

/-- References to object `o` held by a property slot. -/
def propValRefs (o : Nat) : PropVal → Nat
  | PropVal.data v _ => valRefs o v
  | PropVal.accessor g t => valRefs o g + valRefs o t

/-- References to object `o` held by one object record (its prototype link
and its property table). -/
def objDataRefs (o : Nat) (d : ObjData) : Nat :=
  valRefs o d.protoVal + (d.props.map (fun e => propValRefs o e.2)).sum

/-- References to object `o` held by engine-side slots: all objects'
records plus the class prototype table. -/
def slotRefs (s : EngineState) (o : Nat) : Nat :=
  (s.objs.map (fun e => objDataRefs o e.2)).sum
    + (s.classProtos.map (fun e => valRefs o e.2)).sum

/-- The reference count of object `o` (0 when not allocated). -/
def rcOf (s : EngineState) (o : Nat) : Nat :=
  match lookupA s.objs o with
  | some d => d.rc
  | none => 0

/-- The bridge-level leak-freedom ledger: every object's reference count
is exactly the references held by engine slots plus the references `E o`
held by the bridge / its caller.  A function that restores `balanced s E`
with the caller's original ledger has released every reference it took. -/
def balanced (s : EngineState) (E : Nat → Nat) : Prop :=
  ∀ o, rcOf s o = slotRefs s o + E o

/-- Well-formedness of the object store: allocated ids are below the
allocator, and no slot references an id at or above the allocator. -/
structure WFS (s : EngineState) : Prop where
  keysLt : ∀ e ∈ s.objs, e.1 < s.nextObj
  slotsLt : ∀ o, s.nextObj ≤ o → slotRefs s o = 0

/-- The external ledger only mentions allocated ids. -/
def EBound (s : EngineState) (E : Nat → Nat) : Prop :=
  ∀ o, s.nextObj ≤ o → E o = 0

/-- The combined invariant carried through the bridge functions. -/
def Good (s : EngineState) (E : Nat → Nat) : Prop :=
  WFS s ∧ balanced s E ∧ EBound s E

/-- Extend a ledger by one reference to the given value. -/
def Epush (E : Nat → Nat) (v : JSVal) : Nat → Nat :=
  fun o => E o + valRefs o v

/-- Extend a ledger by the references held by a property slot. -/
def EpushP (E : Nat → Nat) (pv : PropVal) : Nat → Nat :=
  fun o => E o + propValRefs o pv

/-- References to `o` held by an object-store fragment. -/
def sumObjs (l : List (Nat × ObjData)) (o : Nat) : Nat :=
  (l.map (fun e => objDataRefs o e.2)).sum

/-- References to `o` held by a property-table fragment. -/
def sumProps (l : List (String × PropVal)) (o : Nat) : Nat :=
  (l.map (fun e => propValRefs o e.2)).sum

/-- References to `o` held by a class-prototype-table fragment. -/
def sumProtos (l : List (Nat × JSVal)) (o : Nat) : Nat :=
  (l.map (fun e => valRefs o e.2)).sum

/-- Object `i` is allocated in the store. -/
def presentObj (s : EngineState) (i : Nat) : Prop :=
  (lookupA s.objs i).isSome = true

/-- A value is either a non-object or a reference to an allocated object. -/
def presentVal (s : EngineState) : JSVal → Prop
  | JSVal.obj i => presentObj s i
  | _ => True

/-- All values in a property-entry list are present. -/
def propsOk (s : EngineState) (l : List PropertyEntry) : Prop :=
  ∀ p ∈ l, presentVal s p.value

/-- The kind of an allocated object. -/
def kindOf (s : EngineState) (i : Nat) : Option ObjKind :=
  (lookupA s.objs i).map ObjData.kind

/-- The property slot of an allocated object. -/
def propOf (s : EngineState) (oid : Nat) (n : String) : Option PropVal :=
  match lookupA s.objs oid with
  | some d => lookupA d.props n
  | none => none

/-- The bind events emitted by one pass of BindMembersToObject on `obj`:
the matching methods, then the matching accessors, then the matching data
properties, each in list order. -/
def passEvents (obj : JSVal) (methods : List MethodEntry)
    (accessors : List AccessorEntry) (properties : List PropertyEntry)
    (st : Bool) : List Event :=
  (methods.filter (fun m => m.is_static = st)).map (Event.bindMethod obj)
    ++ (accessors.filter (fun a => a.is_static = st)).map (Event.bindAccessor obj)
    ++ (properties.filter (fun p => p.is_static = st)).map (Event.bindProperty obj)

/-- A member descriptor of any of the three kinds. -/
inductive MemberRef where
  | meth (m : MethodEntry)
  | acc (a : AccessorEntry)
  | prop (p : PropertyEntry)
deriving DecidableEq, Repr

def memberName : MemberRef → String
  | MemberRef.meth m => m.name
  | MemberRef.acc a => a.name
  | MemberRef.prop p => p.name

/-- The members processed by one pass, in processing order. -/
def passMembers (methods : List MethodEntry) (accessors : List AccessorEntry)
    (properties : List PropertyEntry) (st : Bool) : List MemberRef :=
  (methods.filter (fun m => m.is_static = st)).map MemberRef.meth
    ++ (accessors.filter (fun a => a.is_static = st)).map MemberRef.acc
    ++ (properties.filter (fun p => p.is_static = st)).map MemberRef.prop

/-- The last member of a pass with the given name (the one whose binding
wins under last-write-wins). -/
def lastNamed : List MemberRef → String → Option MemberRef
  | [], _ => none
  | x :: xs, n =>
    match lastNamed xs n with
    | some y => some y
    | none => if memberName x = n then some x else none

/-- The value a bound getter/setter side must have: absent handler id
(0) gives `undefined`, otherwise a native function of the proper kind. -/
def accSideSpec (s : EngineState) (v : JSVal) (ftype : Nat) (hid : Int)
    (n : String) : Prop :=
  if hid = 0 then v = JSVal.undefined
  else ∃ f, v = JSVal.obj f ∧ kindOf s f = some (ObjKind.cfunc ftype hid n)

/-- What the final property slot for name `n` on object `oid` must look
like when member `mr` was the last binding of that name. -/
def slotMatches (s : EngineState) (oid : Nat) (n : String) :
    MemberRef → Prop
  | MemberRef.meth m =>
    ∃ f, propOf s oid n
           = some (PropVal.data (JSVal.obj f) GetPropertyWritableConfigurable)
         ∧ kindOf s f = some (ObjKind.cfunc GetCFuncGenericMagic m.handler_id m.name)
  | MemberRef.acc a =>
    ∃ g t, propOf s oid n = some (PropVal.accessor g t)
           ∧ accSideSpec s g GetCFuncGetterMagic a.getter_id a.name
           ∧ accSideSpec s t GetCFuncSetterMagic a.setter_id a.name
  | MemberRef.prop p =>
    propOf s oid n = some (PropVal.data p.value p.flags)

/-- Bounded variant of `accSideSpec`: the fresh function object is
distinct from the target and below the allocator bound (used to carry
freshness through the binding induction). -/
def accSideSpecB (s : EngineState) (v : JSVal) (ftype : Nat) (hid : Int)
    (n : String) (oid bound : Nat) : Prop :=
  if hid = 0 then v = JSVal.undefined
  else ∃ f, f ≠ oid ∧ f < bound ∧ v = JSVal.obj f ∧
    kindOf s f = some (ObjKind.cfunc ftype hid n)

/-- Bounded variant of `slotMatches`. -/
def slotMatchesB (s : EngineState) (oid bound : Nat) (n : String) :
    MemberRef → Prop
  | MemberRef.meth m =>
    ∃ f, f ≠ oid ∧ f < bound ∧
      propOf s oid n
        = some (PropVal.data (JSVal.obj f) GetPropertyWritableConfigurable) ∧
      kindOf s f = some (ObjKind.cfunc GetCFuncGenericMagic m.handler_id m.name)
  | MemberRef.acc a =>
    ∃ gv tv, propOf s oid n = some (PropVal.accessor gv tv)
      ∧ accSideSpecB s gv GetCFuncGetterMagic a.getter_id a.name oid bound
      ∧ accSideSpecB s tv GetCFuncSetterMagic a.setter_id a.name oid bound
  | MemberRef.prop p =>
    propOf s oid n = some (PropVal.data p.value p.flags)

/-- The property table produced by binding the non-static instance
properties in order onto a fresh object. -/
def instFold (l : List PropertyEntry) : List (String × PropVal) :=
  (l.filter (fun p => p.is_static = false)).foldl
    (fun acc p => upsertA acc p.name (PropVal.data p.value p.flags)) []

/-- The reference-count-independent part of an object record. -/
def objView (d : ObjData) : ObjKind × Nat × JSVal × List (String × PropVal) :=
  (d.kind, d.classId, d.protoVal, d.props)

/-- The reference-count-independent view of an object in the store. -/
def viewA (l : List (Nat × ObjData)) (i : Nat) :
    Option (ObjKind × Nat × JSVal × List (String × PropVal)) :=
  (lookupA l i).map objView

/-- The record of a freshly created native function object. -/
def cfuncData (ft : Nat) (hid : Int) (fname : String) : ObjData :=
  { kind := ObjKind.cfunc ft hid fname, classId := 1,
    protoVal := JSVal.undefined, props := [], rc := 1 }

/-- The record of a freshly created plain object. -/
def plainData (cid : Nat) (pv : JSVal) : ObjData :=
  { kind := ObjKind.plain, classId := cid, protoVal := pv, props := [],
    rc := 1 }

/-- Dispatch one member binding to the corresponding bridge helper. -/
def bindMember (s : EngineState) (obj : JSVal) : MemberRef → JSVal × EngineState
  | MemberRef.meth m => BindMethodToObject s obj m
  | MemberRef.acc a => BindAccessorToObject s obj a
  | MemberRef.prop p => BindPropertyToObject s obj p

/-- Process a list of members in order, aborting on the first failure —
the sequential skeleton shared by the three loops of
BindMembersToObject. -/
def bindMemberList (s : EngineState) (obj : JSVal) :
    List MemberRef → JSVal × EngineState
  | [] => (JSVal.undefined, s)
  | mr :: rest =>
    let (r, s1) := bindMember s obj mr
    if JS_IsException r then (r, s1) else bindMemberList s1 obj rest

/-- The bind event a member produces when bound to `obj`. -/
def eventOf (obj : JSVal) : MemberRef → Event
  | MemberRef.meth m => Event.bindMethod obj m
  | MemberRef.acc a => Event.bindAccessor obj a
  | MemberRef.prop p => Event.bindProperty obj p

-- ============================================================================
-- Concrete inputs used by witnesses and counterexamples
-- ============================================================================

/-- An empty engine state whose fallible calls all succeed. -/
def emptyStateNoFail : EngineState :=
  { schedule := fun _ => false, fcnt := 0, nextClassId := 0, registry := [],
    classProtos := [], nextObj := 0, objs := [], pendingError := none,
    trace := [] }

/-- An empty engine state whose k-th fallible call fails. -/
def emptyStateFailAt (k : Nat) : EngineState :=
  { emptyStateNoFail with schedule := fun n => n == k }

def kDef : JSClassDef := { class_name := some "K" }

def staticProp : PropertyEntry :=
  { name := "p", value := JSVal.undefined, is_static := true, flags := 7 }

/-- A CreateClass run on an empty engine in which the fourth fallible
engine call — the property definition inside the static binding pass
(step 9) — fails: `JS_NewClass` (call 0), `JS_NewObject` (call 1) and the
constructor's `JS_NewCFunction2` (call 2) succeed, then
`JS_DefinePropertyValueStr` (call 3) fails. -/
def cxRun : JSVal × Option Nat × EngineState :=
  CreateClass (emptyStateFailAt 3) (some kDef) 7 [] [] [staticProp]

/-- An engine whose class-id counter has reached the 16-bit limit. -/
def bigState : EngineState := { emptyStateNoFail with nextClassId := 65536 }

/-- An engine holding a registered class: object 0 is the class prototype
and object 1 the constructor, whose "prototype" slot holds object 0. -/
def ctorState : EngineState :=
  { schedule := fun _ => false, fcnt := 0, nextClassId := 1, registry := [0],
    classProtos := [(0, JSVal.obj 0)], nextObj := 2,
    objs := [(1, { kind := ObjKind.cfunc 3 7 "K", classId := 1,
                   protoVal := JSVal.undefined,
                   props := [("prototype", PropVal.data (JSVal.obj 0) 0)],
                   rc := 1 }),
             (0, { kind := ObjKind.plain, classId := 1,
                   protoVal := JSVal.undefined, props := [], rc := 2 })],
    pendingError := none, trace := [] }

def instProp : PropertyEntry :=
  { name := "count", value := JSVal.undefined, is_static := false, flags := 7 }

/-- A one-object engine: object 0 is a plain object ready to receive
member bindings. -/
def objState : EngineState :=
  { schedule := fun _ => false, fcnt := 0, nextClassId := 0, registry := [],
    classProtos := [], nextObj := 1,
    objs := [(0, { kind := ObjKind.plain, classId := 1,
                   protoVal := JSVal.undefined, props := [], rc := 1 })],
    pendingError := none, trace := [] }

/-- A non-static method named "x". -/
def dupMeth : MethodEntry :=
  { name := "x", handler_id := 5, length := 0, is_static := false }

/-- A non-static data property also named "x". -/
def dupProp : PropertyEntry :=
  { name := "x", value := JSVal.undefined, is_static := false, flags := 7 }

-- ============================================================================
-- THEOREMS
-- ============================================================================

/-- C3 (code_bug evaluation): arming an execution timeout twice in a row —
the second arming while the first token is still active — leaves the first
token allocated on the heap while the interrupt handler now carries only
the second token, so nothing will ever free the first one.  The spec
requires that arming a new timeout must not leak the previous token. -/
theorem setExecuteTimeout_rearm_leaks_token :
    lookupA (SetExecuteTimeout
        (SetExecuteTimeout { heap := [], nextTok := 0, installed := none } 0 100)
        5 100).heap 0 = some { start := 0, timeout := 100 } ∧
    (SetExecuteTimeout
        (SetExecuteTimeout { heap := [], nextTok := 0, installed := none } 0 100)
        5 100).installed = some 1 := by
  decide

/-- C4 (counterexample): a blob that deserializes to a plain script unit,
loaded with loadOnly = true, is returned unevaluated — `JS_EvalFunction`
is never invoked — contradicting the claim that a plain script unit is
evaluated directly for any value of loadOnly. -/
theorem loadModuleBytecode_script_loadOnly_counterexample :
    (LoadModuleBytecode false UnitTag.scriptUnit true false).1
      = LMRes.unevaluatedUnit ∧
    LMAct.evalFunction ∉ (LoadModuleBytecode false UnitTag.scriptUnit true false).2 := by
  decide

/-- C4 (amended): when deserialization succeeds: with loadOnly = true any
unit (module or script) is returned unevaluated, import metadata being
attached exactly when the unit is a module; with loadOnly = false a module
unit is resolved, given import metadata, evaluated and awaited (an
exception with the unit released when resolution fails), and a plain
script unit is evaluated directly.  A failed deserialization returns the
exception immediately. -/
theorem loadModuleBytecode_behavior (tag : UnitTag) (lo resf : Bool) :
    (lo = true →
       (LoadModuleBytecode false tag lo resf).1 = LMRes.unevaluatedUnit ∧
       LMAct.evalFunction ∉ (LoadModuleBytecode false tag lo resf).2 ∧
       (LMAct.setImportMeta ∈ (LoadModuleBytecode false tag lo resf).2
         ↔ tag = UnitTag.moduleUnit)) ∧
    (lo = false → tag = UnitTag.moduleUnit → resf = false →
       LoadModuleBytecode false tag lo resf
         = (LMRes.evaluationResult,
            [LMAct.readObject, LMAct.resolveModule, LMAct.setImportMeta,
             LMAct.evalFunction, LMAct.stdAwait])) ∧
    (lo = false → tag = UnitTag.moduleUnit → resf = true →
       LoadModuleBytecode false tag lo resf
         = (LMRes.exceptionRes,
            [LMAct.readObject, LMAct.resolveModule, LMAct.freeObject])) ∧
    (lo = false → tag = UnitTag.scriptUnit →
       LoadModuleBytecode false tag lo resf
         = (LMRes.evaluationResult, [LMAct.readObject, LMAct.evalFunction])) ∧
    LoadModuleBytecode true tag lo resf
      = (LMRes.exceptionRes, [LMAct.readObject]) := by
  cases tag <;> cases lo <;> cases resf <;> simp [LoadModuleBytecode]

/-- C4 witness: a module unit with loadOnly = true is returned
unevaluated with import metadata attached. -/
theorem loadModuleBytecode_behavior_witness :
    (LoadModuleBytecode false UnitTag.moduleUnit true false).1
      = LMRes.unevaluatedUnit ∧
    LMAct.evalFunction ∉ (LoadModuleBytecode false UnitTag.moduleUnit true false).2 ∧
    (LMAct.setImportMeta ∈ (LoadModuleBytecode false UnitTag.moduleUnit true false).2
      ↔ UnitTag.moduleUnit = UnitTag.moduleUnit) :=
  (loadModuleBytecode_behavior UnitTag.moduleUnit true false).1 rfl

/-- C8: the opaque handle codec is reversible on the whole 32-bit signed
id range: decoding the encoding of any id in [-2^31, 2^31) returns the id. -/
theorem handle_codec_roundtrip (id : Int) (h1 : -(2 ^ 31) ≤ id)
    (h2 : id < 2 ^ 31) : OpaqueToInt ( IntToOpaque id) = id := by
  unfold IntToOpaque OpaqueToInt
  have e1 : (2 : Int) ^ 64 = 18446744073709551616 := by norm_num
  have e2 : (2 : Nat) ^ 32 = 4294967296 := by norm_num
  have e3 : (2 : Nat) ^ 31 = 2147483648 := by norm_num
  have e4 : (2 : Int) ^ 32 = 4294967296 := by norm_num
  have f1 : -(2 : Int) ^ 31 = -2147483648 := by norm_num
  have f2 : (2 : Int) ^ 31 = 2147483648 := by norm_num
  rw [f1] at h1
  rw [f2] at h2
  rw [e1, e2, e3, e4]
  split <;> omega

/-- C8 witness: the roundtrip at the concrete id -5. -/
theorem handle_codec_roundtrip_witness :
    (-(2 ^ 31) ≤ (-5 : Int)) ∧ ((-5 : Int) < 2 ^ 31) ∧
    OpaqueToInt ( IntToOpaque (-5)) = -5 :=
  ⟨by norm_num, by norm_num,
   handle_codec_roundtrip (-5) (by norm_num) (by norm_num)⟩

/-- C9: any function type other than the four supported magic kinds
(constructor-magic, generic-magic, getter-magic, setter-magic) makes
CreateCFunction throw a TypeError ("unsupported function type") and leave
the engine state otherwise untouched — in particular no function value is
created. -/
theorem createCFunction_unsupported_type (s : EngineState) (fname : String)
    (flen : Nat) (ft : Nat) (hid : Int)
    (h1 : ft ≠ GetCFuncConstructorMagic) (h2 : ft ≠ GetCFuncGenericMagic)
    (h3 : ft ≠ GetCFuncGetterMagic) (h4 : ft ≠ GetCFuncSetterMagic) :
    CreateCFunction s fname flen ft hid
      = (JSVal.exception,
         { s with pendingError := some (ErrKind.jsTypeError,
                                        "unsupported function type") }) := by
  simp only [CreateCFunction, if_neg h1, if_neg h2, if_neg h3, if_neg h4,
    ThrowTypeError]

/-- C9 witness: the plain generic kind (JS_CFUNC_generic, value 0) is
itself unsupported by CreateCFunction. -/
theorem createCFunction_unsupported_type_witness :
    GetCFuncGeneric ≠ GetCFuncConstructorMagic ∧
    GetCFuncGeneric ≠ GetCFuncGenericMagic ∧
    GetCFuncGeneric ≠ GetCFuncGetterMagic ∧
    GetCFuncGeneric ≠ GetCFuncSetterMagic ∧
    CreateCFunction emptyStateNoFail "f" 0 GetCFuncGeneric 5
      = (JSVal.exception,
         { emptyStateNoFail with
             pendingError := some (ErrKind.jsTypeError,
                                   "unsupported function type") }) :=
  ⟨by decide, by decide, by decide, by decide,
   createCFunction_unsupported_type emptyStateNoFail "f" 0 GetCFuncGeneric 5
     (by decide) (by decide) (by decide) (by decide)⟩

/-- C10: a class id at or above 2^16 makes CreateClassInstance throw a
RangeError immediately: the final state differs from the initial one only
in the pending exception, so no prototype read, no allocation and no
binding has happened. -/
theorem createClassInstance_range_check (s : EngineState) (ctor : JSVal)
    (cid : Nat) (ips : List PropertyEntry) (h : 2 ^ 16 ≤ cid) :
    CreateClassInstance s ctor cid ips
      = (JSVal.exception,
         { s with pendingError := some (ErrKind.jsRangeError,
                                        "class ID exceeds maximum value") }) := by
  have h65536 : 65536 ≤ cid := by norm_num at h; exact h
  simp only [CreateClassInstance, if_pos h65536, ThrowRangeError]

/-- C10 witness: the range check at class id 65536 on the empty engine. -/
theorem createClassInstance_range_check_witness :
    (2 ^ 16 ≤ 65536) ∧
    CreateClassInstance emptyStateNoFail JSVal.undefined 65536 []
      = (JSVal.exception,
         { emptyStateNoFail with
             pendingError := some (ErrKind.jsRangeError,
                                   "class ID exceeds maximum value") }) :=
  ⟨by norm_num,
   createClassInstance_range_check emptyStateNoFail JSVal.undefined 65536 []
     (by norm_num)⟩

/-- C1 (counterexample): in `cxRun` the static binding pass (step 9)
fails, CreateClass returns an exception — yet the class id remains
registered with the runtime, the class prototype remains installed in the
class prototype table, and the constructor object is still alive (held by
the installed prototype's "constructor" slot).  The claim's full rollback
("no registered class id, class prototype, or constructor remains
visible") is therefore false. -/
theorem createClass_rollback_counterexample :
    JS_IsException cxRun.1 = true ∧
    (emptyStateFailAt 3).registry = [] ∧
    cxRun.2.2.registry = [0] ∧
    cxRun.2.2.classProtos = [(0, JSVal.obj 0)] ∧
    rcOf cxRun.2.2 1 = 1 ∧
    kindOf cxRun.2.2 1 = some (ObjKind.cfunc 3 7 "K") := by
  decide

/-- Helper: every CreateClass run either fails during input validation
(exception, no class id written) or writes the allocated class id to the
out-parameter; in the latter case either the allocated id passed the
16-bit range check or the run ended in an exception. -/
theorem createClass_shape (s : EngineState) (cd : Option JSClassDef)
    (ctorId : Int) (ms : List MethodEntry) (acs : List AccessorEntry)
    (ps : List PropertyEntry) :
    (JS_IsException (CreateClass s cd ctorId ms acs ps).1 = true ∧
       (CreateClass s cd ctorId ms acs ps).2.1 = none) ∨
    ((CreateClass s cd ctorId ms acs ps).2.1 = some s.nextClassId ∧
       (s.nextClassId < 65536 ∨
        JS_IsException (CreateClass s cd ctorId ms acs ps).1 = true)) := by
  unfold CreateClass
  simp only [JS_NewClassID]
  repeat' split
  all_goals simp_all [JS_IsException, ThrowInternalError, ThrowRangeError]

/-- C2: on every successful CreateClass run the class id written to the
out-parameter is the freshly allocated counter value and is strictly below
2^16; and when the allocated id would reach 2^16 (with a valid
descriptor, so validation does not fail first), CreateClass fails with a
RangeError, the id is reported as allocated without any wraparound, and
the engine's class table — registered classes, class prototypes, and the
object store — is untouched. -/
theorem createClass_classId_limit (s : EngineState) (cd : Option JSClassDef)
    (ctorId : Int) (ms : List MethodEntry) (acs : List AccessorEntry)
    (ps : List PropertyEntry) :
    (JS_IsException (CreateClass s cd ctorId ms acs ps).1 = false →
        (CreateClass s cd ctorId ms acs ps).2.1 = some s.nextClassId ∧
        s.nextClassId < 2 ^ 16) ∧
    (∀ d nm, cd = some d → d.class_name = some nm → nm ≠ "" →
        2 ^ 16 ≤ s.nextClassId →
        (CreateClass s cd ctorId ms acs ps).1 = JSVal.exception ∧
        (CreateClass s cd ctorId ms acs ps).2.1 = some s.nextClassId ∧
        (CreateClass s cd ctorId ms acs ps).2.2.pendingError
          = some (ErrKind.jsRangeError, "class ID exceeds maximum value") ∧
        (CreateClass s cd ctorId ms acs ps).2.2.registry = s.registry ∧
        (CreateClass s cd ctorId ms acs ps).2.2.classProtos = s.classProtos ∧
        (CreateClass s cd ctorId ms acs ps).2.2.objs = s.objs ∧
        (CreateClass s cd ctorId ms acs ps).2.2.nextObj = s.nextObj ∧
        (CreateClass s cd ctorId ms acs ps).2.2.trace = s.trace) := by
  constructor
  · intro h
    rcases createClass_shape s cd ctorId ms acs ps with ⟨he, _⟩ | ⟨hc, hr⟩
    · rw [he] at h; cases h
    · refine ⟨hc, ?_⟩
      rcases hr with hlt | he
      · norm_num; exact hlt
      · rw [he] at h; cases h
  · intro d nm hcd hnm hne hge
    subst hcd
    obtain ⟨cn⟩ := d
    have hcn : cn = some nm := hnm
    subst hcn
    have hge65536 : 65536 ≤ s.nextClassId := by norm_num at hge; exact hge
    simp [CreateClass, JS_NewClassID, ThrowRangeError, hne, hge65536]

/-- C2 witness: a valid descriptor on an engine whose class-id counter
has reached 65536 = 2^16: the run fails with a RangeError and the class
table is untouched. -/
theorem createClass_classId_limit_witness :
    ((some kDef : Option JSClassDef) = some kDef) ∧
    (kDef.class_name = some "K") ∧ ("K" ≠ "") ∧
    (2 ^ 16 ≤ bigState.nextClassId) ∧
    (CreateClass bigState (some kDef) 7 [] [] []).1 = JSVal.exception ∧
    (CreateClass bigState (some kDef) 7 [] [] []).2.2.pendingError
      = some (ErrKind.jsRangeError, "class ID exceeds maximum value") ∧
    (CreateClass bigState (some kDef) 7 [] [] []).2.2.registry
      = bigState.registry := by
  have hg : (2 : Nat) ^ 16 ≤ bigState.nextClassId := by
    norm_num [bigState, emptyStateNoFail]
  have h := (createClass_classId_limit bigState (some kDef) 7 [] [] []).2
    kDef "K" rfl rfl (by decide) hg
  exact ⟨rfl, rfl, by decide, hg, h.1, h.2.2.1, h.2.2.2.1⟩

-- ============================================================================
-- Association-list and object-store view lemmas
-- ============================================================================

theorem lookupA_updateA_self {κ α : Type} [DecidableEq κ] (l : List (κ × α))
    (k : κ) (v : α) :
    lookupA (updateA l k v) k = (lookupA l k).map (fun _ => v) := by
  induction l with
  | nil => rfl
  | cons e r ih =>
    by_cases h : e.1 = k
    · simp [updateA, lookupA, h]
    · simp [updateA, lookupA, h, ih]

theorem lookupA_updateA_ne {κ α : Type} [DecidableEq κ] (l : List (κ × α))
    (k i : κ) (v : α) (h : i ≠ k) :
    lookupA (updateA l k v) i = lookupA l i := by
  induction l with
  | nil => rfl
  | cons e r ih =>
    by_cases hk : e.1 = k
    · subst hk
      have h2 : ¬(e.1 = i) := fun hh => h hh.symm
      simp [updateA, lookupA, h2]
    · simp [updateA, lookupA, hk, ih]

theorem lookupA_upsertA_self {κ α : Type} [DecidableEq κ] (l : List (κ × α))
    (k : κ) (v : α) :
    lookupA (upsertA l k v) k = some v := by
  induction l with
  | nil => simp [upsertA, lookupA]
  | cons e r ih =>
    by_cases h : e.1 = k
    · simp [upsertA, lookupA, h]
    · simp [upsertA, lookupA, h, ih]

theorem lookupA_upsertA_ne {κ α : Type} [DecidableEq κ] (l : List (κ × α))
    (k i : κ) (v : α) (h : i ≠ k) :
    lookupA (upsertA l k v) i = lookupA l i := by
  induction l with
  | nil => simp [upsertA, lookupA, Ne.symm h]
  | cons e r ih =>
    by_cases hk : e.1 = k
    · subst hk
      have h2 : ¬(e.1 = i) := fun hh => h hh.symm
      simp [upsertA, lookupA, h2]
    · simp [upsertA, lookupA, hk, ih]

theorem viewA_freeVal (l : List (Nat × ObjData)) (v : JSVal) (i : Nat) :
    viewA (freeValObjs l v) i = viewA l i := by
  cases v with
  | undefined => rfl
  | exception => rfl
  | obj j =>
    simp only [freeValObjs]
    cases hj : lookupA l j with
    | none => rfl
    | some d =>
      by_cases hij : i = j
      · subst hij
        simp [viewA, lookupA_updateA_self, hj, objView]
      · simp [viewA, lookupA_updateA_ne _ _ _ _ hij]

theorem viewA_dupVal (l : List (Nat × ObjData)) (v : JSVal) (i : Nat) :
    viewA (dupValObjs l v) i = viewA l i := by
  cases v with
  | undefined => rfl
  | exception => rfl
  | obj j =>
    simp only [dupValObjs]
    cases hj : lookupA l j with
    | none => rfl
    | some d =>
      by_cases hij : i = j
      · subst hij
        simp [viewA, lookupA_updateA_self, hj, objView]
      · simp [viewA, lookupA_updateA_ne _ _ _ _ hij]

theorem viewA_release (l : List (Nat × ObjData)) (opv : Option PropVal)
    (i : Nat) : viewA (releasePropValObjs l opv) i = viewA l i := by
  cases opv with
  | none => rfl
  | some pv =>
    cases pv with
    | data v fl => simp [releasePropValObjs, viewA_freeVal]
    | accessor g t => simp [releasePropValObjs, viewA_freeVal]

theorem viewA_defineOwn_self (l : List (Nat × ObjData)) (oid : Nat)
    (n : String) (pv : PropVal) (d : ObjData) (h : lookupA l oid = some d) :
    viewA (defineOwnObjs l oid n pv) oid
      = some (d.kind, d.classId, d.protoVal, upsertA d.props n pv) := by
  simp only [defineOwnObjs, h]
  rw [viewA_release]
  simp [viewA, lookupA_updateA_self, h, objView]

theorem viewA_defineOwn_ne (l : List (Nat × ObjData)) (oid : Nat) (n : String)
    (pv : PropVal) (i : Nat) (h : i ≠ oid) :
    viewA (defineOwnObjs l oid n pv) i = viewA l i := by
  simp only [defineOwnObjs]
  cases hd : lookupA l oid with
  | none => rfl
  | some d =>
    rw [viewA_release]
    simp [viewA, lookupA_updateA_ne _ _ _ _ h]

/-- Decompose a view equation into an object-store lookup with matching
fields. -/
theorem viewA_some (l : List (Nat × ObjData)) (i : Nat) (k : ObjKind)
    (c : Nat) (pv : JSVal) (ps : List (String × PropVal))
    (h : viewA l i = some (k, c, pv, ps)) :
    ∃ d, lookupA l i = some d ∧ d.kind = k ∧ d.classId = c ∧
      d.protoVal = pv ∧ d.props = ps := by
  unfold viewA at h
  cases hd : lookupA l i with
  | none => rw [hd] at h; cases h
  | some d =>
    rw [hd] at h
    simp only [Option.map_some', Option.some.injEq] at h
    unfold objView at h
    refine ⟨d, rfl, ?_, ?_, ?_, ?_⟩
    · exact congrArg (fun t => t.1) h
    · exact congrArg (fun t => t.2.1) h
    · exact congrArg (fun t => t.2.2.1) h
    · exact congrArg (fun t => t.2.2.2) h

-- ============================================================================
-- Equation lemmas for BindPropertyToObject
-- ============================================================================

theorem BindPropertyToObject_eq_fail (s : EngineState) (oid : Nat)
    (p : PropertyEntry) (hf : s.schedule s.fcnt = true) :
    BindPropertyToObject s (JSVal.obj oid) p =
      (JSVal.exception,
       { s with objs := freeValObjs (dupValObjs s.objs p.value) p.value,
                fcnt := s.fcnt + 1,
                pendingError := some (ErrKind.jsInternalError,
                                      "failed to bind property") }) := by
  unfold BindPropertyToObject JS_DefinePropertyValueStr fallibleCall JS_DupValue
    JS_FreeValue ThrowInternalError
  simp [hf]

theorem BindPropertyToObject_eq_success (s : EngineState) (oid : Nat)
    (p : PropertyEntry) (hf : s.schedule s.fcnt = false) (dx : ObjData)
    (hdx : lookupA (dupValObjs s.objs p.value) oid = some dx) :
    BindPropertyToObject s (JSVal.obj oid) p =
      (JSVal.undefined,
       { s with objs := defineOwnObjs (dupValObjs s.objs p.value) oid p.name
                          (PropVal.data p.value p.flags),
                fcnt := s.fcnt + 1,
                trace := s.trace ++ [Event.bindProperty (JSVal.obj oid) p] }) := by
  unfold BindPropertyToObject JS_DefinePropertyValueStr fallibleCall JS_DupValue
    defineOwn
  simp [hf, hdx]

/-- Outcome analysis of BindPropertyToObject on a live target object:
either an exception, or success with exactly one upserted data property on
the target, one appended bind event, and no other observable change. -/
theorem BindPropertyToObject_spec (s : EngineState) (oid : Nat)
    (p : PropertyEntry) (d : ObjData) (h : lookupA s.objs oid = some d) :
    (BindPropertyToObject s (JSVal.obj oid) p).1 = JSVal.exception ∨
    ((BindPropertyToObject s (JSVal.obj oid) p).1 = JSVal.undefined ∧
     ∃ d2, lookupA (BindPropertyToObject s (JSVal.obj oid) p).2.objs oid = some d2 ∧
       d2.kind = d.kind ∧ d2.classId = d.classId ∧ d2.protoVal = d.protoVal ∧
       d2.props = upsertA d.props p.name (PropVal.data p.value p.flags) ∧
       (∀ i, i ≠ oid → viewA (BindPropertyToObject s (JSVal.obj oid) p).2.objs i
          = viewA s.objs i) ∧
       (BindPropertyToObject s (JSVal.obj oid) p).2.trace
         = s.trace ++ [Event.bindProperty (JSVal.obj oid) p] ∧
       (BindPropertyToObject s (JSVal.obj oid) p).2.nextObj = s.nextObj ∧
       (BindPropertyToObject s (JSVal.obj oid) p).2.registry = s.registry ∧
       (BindPropertyToObject s (JSVal.obj oid) p).2.classProtos = s.classProtos) := by
  cases hf : s.schedule s.fcnt with
  | true =>
    left
    rw [BindPropertyToObject_eq_fail s oid p hf]
  | false =>
    have hdup : viewA (dupValObjs s.objs p.value) oid
        = some (d.kind, d.classId, d.protoVal, d.props) := by
      rw [viewA_dupVal]; simp [viewA, h, objView]
    obtain ⟨d1, hd1, hk1, hc1, hp1, hpr1⟩ := viewA_some _ _ _ _ _ _ hdup
    right
    rw [BindPropertyToObject_eq_success s oid p hf d1 hd1]
    refine ⟨rfl, ?_⟩
    have hview : viewA (defineOwnObjs (dupValObjs s.objs p.value) oid p.name
        (PropVal.data p.value p.flags)) oid
        = some (d.kind, d.classId, d.protoVal,
                upsertA d.props p.name (PropVal.data p.value p.flags)) := by
      rw [viewA_defineOwn_self _ _ _ _ d1 hd1, hk1, hc1, hp1, hpr1]
    obtain ⟨d2, hd2, h1, h2, h3, h4⟩ := viewA_some _ _ _ _ _ _ hview
    refine ⟨d2, hd2, h1, h2, h3, h4, ?_, rfl, rfl, rfl, rfl⟩
    intro i hi
    show viewA (defineOwnObjs (dupValObjs s.objs p.value) oid p.name
      (PropVal.data p.value p.flags)) i = viewA s.objs i
    rw [viewA_defineOwn_ne _ _ _ _ _ hi, viewA_dupVal]

/-- The instance-property loop of CreateClassInstance, on success, binds
exactly the non-static entries in order: the target's property table is
the corresponding upsert fold, the trace gains one bindProperty event per
bound entry in order, and nothing else observable changes. -/
theorem bindInstanceProps_spec (l : List PropertyEntry) :
    ∀ (s : EngineState) (oid : Nat) (d : ObjData),
    lookupA s.objs oid = some d →
    JS_IsException (bindInstanceProps s (JSVal.obj oid) l).1 = false →
    (bindInstanceProps s (JSVal.obj oid) l).1 = JSVal.undefined ∧
    ∃ d2, lookupA (bindInstanceProps s (JSVal.obj oid) l).2.objs oid = some d2 ∧
      d2.kind = d.kind ∧ d2.classId = d.classId ∧ d2.protoVal = d.protoVal ∧
      d2.props = (l.filter (fun p => p.is_static = false)).foldl
        (fun ps p => upsertA ps p.name (PropVal.data p.value p.flags)) d.props ∧
      (bindInstanceProps s (JSVal.obj oid) l).2.trace
        = s.trace ++ (l.filter (fun p => p.is_static = false)).map
            (Event.bindProperty (JSVal.obj oid)) ∧
      (bindInstanceProps s (JSVal.obj oid) l).2.nextObj = s.nextObj ∧
      (bindInstanceProps s (JSVal.obj oid) l).2.registry = s.registry ∧
      (bindInstanceProps s (JSVal.obj oid) l).2.classProtos = s.classProtos := by
  induction l with
  | nil =>
    intro s oid d h hsucc
    exact ⟨rfl, d, h, rfl, rfl, rfl, by simp, by simp [bindInstanceProps], rfl,
      rfl, rfl⟩
  | cons p rest ih =>
    intro s oid d h hsucc
    by_cases hstat : p.is_static = false
    · rcases BindPropertyToObject_spec s oid p d h with hexc | ⟨hund, d2, hd2,
        hk, hc, hp, hprops, hother, htr, hnx, hreg, hcp⟩
      · exfalso
        simp only [bindInstanceProps, if_pos hstat] at hsucc
        obtain ⟨r1, st1, hB⟩ : ∃ r1 st1,
            BindPropertyToObject s (JSVal.obj oid) p = (r1, st1) := ⟨_, _, rfl⟩
        rw [hB] at hsucc hexc
        simp only at hexc
        subst hexc
        simp [JS_IsException] at hsucc
      · obtain ⟨r1, st1, hB⟩ : ∃ r1 st1,
            BindPropertyToObject s (JSVal.obj oid) p = (r1, st1) := ⟨_, _, rfl⟩
        rw [hB] at hund hd2 hother htr hnx hreg hcp
        simp only at hund hd2 hother htr hnx hreg hcp
        subst hund
        simp only [bindInstanceProps, if_pos hstat, hB, JS_IsException,
          Bool.false_eq_true] at hsucc ⊢
        rw [if_neg not_false] at hsucc ⊢
        obtain ⟨hres, d3, hd3, hk3, hc3, hp3, hprops3, htr3, hnx3, hreg3, hcp3⟩ :=
          ih st1 oid d2 hd2 hsucc
        refine ⟨hres, d3, hd3, by rw [hk3, hk], by rw [hc3, hc],
          by rw [hp3, hp], ?_, ?_, by rw [hnx3, hnx], by rw [hreg3, hreg],
          by rw [hcp3, hcp]⟩
        · rw [hprops3, hprops]
          simp [hstat]
        · rw [htr3, htr]
          simp [hstat, List.append_assoc]
    · have hstat2 : p.is_static = true := by
        cases hsb : p.is_static
        · exact absurd hsb hstat
        · rfl
      simp only [bindInstanceProps, if_neg hstat] at hsucc ⊢
      obtain ⟨hres, d3, hd3, hk3, hc3, hp3, hprops3, htr3, hnx3, hreg3, hcp3⟩ :=
        ih s oid d h hsucc
      refine ⟨hres, d3, hd3, hk3, hc3, hp3, ?_, ?_, hnx3, hreg3, hcp3⟩
      · rw [hprops3]
        simp [hstat2]
      · rw [htr3]
        simp [hstat2]

theorem JS_GetPropertyStr_eq_success (s : EngineState) (target : JSVal)
    (n : String) (hf : s.schedule s.fcnt = false) :
    JS_GetPropertyStr s target n =
      (getPropPure s target n,
       { s with fcnt := s.fcnt + 1,
                trace := s.trace ++ [Event.getProp target n],
                objs := dupValObjs s.objs (getPropPure s target n) }) := by
  unfold JS_GetPropertyStr fallibleCall JS_DupValue
  simp [hf]
  exact ⟨rfl, rfl⟩

theorem JS_NewObjectProtoClass_eq_success (s : EngineState) (proto : JSVal)
    (cid : Nat) (hf : s.schedule s.fcnt = false) :
    JS_NewObjectProtoClass s proto cid =
      (JSVal.obj s.nextObj,
       { s with fcnt := s.fcnt + 1,
                nextObj := s.nextObj + 1,
                objs := (s.nextObj, plainData cid proto) :: dupValObjs s.objs proto }) := by
  unfold JS_NewObjectProtoClass fallibleCall allocObj JS_DupValue plainData
  simp [hf]

/-- C7: a successful CreateClassInstance run (starting from an empty
trace) reads the constructor's "prototype" slot (the read is the first
logged action), allocates a fresh object (id = the allocator value)
carrying that prototype value and the given class id, binds exactly the
non-static instanceProperties to it (in order, visible in its property
table before the call returns), and performs no host-record (opaque
handle) association. -/
theorem createClassInstance_spec (s : EngineState) (ctor : JSVal) (cid : Nat)
    (ips : List PropertyEntry) (hts : s.trace = [])
    (hsucc : JS_IsException (CreateClassInstance s ctor cid ips).1 = false) :
    ∃ oid d,
      oid = s.nextObj ∧
      (CreateClassInstance s ctor cid ips).1 = JSVal.obj oid ∧
      lookupA (CreateClassInstance s ctor cid ips).2.objs oid = some d ∧
      d.classId = cid ∧
      d.protoVal = getPropPure s ctor "prototype" ∧
      d.props = instFold ips ∧
      (CreateClassInstance s ctor cid ips).2.trace
        = Event.getProp ctor "prototype"
            :: (ips.filter (fun p => p.is_static = false)).map
                 (Event.bindProperty (JSVal.obj oid)) ∧
      ∀ t hid, Event.setOpaque t hid ∉ (CreateClassInstance s ctor cid ips).2.trace := by
  by_cases hcid : 65536 ≤ cid
  · exfalso
    simp [CreateClassInstance, hcid, ThrowRangeError, JS_IsException] at hsucc
  · by_cases hf1 : s.schedule s.fcnt = true
    · exfalso
      simp [CreateClassInstance, hcid, JS_GetPropertyStr, fallibleCall, hf1,
        ThrowEngineFailure, JS_IsException] at hsucc
    · have hf1f : s.schedule s.fcnt = false := by
        cases hb : s.schedule s.fcnt
        · rfl
        · exact absurd hb hf1
      simp only [CreateClassInstance, if_neg hcid] at hsucc ⊢
      rw [JS_GetPropertyStr_eq_success s ctor "prototype" hf1f] at hsucc ⊢
      simp only at hsucc ⊢
      by_cases hpe : JS_IsException (getPropPure s ctor "prototype") = true
      · exfalso
        rw [if_pos hpe] at hsucc
        simp only at hsucc
        rw [hpe] at hsucc
        cases hsucc
      · rw [if_neg hpe] at hsucc ⊢
        by_cases hf2 : s.schedule (s.fcnt + 1) = true
        · exfalso
          simp [JS_NewObjectProtoClass, fallibleCall, hf2,
            ThrowEngineFailure, JS_FreeValue, JS_IsException] at hsucc
        · have hf2f : ({ s with
                fcnt := s.fcnt + 1,
                trace := s.trace ++ [Event.getProp ctor "prototype"],
                objs := dupValObjs s.objs (getPropPure s ctor "prototype") }
                  : EngineState).schedule
              ({ s with
                fcnt := s.fcnt + 1,
                trace := s.trace ++ [Event.getProp ctor "prototype"],
                objs := dupValObjs s.objs (getPropPure s ctor "prototype") }
                  : EngineState).fcnt = false := by
            show s.schedule (s.fcnt + 1) = false
            cases hb : s.schedule (s.fcnt + 1)
            · rfl
            · exact absurd hb hf2
          rw [JS_NewObjectProtoClass_eq_success _
            (getPropPure s ctor "prototype") cid hf2f] at hsucc ⊢
          simp only [JS_FreeValue, JS_IsException, Bool.false_eq_true]
            at hsucc ⊢
          rw [if_neg not_false] at hsucc ⊢
          obtain ⟨d0, hd0l, hdk, hdc, hdp, hdpr⟩ : ∃ d0,
              lookupA (freeValObjs
                ((s.nextObj,
                  plainData cid (getPropPure s ctor "prototype")) :: dupValObjs
                      (dupValObjs s.objs (getPropPure s ctor "prototype"))
                      (getPropPure s ctor "prototype"))
                (getPropPure s ctor "prototype")) s.nextObj = some d0 ∧
              d0.kind = ObjKind.plain ∧ d0.classId = cid ∧
              d0.protoVal = getPropPure s ctor "prototype" ∧ d0.props = [] := by
            apply viewA_some
            rw [viewA_freeVal]
            simp [viewA, lookupA, objView, plainData]
          obtain ⟨r4, s4, hB4⟩ : ∃ r4 s4,
              bindInstanceProps
                { s with
                    fcnt := s.fcnt + 1 + 1,
                    nextObj := s.nextObj + 1,
                    objs := freeValObjs
                      ((s.nextObj,
                        plainData cid (getPropPure s ctor "prototype")) :: dupValObjs
                            (dupValObjs s.objs (getPropPure s ctor "prototype"))
                            (getPropPure s ctor "prototype"))
                      (getPropPure s ctor "prototype"),
                    trace := s.trace ++ [Event.getProp ctor "prototype"] }
                (JSVal.obj s.nextObj) ips = (r4, s4) := ⟨_, _, rfl⟩
          have hspec := bindInstanceProps_spec ips
            { s with
                fcnt := s.fcnt + 1 + 1,
                nextObj := s.nextObj + 1,
                objs := freeValObjs
                  ((s.nextObj,
                    plainData cid (getPropPure s ctor "prototype")) :: dupValObjs
                        (dupValObjs s.objs (getPropPure s ctor "prototype"))
                        (getPropPure s ctor "prototype"))
                  (getPropPure s ctor "prototype"),
                trace := s.trace ++ [Event.getProp ctor "prototype"] }
            s.nextObj d0 hd0l
          rw [hB4] at hsucc hspec ⊢
          simp only at hsucc hspec ⊢
          cases r4 with
          | exception =>
            exfalso
            simp at hsucc
          | obj k =>
            exfalso
            obtain ⟨habs, _⟩ := hspec rfl
            simp at habs
          | undefined =>
            obtain ⟨_, d2, hd2, hk2, hc2, hp2, hprops2, htr2, _, _, _⟩ :=
              hspec rfl
            dsimp only
            rw [if_neg (show ¬(false = true) by simp)]
            refine ⟨s.nextObj, d2, rfl, rfl, hd2, ?_, ?_, ?_, ?_, ?_⟩
            · rw [hc2, hdc]
            · rw [hp2, hdp]
            · rw [hprops2, hdpr]
              rfl
            · rw [htr2]
              show (s.trace ++ [Event.getProp ctor "prototype"]) ++ _ = _
              rw [hts]
              simp
            · intro t hid hmem
              rw [htr2] at hmem
              revert hmem
              show Event.setOpaque t hid ∈
                (s.trace ++ [Event.getProp ctor "prototype"]) ++ _ → False
              rw [hts]
              simp

/-- C7 witness: constructing an instance of the registered class of
`ctorState` with one non-static and one static property entry. -/
theorem createClassInstance_spec_witness :
    ctorState.trace = [] ∧
    JS_IsException
      (CreateClassInstance ctorState (JSVal.obj 1) 0 [instProp, staticProp]).1
        = false ∧
    ∃ oid d,
      oid = ctorState.nextObj ∧
      (CreateClassInstance ctorState (JSVal.obj 1) 0 [instProp, staticProp]).1
        = JSVal.obj oid ∧
      lookupA (CreateClassInstance ctorState (JSVal.obj 1) 0
        [instProp, staticProp]).2.objs oid = some d ∧
      d.classId = 0 ∧
      d.protoVal = getPropPure ctorState (JSVal.obj 1) "prototype" ∧
      d.props = instFold [instProp, staticProp] ∧
      (CreateClassInstance ctorState (JSVal.obj 1) 0 [instProp, staticProp]).2.trace
        = Event.getProp (JSVal.obj 1) "prototype"
            :: ([instProp, staticProp].filter
                  (fun p => p.is_static = false)).map
                 (Event.bindProperty (JSVal.obj oid)) ∧
      ∀ t hid, Event.setOpaque t hid ∉
        (CreateClassInstance ctorState (JSVal.obj 1) 0 [instProp, staticProp]).2.trace :=
  ⟨rfl, by decide,
   createClassInstance_spec ctorState (JSVal.obj 1) 0 [instProp, staticProp]
     rfl (by decide)⟩

-- ============================================================================
-- Equation lemmas for function creation and property definition
-- ============================================================================

theorem lookupA_mem {κ α : Type} [DecidableEq κ] (l : List (κ × α)) (k : κ)
    (v : α) (h : lookupA l k = some v) : (k, v) ∈ l := by
  induction l with
  | nil => cases h
  | cons e r ih =>
    by_cases hk : e.1 = k
    · simp [lookupA, hk] at h
      subst hk
      subst h
      simp
    · simp [lookupA, hk] at h
      exact List.mem_cons_of_mem _ (ih h)

theorem JS_NewCFunction2_eq_fail (s : EngineState) (fname : String)
    (flen : Nat) (ft : Nat) (hid : Int) (hf : s.schedule s.fcnt = true) :
    JS_NewCFunction2 s fname flen ft hid
      = (JSVal.exception,
         { s with fcnt := s.fcnt + 1,
                  pendingError := some (ErrKind.engineFailure, "") }) := by
  simp [JS_NewCFunction2, fallibleCall, ThrowEngineFailure, hf]

theorem JS_NewCFunction2_eq_success (s : EngineState) (fname : String)
    (flen : Nat) (ft : Nat) (hid : Int) (hf : s.schedule s.fcnt = false) :
    JS_NewCFunction2 s fname flen ft hid
      = (JSVal.obj s.nextObj,
         { s with fcnt := s.fcnt + 1,
                  nextObj := s.nextObj + 1,
                  objs := (s.nextObj, cfuncData ft hid fname) :: s.objs }) := by
  simp [JS_NewCFunction2, fallibleCall, allocObj, cfuncData, hf]

theorem CreateCFunction_ctorMagic (s : EngineState) (fname : String)
    (flen : Nat) (hid : Int) :
    CreateCFunction s fname flen GetCFuncConstructorMagic hid
      = JS_NewCFunction2 s fname flen GetCFuncConstructorMagic hid := by
  simp [CreateCFunction]

theorem CreateCFunction_genericMagic (s : EngineState) (fname : String)
    (flen : Nat) (hid : Int) :
    CreateCFunction s fname flen GetCFuncGenericMagic hid
      = JS_NewCFunction2 s fname flen GetCFuncGenericMagic hid := by
  simp [CreateCFunction, GetCFuncGenericMagic, GetCFuncConstructorMagic]

theorem CreateCFunction_getterMagic (s : EngineState) (fname : String)
    (flen : Nat) (hid : Int) :
    CreateCFunction s fname flen GetCFuncGetterMagic hid
      = JS_NewCFunction2 s fname flen GetCFuncGetterMagic hid := by
  simp [CreateCFunction, GetCFuncGenericMagic, GetCFuncConstructorMagic,
    GetCFuncGetterMagic]

theorem CreateCFunction_setterMagic (s : EngineState) (fname : String)
    (flen : Nat) (hid : Int) :
    CreateCFunction s fname flen GetCFuncSetterMagic hid
      = JS_NewCFunction2 s fname flen GetCFuncSetterMagic hid := by
  simp [CreateCFunction, GetCFuncGenericMagic, GetCFuncConstructorMagic,
    GetCFuncGetterMagic, GetCFuncSetterMagic]

theorem JS_DefinePropertyValueStr_eq_fail (s : EngineState) (target : JSVal)
    (n : String) (v : JSVal) (flags : Nat) (hf : s.schedule s.fcnt = true) :
    JS_DefinePropertyValueStr s target n v flags
      = (-1, { s with fcnt := s.fcnt + 1 }) := by
  simp [JS_DefinePropertyValueStr, fallibleCall, hf]

theorem JS_DefinePropertyValueStr_eq_success (s : EngineState) (oid : Nat)
    (n : String) (v : JSVal) (flags : Nat) (dx : ObjData)
    (hf : s.schedule s.fcnt = false) (hdx : lookupA s.objs oid = some dx) :
    JS_DefinePropertyValueStr s (JSVal.obj oid) n v flags
      = (0, { s with fcnt := s.fcnt + 1,
                     objs := defineOwnObjs s.objs oid n
                       (PropVal.data v flags) }) := by
  simp [JS_DefinePropertyValueStr, fallibleCall, defineOwn, hf, hdx]

theorem JS_DefinePropertyGetSet_eq_fail (s : EngineState) (target : JSVal)
    (n : String) (g t : JSVal) (flags : Nat) (hf : s.schedule s.fcnt = true) :
    JS_DefinePropertyGetSet s target n g t flags
      = (-1, { s with fcnt := s.fcnt + 1 }) := by
  simp [JS_DefinePropertyGetSet, fallibleCall, hf]

theorem JS_DefinePropertyGetSet_eq_success (s : EngineState) (oid : Nat)
    (n : String) (g t : JSVal) (flags : Nat) (dx : ObjData)
    (hf : s.schedule s.fcnt = false) (hdx : lookupA s.objs oid = some dx) :
    JS_DefinePropertyGetSet s (JSVal.obj oid) n g t flags
      = (0, { s with fcnt := s.fcnt + 1,
                     objs := defineOwnObjs s.objs oid n
                       (PropVal.accessor g t) }) := by
  simp [JS_DefinePropertyGetSet, fallibleCall, defineOwn, hf, hdx]

theorem JS_NewObject_eq_success (s : EngineState)
    (hf : s.schedule s.fcnt = false) :
    JS_NewObject s
      = (JSVal.obj s.nextObj,
         { s with fcnt := s.fcnt + 1,
                  nextObj := s.nextObj + 1,
                  objs := (s.nextObj, plainData 1 JSVal.undefined) :: s.objs }) := by
  simp [JS_NewObject, fallibleCall, allocObj, plainData, hf]

theorem JS_SetConstructor_obj (s : EngineState) (fid pid : Nat) :
    JS_SetConstructor s (JSVal.obj fid) (JSVal.obj pid)
      = { s with objs := defineOwnObjs (dupValObjs (defineOwnObjs (dupValObjs s.objs (JSVal.obj pid)) fid "prototype" (PropVal.data (JSVal.obj pid) 0)) (JSVal.obj fid)) pid "constructor" (PropVal.data (JSVal.obj fid) GetPropertyWritableConfigurable) } :=
  rfl

/-- Outcome analysis of BindMethodToObject on a live target object with a
well-formed id: either an exception, or success having created exactly one
fresh generic-magic function object bound under the method's name. -/
theorem BindMethodToObject_spec (s : EngineState) (oid : Nat)
    (m : MethodEntry) (d : ObjData) (h : lookupA s.objs oid = some d)
    (hlt : oid < s.nextObj) :
    (BindMethodToObject s (JSVal.obj oid) m).1 = JSVal.exception ∨
    ((BindMethodToObject s (JSVal.obj oid) m).1 = JSVal.undefined ∧
     ∃ f d2,
       f = s.nextObj ∧
       lookupA (BindMethodToObject s (JSVal.obj oid) m).2.objs oid = some d2 ∧
       d2.kind = d.kind ∧ d2.classId = d.classId ∧ d2.protoVal = d.protoVal ∧
       d2.props = upsertA d.props m.name
         (PropVal.data (JSVal.obj f) GetPropertyWritableConfigurable) ∧
       kindOf (BindMethodToObject s (JSVal.obj oid) m).2 f
         = some (ObjKind.cfunc GetCFuncGenericMagic m.handler_id m.name) ∧
       (∀ i, i ≠ oid → i < s.nextObj →
         viewA (BindMethodToObject s (JSVal.obj oid) m).2.objs i
           = viewA s.objs i) ∧
       (BindMethodToObject s (JSVal.obj oid) m).2.trace
         = s.trace ++ [Event.bindMethod (JSVal.obj oid) m] ∧
       (BindMethodToObject s (JSVal.obj oid) m).2.nextObj = s.nextObj + 1 ∧
       (BindMethodToObject s (JSVal.obj oid) m).2.registry = s.registry ∧
       (BindMethodToObject s (JSVal.obj oid) m).2.classProtos
         = s.classProtos) := by
  unfold BindMethodToObject
  rw [CreateCFunction_genericMagic]
  by_cases hf1 : s.schedule s.fcnt = true
  · left
    rw [JS_NewCFunction2_eq_fail _ _ _ _ _ hf1]
    simp [JS_IsException]
  · have hf1f : s.schedule s.fcnt = false := by
      cases hb : s.schedule s.fcnt
      · rfl
      · exact absurd hb hf1
    rw [JS_NewCFunction2_eq_success _ _ _ _ _ hf1f]
    simp only [JS_IsException, Bool.false_eq_true]
    rw [if_neg not_false]
    by_cases hf2 : s.schedule (s.fcnt + 1) = true
    · left
      have hf2A : ({ s with fcnt := s.fcnt + 1, nextObj := s.nextObj + 1, objs := (s.nextObj, cfuncData GetCFuncGenericMagic m.handler_id m.name) :: s.objs } : EngineState).schedule ({ s with fcnt := s.fcnt + 1, nextObj := s.nextObj + 1, objs := (s.nextObj, cfuncData GetCFuncGenericMagic m.handler_id m.name) :: s.objs } : EngineState).fcnt = true := hf2
      rw [JS_DefinePropertyValueStr_eq_fail _ _ _ _ _ hf2A]
      simp [ThrowInternalError]
    · have hf2f : ({ s with fcnt := s.fcnt + 1, nextObj := s.nextObj + 1, objs := (s.nextObj, cfuncData GetCFuncGenericMagic m.handler_id m.name) :: s.objs } : EngineState).schedule ({ s with fcnt := s.fcnt + 1, nextObj := s.nextObj + 1, objs := (s.nextObj, cfuncData GetCFuncGenericMagic m.handler_id m.name) :: s.objs } : EngineState).fcnt = false := by
        show s.schedule (s.fcnt + 1) = false
        cases hb : s.schedule (s.fcnt + 1)
        · rfl
        · exact absurd hb hf2
      have hdA : lookupA ((s.nextObj, cfuncData GetCFuncGenericMagic m.handler_id m.name) :: s.objs) oid = some d := by
        have hne : ¬(s.nextObj = oid) := by omega
        simp [lookupA, hne, h]
      rw [JS_DefinePropertyValueStr_eq_success _ oid m.name
        (JSVal.obj s.nextObj) GetPropertyWritableConfigurable d hf2f hdA]
      simp only
      rw [if_neg (show ¬((0 : Int) < 0) by norm_num)]
      right
      refine ⟨rfl, s.nextObj, ?_⟩
      have hview : viewA (defineOwnObjs ((s.nextObj, cfuncData GetCFuncGenericMagic m.handler_id m.name) :: s.objs) oid m.name (PropVal.data (JSVal.obj s.nextObj) GetPropertyWritableConfigurable)) oid
          = some (d.kind, d.classId, d.protoVal,
              upsertA d.props m.name (PropVal.data (JSVal.obj s.nextObj)
                GetPropertyWritableConfigurable)) :=
        viewA_defineOwn_self _ _ _ _ d hdA
      obtain ⟨d2, hd2, hk2, hc2, hp2, hpr2⟩ := viewA_some _ _ _ _ _ _ hview
      refine ⟨d2, rfl, hd2, hk2, hc2, hp2, hpr2, ?_, ?_, rfl, rfl, rfl, rfl⟩
      · have hne : s.nextObj ≠ oid := by omega
        have hvf : viewA (defineOwnObjs ((s.nextObj, cfuncData GetCFuncGenericMagic m.handler_id m.name) :: s.objs) oid m.name (PropVal.data (JSVal.obj s.nextObj) GetPropertyWritableConfigurable)) s.nextObj
            = some (ObjKind.cfunc GetCFuncGenericMagic m.handler_id m.name,
                1, JSVal.undefined, []) := by
          rw [viewA_defineOwn_ne _ _ _ _ _ hne]
          simp [viewA, lookupA, objView, cfuncData]
        obtain ⟨dF, hdF, hkF, _, _, _⟩ := viewA_some _ _ _ _ _ _ hvf
        show kindOf _ s.nextObj = _
        simp [kindOf, hdF, hkF]
      · intro i hi hilt
        show viewA (defineOwnObjs _ oid m.name _) i = viewA s.objs i
        rw [viewA_defineOwn_ne _ _ _ _ _ hi]
        have hne : ¬(s.nextObj = i) := by omega
        simp [viewA, lookupA, hne]

/-- Outcome analysis of BindAccessorToObject on a live target object:
either an exception, or success having bound an accessor slot whose getter
and setter are `undefined` for absent handler ids (0) and fresh
getter-magic / setter-magic function objects otherwise. -/
theorem BindAccessorToObject_spec (s : EngineState) (oid : Nat)
    (a : AccessorEntry) (d : ObjData) (h : lookupA s.objs oid = some d)
    (hlt : oid < s.nextObj) :
    (BindAccessorToObject s (JSVal.obj oid) a).1 = JSVal.exception ∨
    ((BindAccessorToObject s (JSVal.obj oid) a).1 = JSVal.undefined ∧
     ∃ gv tv d2,
       lookupA (BindAccessorToObject s (JSVal.obj oid) a).2.objs oid = some d2 ∧
       d2.kind = d.kind ∧ d2.classId = d.classId ∧ d2.protoVal = d.protoVal ∧
       d2.props = upsertA d.props a.name (PropVal.accessor gv tv) ∧
       accSideSpecB (BindAccessorToObject s (JSVal.obj oid) a).2 gv
         GetCFuncGetterMagic a.getter_id a.name oid
         (BindAccessorToObject s (JSVal.obj oid) a).2.nextObj ∧
       accSideSpecB (BindAccessorToObject s (JSVal.obj oid) a).2 tv
         GetCFuncSetterMagic a.setter_id a.name oid
         (BindAccessorToObject s (JSVal.obj oid) a).2.nextObj ∧
       (∀ i, i ≠ oid → i < s.nextObj →
         viewA (BindAccessorToObject s (JSVal.obj oid) a).2.objs i
           = viewA s.objs i) ∧
       (BindAccessorToObject s (JSVal.obj oid) a).2.trace
         = s.trace ++ [Event.bindAccessor (JSVal.obj oid) a] ∧
       s.nextObj ≤ (BindAccessorToObject s (JSVal.obj oid) a).2.nextObj ∧
       (BindAccessorToObject s (JSVal.obj oid) a).2.registry = s.registry ∧
       (BindAccessorToObject s (JSVal.obj oid) a).2.classProtos
         = s.classProtos) := by
  by_cases hg : a.getter_id = 0
  · by_cases ht : a.setter_id = 0
    · -- no getter, no setter
      unfold BindAccessorToObject
      rw [if_neg (show ¬(a.getter_id ≠ 0) by simp [hg])]
      dsimp only
      rw [if_neg (show ¬(JS_IsException JSVal.undefined = true) by
        simp [JS_IsException])]
      rw [if_neg (show ¬(a.setter_id ≠ 0) by simp [ht])]
      dsimp only
      rw [if_neg (show ¬(JS_IsException JSVal.undefined = true) by
        simp [JS_IsException])]
      by_cases hf : s.schedule s.fcnt = true
      · left
        rw [JS_DefinePropertyGetSet_eq_fail _ _ _ _ _ _ hf]
        dsimp only
        rw [if_pos (show ((-1 : Int) < 0) by norm_num)]
        simp [ThrowInternalError]
      · have hff : s.schedule s.fcnt = false := by
          cases hb : s.schedule s.fcnt
          · rfl
          · exact absurd hb hf
        rw [JS_DefinePropertyGetSet_eq_success _ oid a.name JSVal.undefined
          JSVal.undefined GetPropertyConfigurable d hff h]
        dsimp only
        rw [if_neg (show ¬((0 : Int) < 0) by norm_num)]
        right
        refine ⟨rfl, JSVal.undefined, JSVal.undefined, ?_⟩
        have hview := viewA_defineOwn_self s.objs oid a.name
          (PropVal.accessor JSVal.undefined JSVal.undefined) d h
        obtain ⟨d2, hd2, hk2, hc2, hp2, hpr2⟩ := viewA_some _ _ _ _ _ _ hview
        refine ⟨d2, hd2, hk2, hc2, hp2, hpr2, ?_, ?_, ?_, rfl, by simp,
          rfl, rfl⟩
        · simp [accSideSpecB, hg]
        · simp [accSideSpecB, ht]
        · intro i hi hilt
          show viewA (defineOwnObjs _ oid a.name _) i = viewA s.objs i
          rw [viewA_defineOwn_ne _ _ _ _ _ hi]
    · -- setter only
      unfold BindAccessorToObject
      rw [if_neg (show ¬(a.getter_id ≠ 0) by simp [hg])]
      dsimp only
      rw [if_neg (show ¬(JS_IsException JSVal.undefined = true) by
        simp [JS_IsException])]
      rw [if_pos (show a.setter_id ≠ 0 from ht)]
      rw [CreateCFunction_setterMagic]
      by_cases hf1 : s.schedule s.fcnt = true
      · left
        rw [JS_NewCFunction2_eq_fail _ _ _ _ _ hf1]
        dsimp only
        rw [if_pos (show JS_IsException JSVal.exception = true by
          simp [JS_IsException])]
      · have hf1f : s.schedule s.fcnt = false := by
          cases hb : s.schedule s.fcnt
          · rfl
          · exact absurd hb hf1
        rw [JS_NewCFunction2_eq_success _ _ _ _ _ hf1f]
        dsimp only
        rw [if_neg (show ¬(JS_IsException (JSVal.obj s.nextObj) = true) by
          simp [JS_IsException])]
        by_cases hf2 : s.schedule (s.fcnt + 1) = true
        · left
          have hf2A : ({ s with fcnt := s.fcnt + 1, nextObj := s.nextObj + 1, objs := (s.nextObj, cfuncData GetCFuncSetterMagic a.setter_id a.name) :: s.objs } : EngineState).schedule ({ s with fcnt := s.fcnt + 1, nextObj := s.nextObj + 1, objs := (s.nextObj, cfuncData GetCFuncSetterMagic a.setter_id a.name) :: s.objs } : EngineState).fcnt = true := hf2
          rw [JS_DefinePropertyGetSet_eq_fail _ _ _ _ _ _ hf2A]
          dsimp only
          rw [if_pos (show ((-1 : Int) < 0) by norm_num)]
          simp [ThrowInternalError]
        · have hf2f : ({ s with fcnt := s.fcnt + 1, nextObj := s.nextObj + 1, objs := (s.nextObj, cfuncData GetCFuncSetterMagic a.setter_id a.name) :: s.objs } : EngineState).schedule ({ s with fcnt := s.fcnt + 1, nextObj := s.nextObj + 1, objs := (s.nextObj, cfuncData GetCFuncSetterMagic a.setter_id a.name) :: s.objs } : EngineState).fcnt = false := by
            show s.schedule (s.fcnt + 1) = false
            cases hb : s.schedule (s.fcnt + 1)
            · rfl
            · exact absurd hb hf2
          have hdA : lookupA ((s.nextObj, cfuncData GetCFuncSetterMagic a.setter_id a.name) :: s.objs) oid = some d := by
            have hne : ¬(s.nextObj = oid) := by omega
            simp [lookupA, hne, h]
          rw [JS_DefinePropertyGetSet_eq_success _ oid a.name JSVal.undefined
            (JSVal.obj s.nextObj) GetPropertyConfigurable d hf2f hdA]
          dsimp only
          rw [if_neg (show ¬((0 : Int) < 0) by norm_num)]
          right
          refine ⟨rfl, JSVal.undefined, JSVal.obj s.nextObj, ?_⟩
          have hview := viewA_defineOwn_self ((s.nextObj, cfuncData GetCFuncSetterMagic a.setter_id a.name) :: s.objs) oid a.name (PropVal.accessor JSVal.undefined (JSVal.obj s.nextObj)) d hdA
          obtain ⟨d2, hd2, hk2, hc2, hp2, hpr2⟩ := viewA_some _ _ _ _ _ _ hview
          have hne : s.nextObj ≠ oid := by omega
          have hvf : viewA (defineOwnObjs ((s.nextObj, cfuncData GetCFuncSetterMagic a.setter_id a.name) :: s.objs) oid a.name (PropVal.accessor JSVal.undefined (JSVal.obj s.nextObj))) s.nextObj = some (ObjKind.cfunc GetCFuncSetterMagic a.setter_id a.name, 1, JSVal.undefined, []) := by
            rw [viewA_defineOwn_ne _ _ _ _ _ hne]
            simp [viewA, lookupA, objView, cfuncData]
          obtain ⟨dF, hdF, hkF, _, _, _⟩ := viewA_some _ _ _ _ _ _ hvf
          refine ⟨d2, hd2, hk2, hc2, hp2, hpr2, ?_, ?_, ?_, rfl, by simp,
            rfl, rfl⟩
          · simp [accSideSpecB, hg]
          · simp only [accSideSpecB, if_neg ht]
            refine ⟨s.nextObj, by omega, ?_, rfl, by simp [kindOf, hdF, hkF]⟩
            show s.nextObj < s.nextObj + 1
            omega
          · intro i hi hilt
            show viewA (defineOwnObjs _ oid a.name _) i = viewA s.objs i
            rw [viewA_defineOwn_ne _ _ _ _ _ hi]
            have hne2 : ¬(s.nextObj = i) := by omega
            simp [viewA, lookupA, hne2]
  · by_cases ht : a.setter_id = 0
    · -- getter only
      unfold BindAccessorToObject
      rw [if_pos (show a.getter_id ≠ 0 from hg)]
      rw [CreateCFunction_getterMagic]
      by_cases hf1 : s.schedule s.fcnt = true
      · left
        rw [JS_NewCFunction2_eq_fail _ _ _ _ _ hf1]
        dsimp only
        rw [if_pos (show JS_IsException JSVal.exception = true by
          simp [JS_IsException])]
      · have hf1f : s.schedule s.fcnt = false := by
          cases hb : s.schedule s.fcnt
          · rfl
          · exact absurd hb hf1
        rw [JS_NewCFunction2_eq_success _ _ _ _ _ hf1f]
        dsimp only
        rw [if_neg (show ¬(JS_IsException (JSVal.obj s.nextObj) = true) by
          simp [JS_IsException])]
        rw [if_neg (show ¬(a.setter_id ≠ 0) by simp [ht])]
        dsimp only
        rw [if_neg (show ¬(JS_IsException JSVal.undefined = true) by
          simp [JS_IsException])]
        by_cases hf2 : s.schedule (s.fcnt + 1) = true
        · left
          have hf2A : ({ s with fcnt := s.fcnt + 1, nextObj := s.nextObj + 1, objs := (s.nextObj, cfuncData GetCFuncGetterMagic a.getter_id a.name) :: s.objs } : EngineState).schedule ({ s with fcnt := s.fcnt + 1, nextObj := s.nextObj + 1, objs := (s.nextObj, cfuncData GetCFuncGetterMagic a.getter_id a.name) :: s.objs } : EngineState).fcnt = true := hf2
          rw [JS_DefinePropertyGetSet_eq_fail _ _ _ _ _ _ hf2A]
          dsimp only
          rw [if_pos (show ((-1 : Int) < 0) by norm_num)]
          simp [ThrowInternalError]
        · have hf2f : ({ s with fcnt := s.fcnt + 1, nextObj := s.nextObj + 1, objs := (s.nextObj, cfuncData GetCFuncGetterMagic a.getter_id a.name) :: s.objs } : EngineState).schedule ({ s with fcnt := s.fcnt + 1, nextObj := s.nextObj + 1, objs := (s.nextObj, cfuncData GetCFuncGetterMagic a.getter_id a.name) :: s.objs } : EngineState).fcnt = false := by
            show s.schedule (s.fcnt + 1) = false
            cases hb : s.schedule (s.fcnt + 1)
            · rfl
            · exact absurd hb hf2
          have hdA : lookupA ((s.nextObj, cfuncData GetCFuncGetterMagic a.getter_id a.name) :: s.objs) oid = some d := by
            have hne : ¬(s.nextObj = oid) := by omega
            simp [lookupA, hne, h]
          rw [JS_DefinePropertyGetSet_eq_success _ oid a.name
            (JSVal.obj s.nextObj) JSVal.undefined GetPropertyConfigurable d
            hf2f hdA]
          dsimp only
          rw [if_neg (show ¬((0 : Int) < 0) by norm_num)]
          right
          refine ⟨rfl, JSVal.obj s.nextObj, JSVal.undefined, ?_⟩
          have hview := viewA_defineOwn_self ((s.nextObj, cfuncData GetCFuncGetterMagic a.getter_id a.name) :: s.objs) oid a.name (PropVal.accessor (JSVal.obj s.nextObj) JSVal.undefined) d hdA
          obtain ⟨d2, hd2, hk2, hc2, hp2, hpr2⟩ := viewA_some _ _ _ _ _ _ hview
          have hne : s.nextObj ≠ oid := by omega
          have hvf : viewA (defineOwnObjs ((s.nextObj, cfuncData GetCFuncGetterMagic a.getter_id a.name) :: s.objs) oid a.name (PropVal.accessor (JSVal.obj s.nextObj) JSVal.undefined)) s.nextObj = some (ObjKind.cfunc GetCFuncGetterMagic a.getter_id a.name, 1, JSVal.undefined, []) := by
            rw [viewA_defineOwn_ne _ _ _ _ _ hne]
            simp [viewA, lookupA, objView, cfuncData]
          obtain ⟨dF, hdF, hkF, _, _, _⟩ := viewA_some _ _ _ _ _ _ hvf
          refine ⟨d2, hd2, hk2, hc2, hp2, hpr2, ?_, ?_, ?_, rfl, by simp,
            rfl, rfl⟩
          · simp only [accSideSpecB, if_neg hg]
            refine ⟨s.nextObj, by omega, ?_, rfl, by simp [kindOf, hdF, hkF]⟩
            show s.nextObj < s.nextObj + 1
            omega
          · simp [accSideSpecB, ht]
          · intro i hi hilt
            show viewA (defineOwnObjs _ oid a.name _) i = viewA s.objs i
            rw [viewA_defineOwn_ne _ _ _ _ _ hi]
            have hne2 : ¬(s.nextObj = i) := by omega
            simp [viewA, lookupA, hne2]
    · -- getter and setter
      unfold BindAccessorToObject
      rw [if_pos (show a.getter_id ≠ 0 from hg)]
      rw [CreateCFunction_getterMagic]
      by_cases hf1 : s.schedule s.fcnt = true
      · left
        rw [JS_NewCFunction2_eq_fail _ _ _ _ _ hf1]
        dsimp only
        rw [if_pos (show JS_IsException JSVal.exception = true by
          simp [JS_IsException])]
      · have hf1f : s.schedule s.fcnt = false := by
          cases hb : s.schedule s.fcnt
          · rfl
          · exact absurd hb hf1
        rw [JS_NewCFunction2_eq_success _ _ _ _ _ hf1f]
        dsimp only
        rw [if_neg (show ¬(JS_IsException (JSVal.obj s.nextObj) = true) by
          simp [JS_IsException])]
        rw [if_pos (show a.setter_id ≠ 0 from ht)]
        rw [CreateCFunction_setterMagic]
        by_cases hf2 : s.schedule (s.fcnt + 1) = true
        · left
          have hf2A : ({ s with fcnt := s.fcnt + 1, nextObj := s.nextObj + 1, objs := (s.nextObj, cfuncData GetCFuncGetterMagic a.getter_id a.name) :: s.objs } : EngineState).schedule ({ s with fcnt := s.fcnt + 1, nextObj := s.nextObj + 1, objs := (s.nextObj, cfuncData GetCFuncGetterMagic a.getter_id a.name) :: s.objs } : EngineState).fcnt = true := hf2
          rw [JS_NewCFunction2_eq_fail _ _ _ _ _ hf2A]
          dsimp only
          rw [if_pos (show JS_IsException JSVal.exception = true by
            simp [JS_IsException])]
        · have hf2f : ({ s with fcnt := s.fcnt + 1, nextObj := s.nextObj + 1, objs := (s.nextObj, cfuncData GetCFuncGetterMagic a.getter_id a.name) :: s.objs } : EngineState).schedule ({ s with fcnt := s.fcnt + 1, nextObj := s.nextObj + 1, objs := (s.nextObj, cfuncData GetCFuncGetterMagic a.getter_id a.name) :: s.objs } : EngineState).fcnt = false := by
            show s.schedule (s.fcnt + 1) = false
            cases hb : s.schedule (s.fcnt + 1)
            · rfl
            · exact absurd hb hf2
          rw [JS_NewCFunction2_eq_success _ _ _ _ _ hf2f]
          dsimp only
          rw [if_neg (show ¬(JS_IsException (JSVal.obj (s.nextObj + 1)) = true)
            by simp [JS_IsException])]
          by_cases hf3 : s.schedule (s.fcnt + 1 + 1) = true
          · left
            have hf3A : ({ s with fcnt := s.fcnt + 1 + 1, nextObj := s.nextObj + 1 + 1, objs := (s.nextObj + 1, cfuncData GetCFuncSetterMagic a.setter_id a.name) :: (s.nextObj, cfuncData GetCFuncGetterMagic a.getter_id a.name) :: s.objs } : EngineState).schedule ({ s with fcnt := s.fcnt + 1 + 1, nextObj := s.nextObj + 1 + 1, objs := (s.nextObj + 1, cfuncData GetCFuncSetterMagic a.setter_id a.name) :: (s.nextObj, cfuncData GetCFuncGetterMagic a.getter_id a.name) :: s.objs } : EngineState).fcnt = true := hf3
            rw [JS_DefinePropertyGetSet_eq_fail _ _ _ _ _ _ hf3A]
            dsimp only
            rw [if_pos (show ((-1 : Int) < 0) by norm_num)]
            simp [ThrowInternalError]
          · have hf3f : ({ s with fcnt := s.fcnt + 1 + 1, nextObj := s.nextObj + 1 + 1, objs := (s.nextObj + 1, cfuncData GetCFuncSetterMagic a.setter_id a.name) :: (s.nextObj, cfuncData GetCFuncGetterMagic a.getter_id a.name) :: s.objs } : EngineState).schedule ({ s with fcnt := s.fcnt + 1 + 1, nextObj := s.nextObj + 1 + 1, objs := (s.nextObj + 1, cfuncData GetCFuncSetterMagic a.setter_id a.name) :: (s.nextObj, cfuncData GetCFuncGetterMagic a.getter_id a.name) :: s.objs } : EngineState).fcnt = false := by
              show s.schedule (s.fcnt + 1 + 1) = false
              cases hb : s.schedule (s.fcnt + 1 + 1)
              · rfl
              · exact absurd hb hf3
            have hdA : lookupA ((s.nextObj + 1, cfuncData GetCFuncSetterMagic a.setter_id a.name) :: (s.nextObj, cfuncData GetCFuncGetterMagic a.getter_id a.name) :: s.objs) oid = some d := by
              have hne1 : ¬(s.nextObj + 1 = oid) := by omega
              have hne2 : ¬(s.nextObj = oid) := by omega
              simp [lookupA, hne1, hne2, h]
            rw [JS_DefinePropertyGetSet_eq_success _ oid a.name
              (JSVal.obj s.nextObj) (JSVal.obj (s.nextObj + 1))
              GetPropertyConfigurable d hf3f hdA]
            dsimp only
            rw [if_neg (show ¬((0 : Int) < 0) by norm_num)]
            right
            refine ⟨rfl, JSVal.obj s.nextObj, JSVal.obj (s.nextObj + 1), ?_⟩
            have hview := viewA_defineOwn_self ((s.nextObj + 1, cfuncData GetCFuncSetterMagic a.setter_id a.name) :: (s.nextObj, cfuncData GetCFuncGetterMagic a.getter_id a.name) :: s.objs) oid a.name (PropVal.accessor (JSVal.obj s.nextObj) (JSVal.obj (s.nextObj + 1))) d hdA
            obtain ⟨d2, hd2, hk2, hc2, hp2, hpr2⟩ := viewA_some _ _ _ _ _ _ hview
            have hneg : s.nextObj ≠ oid := by omega
            have hnet : s.nextObj + 1 ≠ oid := by omega
            have hvg : viewA (defineOwnObjs ((s.nextObj + 1, cfuncData GetCFuncSetterMagic a.setter_id a.name) :: (s.nextObj, cfuncData GetCFuncGetterMagic a.getter_id a.name) :: s.objs) oid a.name (PropVal.accessor (JSVal.obj s.nextObj) (JSVal.obj (s.nextObj + 1)))) s.nextObj = some (ObjKind.cfunc GetCFuncGetterMagic a.getter_id a.name, 1, JSVal.undefined, []) := by
              rw [viewA_defineOwn_ne _ _ _ _ _ hneg]
              have hne3 : ¬(s.nextObj + 1 = s.nextObj) := by omega
              simp [viewA, lookupA, hne3, objView, cfuncData]
            have hvt : viewA (defineOwnObjs ((s.nextObj + 1, cfuncData GetCFuncSetterMagic a.setter_id a.name) :: (s.nextObj, cfuncData GetCFuncGetterMagic a.getter_id a.name) :: s.objs) oid a.name (PropVal.accessor (JSVal.obj s.nextObj) (JSVal.obj (s.nextObj + 1)))) (s.nextObj + 1) = some (ObjKind.cfunc GetCFuncSetterMagic a.setter_id a.name, 1, JSVal.undefined, []) := by
              rw [viewA_defineOwn_ne _ _ _ _ _ hnet]
              simp [viewA, lookupA, objView, cfuncData]
            obtain ⟨dG, hdG, hkG, _, _, _⟩ := viewA_some _ _ _ _ _ _ hvg
            obtain ⟨dT, hdT, hkT, _, _, _⟩ := viewA_some _ _ _ _ _ _ hvt
            refine ⟨d2, hd2, hk2, hc2, hp2, hpr2, ?_, ?_, ?_, rfl,
              by show s.nextObj ≤ s.nextObj + 1 + 1; omega, rfl, rfl⟩
            · simp only [accSideSpecB, if_neg hg]
              refine ⟨s.nextObj, by omega, ?_, rfl, by simp [kindOf, hdG, hkG]⟩
              show s.nextObj < s.nextObj + 1 + 1
              omega
            · simp only [accSideSpecB, if_neg ht]
              refine ⟨s.nextObj + 1, by omega, ?_, rfl, by simp [kindOf, hdT, hkT]⟩
              show s.nextObj + 1 < s.nextObj + 1 + 1
              omega
            · intro i hi hilt
              show viewA (defineOwnObjs _ oid a.name _) i = viewA s.objs i
              rw [viewA_defineOwn_ne _ _ _ _ _ hi]
              have hne4 : ¬(s.nextObj + 1 = i) := by omega
              have hne5 : ¬(s.nextObj = i) := by omega
              simp [viewA, lookupA, hne4, hne5]

-- ============================================================================
-- Slot-specification transfer lemmas
-- ============================================================================

theorem kindOf_eq_viewA (s : EngineState) (i : Nat) :
    kindOf s i = (viewA s.objs i).map (fun t => t.1) := by
  unfold kindOf viewA
  cases lookupA s.objs i with
  | none => rfl
  | some d => simp [objView]

theorem accSideSpecB_mono (s1 s2 : EngineState) (v : JSVal) (ftype : Nat)
    (hid : Int) (n : String) (oid b1 b2 : Nat) (hb : b1 ≤ b2)
    (hview : ∀ i, i ≠ oid → i < b1 → viewA s2.objs i = viewA s1.objs i)
    (hspec : accSideSpecB s1 v ftype hid n oid b1) :
    accSideSpecB s2 v ftype hid n oid b2 := by
  unfold accSideSpecB at hspec ⊢
  by_cases h0 : hid = 0
  · simpa [h0] using hspec
  · simp only [if_neg h0] at hspec ⊢
    obtain ⟨f, hne, hltf, hv, hk⟩ := hspec
    refine ⟨f, hne, lt_of_lt_of_le hltf hb, hv, ?_⟩
    rw [kindOf_eq_viewA, hview f hne hltf, ← kindOf_eq_viewA]
    exact hk

theorem slotMatchesB_mono (s1 s2 : EngineState) (oid b1 b2 : Nat) (n : String)
    (mr : MemberRef) (hb : b1 ≤ b2)
    (hprop : propOf s2 oid n = propOf s1 oid n)
    (hview : ∀ i, i ≠ oid → i < b1 → viewA s2.objs i = viewA s1.objs i)
    (hm : slotMatchesB s1 oid b1 n mr) : slotMatchesB s2 oid b2 n mr := by
  cases mr with
  | meth m =>
    obtain ⟨f, hne, hltf, hp, hk⟩ := hm
    refine ⟨f, hne, lt_of_lt_of_le hltf hb, ?_, ?_⟩
    · rw [hprop]; exact hp
    · rw [kindOf_eq_viewA, hview f hne hltf, ← kindOf_eq_viewA]; exact hk
  | acc a =>
    obtain ⟨gv, tv, hp, hgs, hts⟩ := hm
    exact ⟨gv, tv, by rw [hprop]; exact hp,
      accSideSpecB_mono s1 s2 gv _ _ _ oid b1 b2 hb hview hgs,
      accSideSpecB_mono s1 s2 tv _ _ _ oid b1 b2 hb hview hts⟩
  | prop p =>
    show propOf s2 oid n = _
    rw [hprop]; exact hm

theorem slotMatchesB_weaken (s : EngineState) (oid b : Nat) (n : String)
    (mr : MemberRef) (hm : slotMatchesB s oid b n mr) :
    slotMatches s oid n mr := by
  cases mr with
  | meth m =>
    obtain ⟨f, _, _, hp, hk⟩ := hm
    exact ⟨f, hp, hk⟩
  | acc a =>
    obtain ⟨gv, tv, hp, hgs, hts⟩ := hm
    refine ⟨gv, tv, hp, ?_, ?_⟩
    · unfold accSideSpecB at hgs
      unfold accSideSpec
      by_cases h0 : a.getter_id = 0
      · simpa [h0] using hgs
      · simp only [if_neg h0] at hgs ⊢
        obtain ⟨f, _, _, hv, hk⟩ := hgs
        exact ⟨f, hv, hk⟩
    · unfold accSideSpecB at hts
      unfold accSideSpec
      by_cases h0 : a.setter_id = 0
      · simpa [h0] using hts
      · simp only [if_neg h0] at hts ⊢
        obtain ⟨f, _, _, hv, hk⟩ := hts
        exact ⟨f, hv, hk⟩
  | prop p => exact hm

/-- Sequential member binding, on success, emits exactly one bind event
per member in order, keeps the target alive with unchanged kind/class/
prototype, preserves every other previously allocated object's view, and
realises last-write-wins: for every name, the final slot is determined by
the last member carrying that name (and names never bound are untouched). -/
theorem bindMemberList_spec (L : List MemberRef) :
    ∀ (s : EngineState) (oid : Nat) (d : ObjData),
    lookupA s.objs oid = some d → oid < s.nextObj →
    JS_IsException (bindMemberList s (JSVal.obj oid) L).1 = false →
    (bindMemberList s (JSVal.obj oid) L).1 = JSVal.undefined ∧
    (bindMemberList s (JSVal.obj oid) L).2.trace
      = s.trace ++ L.map (eventOf (JSVal.obj oid)) ∧
    s.nextObj ≤ (bindMemberList s (JSVal.obj oid) L).2.nextObj ∧
    (bindMemberList s (JSVal.obj oid) L).2.registry = s.registry ∧
    (bindMemberList s (JSVal.obj oid) L).2.classProtos = s.classProtos ∧
    (∃ d2, lookupA (bindMemberList s (JSVal.obj oid) L).2.objs oid = some d2 ∧
       d2.kind = d.kind ∧ d2.classId = d.classId ∧ d2.protoVal = d.protoVal) ∧
    (∀ i, i ≠ oid → i < s.nextObj →
       viewA (bindMemberList s (JSVal.obj oid) L).2.objs i = viewA s.objs i) ∧
    (∀ n, (lastNamed L n).elim
       (propOf (bindMemberList s (JSVal.obj oid) L).2 oid n = propOf s oid n)
       (fun mr => slotMatchesB (bindMemberList s (JSVal.obj oid) L).2 oid
          (bindMemberList s (JSVal.obj oid) L).2.nextObj n mr)) := by
  induction L with
  | nil =>
    intro s oid d h hlt hsucc
    exact ⟨rfl, by simp [bindMemberList], le_refl _, rfl, rfl,
      ⟨d, h, rfl, rfl, rfl⟩, fun i _ _ => rfl, fun n => rfl⟩
  | cons mr rest ih =>
    intro s oid d h hlt hsucc
    cases mr with
    | meth m =>
      rcases BindMethodToObject_spec s oid m d h hlt with hexc |
        ⟨hund, f, dmid, hf, hdmid, hkm, hcm, hpm, hprm, hkind, hviews, htrm,
          hnxm, hregm, hcpm⟩
      · exfalso
        simp only [bindMemberList, bindMember] at hsucc
        obtain ⟨r1, st1, hB⟩ : ∃ r1 st1,
            BindMethodToObject s (JSVal.obj oid) m = (r1, st1) := ⟨_, _, rfl⟩
        rw [hB] at hsucc hexc
        simp only at hexc
        subst hexc
        simp [JS_IsException] at hsucc
      · obtain ⟨r1, st1, hB⟩ : ∃ r1 st1,
            BindMethodToObject s (JSVal.obj oid) m = (r1, st1) := ⟨_, _, rfl⟩
        rw [hB] at hund hdmid hkind hviews htrm hnxm hregm hcpm
        simp only at hund hdmid hkind hviews htrm hnxm hregm hcpm
        subst hund
        simp only [bindMemberList, bindMember, hB, JS_IsException,
          Bool.false_eq_true] at hsucc ⊢
        rw [if_neg not_false] at hsucc ⊢
        have hlt1 : oid < st1.nextObj := by rw [hnxm]; omega
        obtain ⟨hres, htr2, hnx2, hreg2, hcp2, ⟨d3, hd3, hk3, hc3, hp3⟩,
          hview2, hslot2⟩ := ih st1 oid dmid hdmid hlt1 hsucc
        refine ⟨hres, ?_, ?_, ?_, ?_, ⟨d3, hd3, ?_, ?_, ?_⟩, ?_, ?_⟩
        · rw [htr2, htrm]
          simp [eventOf, List.append_assoc]
        · rw [hnxm] at hnx2
          omega
        · rw [hreg2, hregm]
        · rw [hcp2, hcpm]
        · rw [hk3, hkm]
        · rw [hc3, hcm]
        · rw [hp3, hpm]
        · intro i hi hilt
          rw [hview2 i hi (by omega), hviews i hi hilt]
        · intro n
          have hrest := hslot2 n
          cases hlast : lastNamed rest n with
          | some mr2 =>
            rw [hlast] at hrest
            rw [show lastNamed (MemberRef.meth m :: rest) n = some mr2 by
              simp [lastNamed, hlast]]
            simpa using hrest
          | none =>
            rw [hlast] at hrest
            simp only [Option.elim] at hrest
            by_cases hname : memberName (MemberRef.meth m) = n
            · rw [show lastNamed (MemberRef.meth m :: rest) n
                = some (MemberRef.meth m) by simp [lastNamed, hlast, hname]]
              simp only [Option.elim]
              subst hname
              have hstep : slotMatchesB st1 oid st1.nextObj
                  (memberName (MemberRef.meth m)) (MemberRef.meth m) := by
                refine ⟨f, by omega, by omega, ?_, hkind⟩
                show propOf st1 oid m.name = _
                simp only [propOf, hdmid, hprm]
                exact lookupA_upsertA_self _ _ _
              exact slotMatchesB_mono st1 _ oid st1.nextObj _ _
                (MemberRef.meth m) hnx2 hrest hview2 hstep
            · rw [show lastNamed (MemberRef.meth m :: rest) n = none by
                simp [lastNamed, hlast, hname]]
              simp only [Option.elim]
              rw [hrest]
              show propOf st1 oid n = propOf s oid n
              simp only [propOf, hdmid, h, hprm]
              exact lookupA_upsertA_ne _ _ _ _ (fun hh => hname hh.symm)
    | acc a =>
      rcases BindAccessorToObject_spec s oid a d h hlt with hexc |
        ⟨hund, gv, tv, dmid, hdmid, hkm, hcm, hpm, hprm, hgspec, htspec,
          hviews, htrm, hnxm, hregm, hcpm⟩
      · exfalso
        simp only [bindMemberList, bindMember] at hsucc
        obtain ⟨r1, st1, hB⟩ : ∃ r1 st1,
            BindAccessorToObject s (JSVal.obj oid) a = (r1, st1) := ⟨_, _, rfl⟩
        rw [hB] at hsucc hexc
        simp only at hexc
        subst hexc
        simp [JS_IsException] at hsucc
      · obtain ⟨r1, st1, hB⟩ : ∃ r1 st1,
            BindAccessorToObject s (JSVal.obj oid) a = (r1, st1) := ⟨_, _, rfl⟩
        rw [hB] at hund hdmid hgspec htspec hviews htrm hnxm hregm hcpm
        simp only at hund hdmid hgspec htspec hviews htrm hnxm hregm hcpm
        subst hund
        simp only [bindMemberList, bindMember, hB, JS_IsException,
          Bool.false_eq_true] at hsucc ⊢
        rw [if_neg not_false] at hsucc ⊢
        have hlt1 : oid < st1.nextObj := by omega
        obtain ⟨hres, htr2, hnx2, hreg2, hcp2, ⟨d3, hd3, hk3, hc3, hp3⟩,
          hview2, hslot2⟩ := ih st1 oid dmid hdmid hlt1 hsucc
        refine ⟨hres, ?_, ?_, ?_, ?_, ⟨d3, hd3, ?_, ?_, ?_⟩, ?_, ?_⟩
        · rw [htr2, htrm]
          simp [eventOf, List.append_assoc]
        · omega
        · rw [hreg2, hregm]
        · rw [hcp2, hcpm]
        · rw [hk3, hkm]
        · rw [hc3, hcm]
        · rw [hp3, hpm]
        · intro i hi hilt
          rw [hview2 i hi (by omega), hviews i hi hilt]
        · intro n
          have hrest := hslot2 n
          cases hlast : lastNamed rest n with
          | some mr2 =>
            rw [hlast] at hrest
            rw [show lastNamed (MemberRef.acc a :: rest) n = some mr2 by
              simp [lastNamed, hlast]]
            simpa using hrest
          | none =>
            rw [hlast] at hrest
            simp only [Option.elim] at hrest
            by_cases hname : memberName (MemberRef.acc a) = n
            · rw [show lastNamed (MemberRef.acc a :: rest) n
                = some (MemberRef.acc a) by simp [lastNamed, hlast, hname]]
              simp only [Option.elim]
              subst hname
              have hstep : slotMatchesB st1 oid st1.nextObj
                  (memberName (MemberRef.acc a)) (MemberRef.acc a) := by
                refine ⟨gv, tv, ?_, hgspec, htspec⟩
                show propOf st1 oid a.name = _
                simp only [propOf, hdmid, hprm]
                exact lookupA_upsertA_self _ _ _
              exact slotMatchesB_mono st1 _ oid st1.nextObj _ _
                (MemberRef.acc a) hnx2 hrest hview2 hstep
            · rw [show lastNamed (MemberRef.acc a :: rest) n = none by
                simp [lastNamed, hlast, hname]]
              simp only [Option.elim]
              rw [hrest]
              show propOf st1 oid n = propOf s oid n
              simp only [propOf, hdmid, h, hprm]
              exact lookupA_upsertA_ne _ _ _ _ (fun hh => hname hh.symm)
    | prop p =>
      rcases BindPropertyToObject_spec s oid p d h with hexc |
        ⟨hund, dmid, hdmid, hkm, hcm, hpm, hprm, hviews, htrm, hnxm, hregm,
          hcpm⟩
      · exfalso
        simp only [bindMemberList, bindMember] at hsucc
        obtain ⟨r1, st1, hB⟩ : ∃ r1 st1,
            BindPropertyToObject s (JSVal.obj oid) p = (r1, st1) := ⟨_, _, rfl⟩
        rw [hB] at hsucc hexc
        simp only at hexc
        subst hexc
        simp [JS_IsException] at hsucc
      · obtain ⟨r1, st1, hB⟩ : ∃ r1 st1,
            BindPropertyToObject s (JSVal.obj oid) p = (r1, st1) := ⟨_, _, rfl⟩
        rw [hB] at hund hdmid hviews htrm hnxm hregm hcpm
        simp only at hund hdmid hviews htrm hnxm hregm hcpm
        subst hund
        simp only [bindMemberList, bindMember, hB, JS_IsException,
          Bool.false_eq_true] at hsucc ⊢
        rw [if_neg not_false] at hsucc ⊢
        have hlt1 : oid < st1.nextObj := by rw [hnxm]; omega
        obtain ⟨hres, htr2, hnx2, hreg2, hcp2, ⟨d3, hd3, hk3, hc3, hp3⟩,
          hview2, hslot2⟩ := ih st1 oid dmid hdmid hlt1 hsucc
        refine ⟨hres, ?_, ?_, ?_, ?_, ⟨d3, hd3, ?_, ?_, ?_⟩, ?_, ?_⟩
        · rw [htr2, htrm]
          simp [eventOf, List.append_assoc]
        · rw [hnxm] at hnx2
          omega
        · rw [hreg2, hregm]
        · rw [hcp2, hcpm]
        · rw [hk3, hkm]
        · rw [hc3, hcm]
        · rw [hp3, hpm]
        · intro i hi hilt
          rw [hview2 i hi (by omega), hviews i hi]
        · intro n
          have hrest := hslot2 n
          cases hlast : lastNamed rest n with
          | some mr2 =>
            rw [hlast] at hrest
            rw [show lastNamed (MemberRef.prop p :: rest) n = some mr2 by
              simp [lastNamed, hlast]]
            simpa using hrest
          | none =>
            rw [hlast] at hrest
            simp only [Option.elim] at hrest
            by_cases hname : memberName (MemberRef.prop p) = n
            · rw [show lastNamed (MemberRef.prop p :: rest) n
                = some (MemberRef.prop p) by simp [lastNamed, hlast, hname]]
              simp only [Option.elim]
              subst hname
              have hstep : slotMatchesB st1 oid st1.nextObj
                  (memberName (MemberRef.prop p)) (MemberRef.prop p) := by
                show propOf st1 oid p.name = _
                simp only [propOf, hdmid, hprm]
                exact lookupA_upsertA_self _ _ _
              exact slotMatchesB_mono st1 _ oid st1.nextObj _ _
                (MemberRef.prop p) hnx2 hrest hview2 hstep
            · rw [show lastNamed (MemberRef.prop p :: rest) n = none by
                simp [lastNamed, hlast, hname]]
              simp only [Option.elim]
              rw [hrest]
              show propOf st1 oid n = propOf s oid n
              simp only [propOf, hdmid, h, hprm]
              exact lookupA_upsertA_ne _ _ _ _ (fun hh => hname hh.symm)

theorem JS_IsException_iff (v : JSVal) :
    JS_IsException v = true ↔ v = JSVal.exception := by
  cases v <;> simp [JS_IsException]

theorem JS_NewClass_eq_success (s : EngineState) (cid : Nat)
    (hf : s.schedule s.fcnt = false) :
    JS_NewClass s cid
      = (0, { s with fcnt := s.fcnt + 1, registry := cid :: s.registry }) := by
  simp [JS_NewClass, fallibleCall, hf]

theorem JS_NewClass_eq_fail (s : EngineState) (cid : Nat)
    (hf : s.schedule s.fcnt = true) :
    JS_NewClass s cid = (-1, { s with fcnt := s.fcnt + 1 }) := by
  simp [JS_NewClass, fallibleCall, hf]

theorem bindMethods_eq (li : List MethodEntry) :
    ∀ (s : EngineState) (obj : JSVal) (st : Bool),
    bindMethods s obj st li
      = bindMemberList s obj
          ((li.filter (fun m => m.is_static = st)).map MemberRef.meth) := by
  induction li with
  | nil => intro s obj st; rfl
  | cons m rest ih =>
    intro s obj st
    obtain ⟨r1, s1, hB⟩ : ∃ r1 s1,
        BindMethodToObject s obj m = (r1, s1) := ⟨_, _, rfl⟩
    by_cases hm : m.is_static = st
    · have hfil : (m :: rest).filter (fun x => x.is_static = st)
          = m :: rest.filter (fun x => x.is_static = st) := by
        simp [List.filter_cons, hm]
      rw [hfil]
      simp only [List.map_cons, bindMemberList, bindMember, bindMethods,
        if_pos hm, hB]
      by_cases hexc : JS_IsException r1 = true
      · simp [hexc]
      · simp [hexc, ih]
    · have hfil : (m :: rest).filter (fun x => x.is_static = st)
          = rest.filter (fun x => x.is_static = st) := by
        simp [List.filter_cons, hm]
      rw [hfil]
      simp only [bindMethods, if_neg hm]
      exact ih s obj st

theorem bindAccessors_eq (li : List AccessorEntry) :
    ∀ (s : EngineState) (obj : JSVal) (st : Bool),
    bindAccessors s obj st li
      = bindMemberList s obj
          ((li.filter (fun a => a.is_static = st)).map MemberRef.acc) := by
  induction li with
  | nil => intro s obj st; rfl
  | cons a rest ih =>
    intro s obj st
    obtain ⟨r1, s1, hB⟩ : ∃ r1 s1,
        BindAccessorToObject s obj a = (r1, s1) := ⟨_, _, rfl⟩
    by_cases ha : a.is_static = st
    · have hfil : (a :: rest).filter (fun x => x.is_static = st)
          = a :: rest.filter (fun x => x.is_static = st) := by
        simp [List.filter_cons, ha]
      rw [hfil]
      simp only [List.map_cons, bindMemberList, bindMember, bindAccessors,
        if_pos ha, hB]
      by_cases hexc : JS_IsException r1 = true
      · simp [hexc]
      · simp [hexc, ih]
    · have hfil : (a :: rest).filter (fun x => x.is_static = st)
          = rest.filter (fun x => x.is_static = st) := by
        simp [List.filter_cons, ha]
      rw [hfil]
      simp only [bindAccessors, if_neg ha]
      exact ih s obj st

theorem bindProperties_eq (li : List PropertyEntry) :
    ∀ (s : EngineState) (obj : JSVal) (st : Bool),
    bindProperties s obj st li
      = bindMemberList s obj
          ((li.filter (fun p => p.is_static = st)).map MemberRef.prop) := by
  induction li with
  | nil => intro s obj st; rfl
  | cons p rest ih =>
    intro s obj st
    obtain ⟨r1, s1, hB⟩ : ∃ r1 s1,
        BindPropertyToObject s obj p = (r1, s1) := ⟨_, _, rfl⟩
    by_cases hp : p.is_static = st
    · have hfil : (p :: rest).filter (fun x => x.is_static = st)
          = p :: rest.filter (fun x => x.is_static = st) := by
        simp [List.filter_cons, hp]
      rw [hfil]
      simp only [List.map_cons, bindMemberList, bindMember, bindProperties,
        if_pos hp, hB]
      by_cases hexc : JS_IsException r1 = true
      · simp [hexc]
      · simp [hexc, ih]
    · have hfil : (p :: rest).filter (fun x => x.is_static = st)
          = rest.filter (fun x => x.is_static = st) := by
        simp [List.filter_cons, hp]
      rw [hfil]
      simp only [bindProperties, if_neg hp]
      exact ih s obj st

theorem bindMemberList_append (A B : List MemberRef) :
    ∀ (s : EngineState) (obj : JSVal),
    bindMemberList s obj (A ++ B)
      = (match bindMemberList s obj A with
         | (r, s1) => if JS_IsException r = true then (r, s1)
                      else bindMemberList s1 obj B) := by
  induction A with
  | nil =>
    intro s obj
    simp [bindMemberList, JS_IsException]
  | cons x xs ih =>
    intro s obj
    obtain ⟨r1, s1, hB⟩ : ∃ r1 s1, bindMember s obj x = (r1, s1) := ⟨_, _, rfl⟩
    simp only [List.cons_append, bindMemberList, hB]
    by_cases hexc : JS_IsException r1 = true
    · simp [hexc]
    · simp [hexc, ih]

theorem bindMemberList_res (L : List MemberRef) :
    ∀ (s : EngineState) (obj : JSVal),
    (bindMemberList s obj L).1 = JSVal.undefined ∨
    (bindMemberList s obj L).1 = JSVal.exception := by
  induction L with
  | nil => intro s obj; left; rfl
  | cons x xs ih =>
    intro s obj
    obtain ⟨r1, s1, hB⟩ : ∃ r1 s1, bindMember s obj x = (r1, s1) := ⟨_, _, rfl⟩
    simp only [bindMemberList, hB]
    by_cases hexc : JS_IsException r1 = true
    · simp only [if_pos hexc]
      right
      exact (JS_IsException_iff r1).mp hexc
    · simp only [if_neg hexc]
      exact ih s1 obj

theorem BindMembersToObject_eq (s : EngineState) (obj : JSVal)
    (ms : List MethodEntry) (acs : List AccessorEntry)
    (ps : List PropertyEntry) (st : Bool) :
    BindMembersToObject s obj ms acs ps st
      = bindMemberList s obj (passMembers ms acs ps st) := by
  unfold BindMembersToObject passMembers
  rw [bindMemberList_append, bindMemberList_append]
  simp only [← bindMethods_eq, ← bindAccessors_eq, ← bindProperties_eq]
  obtain ⟨r1, s1, h1⟩ : ∃ r1 s1, bindMethods s obj st ms = (r1, s1) :=
    ⟨_, _, rfl⟩
  rw [h1]
  by_cases e1 : JS_IsException r1 = true
  · simp [e1]
  · simp only [if_neg e1]
    obtain ⟨r2, s2, h2⟩ : ∃ r2 s2, bindAccessors s1 obj st acs = (r2, s2) :=
      ⟨_, _, rfl⟩
    rw [h2]
    by_cases e2 : JS_IsException r2 = true
    · simp [e2]
    · simp only [if_neg (by simp [e2] : ¬(JS_IsException r2 = true))]
      obtain ⟨r3, s3, h3⟩ : ∃ r3 s3, bindProperties s2 obj st ps = (r3, s3) :=
        ⟨_, _, rfl⟩
      rw [h3]
      by_cases e3 : JS_IsException r3 = true
      · simp [e3]
      · simp only [if_neg (by simp [e3] : ¬(JS_IsException r3 = true))]
        have := bindMemberList_res
          ((ps.filter (fun p => p.is_static = st)).map MemberRef.prop) s2 obj
        rw [← bindProperties_eq, h3] at this
        simp only at this
        rcases this with hu | he
        · rw [hu]
        · exact absurd ((JS_IsException_iff r3).mpr he) e3

theorem passEvents_eq_map (obj : JSVal) (ms : List MethodEntry)
    (acs : List AccessorEntry) (ps : List PropertyEntry) (st : Bool) :
    passEvents obj ms acs ps st
      = (passMembers ms acs ps st).map (eventOf obj) := by
  simp [passEvents, passMembers, List.map_append, List.map_map,
    Function.comp_def, eventOf]

/-- C6: one binding pass of BindMembersToObject on object `oid`, when it
succeeds, binds the matching methods first, then the matching accessors,
then the matching data properties, each list in its given order — the
trace extends by exactly those bind events in that order — and when
several entries of the pass share a name the final slot for that name is
the one demanded by the LAST such entry in processing order: later
bindings overwrite earlier ones (the table keeps one slot per name,
nothing duplicates and nothing fails on a repeated name), while names
bound by no member of the pass keep their previous slot. -/
theorem bindMembers_order_last_write_wins (s : EngineState) (oid : Nat)
    (ms : List MethodEntry) (acs : List AccessorEntry)
    (ps : List PropertyEntry) (st : Bool) (d : ObjData)
    (h : lookupA s.objs oid = some d) (hlt : oid < s.nextObj)
    (hsucc : JS_IsException
        (BindMembersToObject s (JSVal.obj oid) ms acs ps st).1 = false) :
    (BindMembersToObject s (JSVal.obj oid) ms acs ps st).2.trace
      = s.trace ++ passEvents (JSVal.obj oid) ms acs ps st ∧
    ∀ n, (lastNamed (passMembers ms acs ps st) n).elim
        (propOf (BindMembersToObject s (JSVal.obj oid) ms acs ps st).2 oid n
          = propOf s oid n)
        (fun mr => slotMatches
            (BindMembersToObject s (JSVal.obj oid) ms acs ps st).2 oid n mr) := by
  rw [BindMembersToObject_eq] at hsucc ⊢
  obtain ⟨-, htr, -, -, -, -, -, hslot⟩ :=
    bindMemberList_spec (passMembers ms acs ps st) s oid d h hlt hsucc
  refine ⟨?_, ?_⟩
  · rw [htr, passEvents_eq_map]
  · intro n
    have hn := hslot n
    cases hl : lastNamed (passMembers ms acs ps st) n with
    | none =>
      rw [hl] at hn
      exact hn
    | some mr =>
      rw [hl] at hn
      simp only [Option.elim] at hn ⊢
      exact slotMatchesB_weaken _ _ _ _ _ hn

/-- C6 witness: on a one-object engine, binding a method named "x" and
then a data property also named "x" (both non-static, same pass) logs
the method bind before the property bind, and the final slot for "x" is
the data property's — the later binding wins. -/
theorem bindMembers_order_last_write_wins_witness :
    lookupA objState.objs 0
      = some { kind := ObjKind.plain, classId := 1,
               protoVal := JSVal.undefined, props := [], rc := 1 } ∧
    0 < objState.nextObj ∧
    JS_IsException
      (BindMembersToObject objState (JSVal.obj 0)
        [dupMeth] [] [dupProp] false).1 = false ∧
    ((BindMembersToObject objState (JSVal.obj 0)
        [dupMeth] [] [dupProp] false).2.trace
      = objState.trace
          ++ passEvents (JSVal.obj 0) [dupMeth] [] [dupProp] false ∧
     ∀ n, (lastNamed (passMembers [dupMeth] [] [dupProp] false) n).elim
        (propOf (BindMembersToObject objState (JSVal.obj 0)
            [dupMeth] [] [dupProp] false).2 0 n
          = propOf objState 0 n)
        (fun mr => slotMatches
            (BindMembersToObject objState (JSVal.obj 0)
              [dupMeth] [] [dupProp] false).2 0 n mr)) :=
  ⟨by decide, by decide, by decide,
   bindMembers_order_last_write_wins objState 0 [dupMeth] [] [dupProp] false
     { kind := ObjKind.plain, classId := 1, protoVal := JSVal.undefined,
       props := [], rc := 1 }
     (by decide) (by decide) (by decide)⟩

theorem bool_eq_false_of_not {b : Bool} (h : ¬(b = true)) : b = false := by
  cases b with
  | false => rfl
  | true => exact absurd rfl h

theorem mem_passEvents_meth (t obj : JSVal) (m : MethodEntry)
    (ms : List MethodEntry) (acs : List AccessorEntry)
    (ps : List PropertyEntry) (st : Bool) :
    Event.bindMethod t m ∈ passEvents obj ms acs ps st
      ↔ (t = obj ∧ m ∈ ms ∧ m.is_static = st) := by
  simp [passEvents, List.mem_filter, eq_comm]
  tauto

theorem mem_passEvents_acc (t obj : JSVal) (a : AccessorEntry)
    (ms : List MethodEntry) (acs : List AccessorEntry)
    (ps : List PropertyEntry) (st : Bool) :
    Event.bindAccessor t a ∈ passEvents obj ms acs ps st
      ↔ (t = obj ∧ a ∈ acs ∧ a.is_static = st) := by
  simp [passEvents, List.mem_filter, eq_comm]
  tauto

theorem mem_passEvents_prop (t obj : JSVal) (p : PropertyEntry)
    (ms : List MethodEntry) (acs : List AccessorEntry)
    (ps : List PropertyEntry) (st : Bool) :
    Event.bindProperty t p ∈ passEvents obj ms acs ps st
      ↔ (t = obj ∧ p ∈ ps ∧ p.is_static = st) := by
  simp [passEvents, List.mem_filter, eq_comm]
  tauto

theorem passPartitionMeth (pid fid : Nat) (hne : pid ≠ fid)
    (ms : List MethodEntry) (acs : List AccessorEntry)
    (ps : List PropertyEntry) (T : List Event)
    (hT : T = passEvents (JSVal.obj pid) ms acs ps false
            ++ passEvents (JSVal.obj fid) ms acs ps true)
    (m : MethodEntry) (hm : m ∈ ms) :
    (m.is_static = false →
       Event.bindMethod (JSVal.obj pid) m ∈ T ∧
       Event.bindMethod (JSVal.obj fid) m ∉ T) ∧
    (m.is_static = true →
       Event.bindMethod (JSVal.obj fid) m ∈ T ∧
       Event.bindMethod (JSVal.obj pid) m ∉ T) := by
  subst hT
  constructor
  · intro hst
    refine ⟨List.mem_append_left _
      ((mem_passEvents_meth _ _ _ _ _ _ _).mpr ⟨rfl, hm, hst⟩), ?_⟩
    intro hmem
    rcases List.mem_append.mp hmem with hA | hB
    · obtain ⟨heq, -, -⟩ := (mem_passEvents_meth _ _ _ _ _ _ _).mp hA
      injection heq with h2
      exact hne h2.symm
    · obtain ⟨-, -, hst2⟩ := (mem_passEvents_meth _ _ _ _ _ _ _).mp hB
      rw [hst] at hst2
      exact Bool.noConfusion hst2
  · intro hst
    refine ⟨List.mem_append_right _
      ((mem_passEvents_meth _ _ _ _ _ _ _).mpr ⟨rfl, hm, hst⟩), ?_⟩
    intro hmem
    rcases List.mem_append.mp hmem with hA | hB
    · obtain ⟨-, -, hst2⟩ := (mem_passEvents_meth _ _ _ _ _ _ _).mp hA
      rw [hst] at hst2
      exact Bool.noConfusion hst2
    · obtain ⟨heq, -, -⟩ := (mem_passEvents_meth _ _ _ _ _ _ _).mp hB
      injection heq with h2
      exact hne h2

theorem passPartitionAcc (pid fid : Nat) (hne : pid ≠ fid)
    (ms : List MethodEntry) (acs : List AccessorEntry)
    (ps : List PropertyEntry) (T : List Event)
    (hT : T = passEvents (JSVal.obj pid) ms acs ps false
            ++ passEvents (JSVal.obj fid) ms acs ps true)
    (a : AccessorEntry) (ha : a ∈ acs) :
    (a.is_static = false →
       Event.bindAccessor (JSVal.obj pid) a ∈ T ∧
       Event.bindAccessor (JSVal.obj fid) a ∉ T) ∧
    (a.is_static = true →
       Event.bindAccessor (JSVal.obj fid) a ∈ T ∧
       Event.bindAccessor (JSVal.obj pid) a ∉ T) := by
  subst hT
  constructor
  · intro hst
    refine ⟨List.mem_append_left _
      ((mem_passEvents_acc _ _ _ _ _ _ _).mpr ⟨rfl, ha, hst⟩), ?_⟩
    intro hmem
    rcases List.mem_append.mp hmem with hA | hB
    · obtain ⟨heq, -, -⟩ := (mem_passEvents_acc _ _ _ _ _ _ _).mp hA
      injection heq with h2
      exact hne h2.symm
    · obtain ⟨-, -, hst2⟩ := (mem_passEvents_acc _ _ _ _ _ _ _).mp hB
      rw [hst] at hst2
      exact Bool.noConfusion hst2
  · intro hst
    refine ⟨List.mem_append_right _
      ((mem_passEvents_acc _ _ _ _ _ _ _).mpr ⟨rfl, ha, hst⟩), ?_⟩
    intro hmem
    rcases List.mem_append.mp hmem with hA | hB
    · obtain ⟨-, -, hst2⟩ := (mem_passEvents_acc _ _ _ _ _ _ _).mp hA
      rw [hst] at hst2
      exact Bool.noConfusion hst2
    · obtain ⟨heq, -, -⟩ := (mem_passEvents_acc _ _ _ _ _ _ _).mp hB
      injection heq with h2
      exact hne h2

theorem passPartitionProp (pid fid : Nat) (hne : pid ≠ fid)
    (ms : List MethodEntry) (acs : List AccessorEntry)
    (ps : List PropertyEntry) (T : List Event)
    (hT : T = passEvents (JSVal.obj pid) ms acs ps false
            ++ passEvents (JSVal.obj fid) ms acs ps true)
    (p : PropertyEntry) (hp : p ∈ ps) :
    (p.is_static = false →
       Event.bindProperty (JSVal.obj pid) p ∈ T ∧
       Event.bindProperty (JSVal.obj fid) p ∉ T) ∧
    (p.is_static = true →
       Event.bindProperty (JSVal.obj fid) p ∈ T ∧
       Event.bindProperty (JSVal.obj pid) p ∉ T) := by
  subst hT
  constructor
  · intro hst
    refine ⟨List.mem_append_left _
      ((mem_passEvents_prop _ _ _ _ _ _ _).mpr ⟨rfl, hp, hst⟩), ?_⟩
    intro hmem
    rcases List.mem_append.mp hmem with hA | hB
    · obtain ⟨heq, -, -⟩ := (mem_passEvents_prop _ _ _ _ _ _ _).mp hA
      injection heq with h2
      exact hne h2.symm
    · obtain ⟨-, -, hst2⟩ := (mem_passEvents_prop _ _ _ _ _ _ _).mp hB
      rw [hst] at hst2
      exact Bool.noConfusion hst2
  · intro hst
    refine ⟨List.mem_append_right _
      ((mem_passEvents_prop _ _ _ _ _ _ _).mpr ⟨rfl, hp, hst⟩), ?_⟩
    intro hmem
    rcases List.mem_append.mp hmem with hA | hB
    · obtain ⟨-, -, hst2⟩ := (mem_passEvents_prop _ _ _ _ _ _ _).mp hA
      rw [hst] at hst2
      exact Bool.noConfusion hst2
    · obtain ⟨heq, -, -⟩ := (mem_passEvents_prop _ _ _ _ _ _ _).mp hB
      injection heq with h2
      exact hne h2

theorem JS_NewObject_eq_fail (s : EngineState)
    (hf : s.schedule s.fcnt = true) :
    JS_NewObject s
      = (JSVal.exception,
         { s with fcnt := s.fcnt + 1,
                  pendingError := some (ErrKind.engineFailure, "") }) := by
  simp [JS_NewObject, fallibleCall, ThrowEngineFailure, hf]


/-- Full characterization of a successful CreateClass run: the returned
value is the freshly created constructor function (an object distinct
from the prototype allocated at `s.nextObj`), the allocated class id is
reported, the prototype is installed in the class-prototype table under
that id, and the trace extends by the instance-pass events on the
prototype followed by the static-pass events on the constructor. -/
theorem createClass_success_run (s : EngineState) (nm : String)
    (ctorId : Int) (ms : List MethodEntry) (acs : List AccessorEntry)
    (ps : List PropertyEntry)
    (hsucc : JS_IsException
        (CreateClass s (some { class_name := some nm }) ctorId ms acs ps).1
          = false) :
    ∃ fid sE,
      s.nextObj ≠ fid ∧
      CreateClass s (some { class_name := some nm }) ctorId ms acs ps
        = (JSVal.obj fid, some s.nextClassId, sE) ∧
      (s.nextClassId, JSVal.obj s.nextObj) ∈ sE.classProtos ∧
      sE.trace = s.trace ++ passEvents (JSVal.obj s.nextObj) ms acs ps false
                   ++ passEvents (JSVal.obj fid) ms acs ps true := by
  by_cases hne : nm = ""
  · exfalso
    simp [CreateClass, hne, ThrowInternalError, JS_IsException] at hsucc
  by_cases hge : 65536 ≤ s.nextClassId
  · exfalso
    simp [CreateClass, JS_NewClassID, hne, hge, ThrowRangeError,
      JS_IsException] at hsucc
  simp only [CreateClass, JS_NewClassID] at hsucc ⊢
  rw [if_neg hne, if_neg hge] at hsucc ⊢
  -- step 3: register the class
  by_cases hf0 : s.schedule s.fcnt = true
  · exfalso
    have hf0x : ({ s with nextClassId := s.nextClassId + 1 } : EngineState).schedule ({ s with nextClassId := s.nextClassId + 1 } : EngineState).fcnt = true := hf0
    rw [JS_NewClass_eq_fail _ _ hf0x] at hsucc
    dsimp only at hsucc
    rw [if_pos (by decide : ((-1 : Int) ≠ 0))] at hsucc
    simp [ThrowInternalError, JS_IsException] at hsucc
  have hf0' : s.schedule s.fcnt = false := bool_eq_false_of_not hf0
  have hf0x : ({ s with nextClassId := s.nextClassId + 1 } : EngineState).schedule ({ s with nextClassId := s.nextClassId + 1 } : EngineState).fcnt = false := hf0'
  rw [JS_NewClass_eq_success _ _ hf0x] at hsucc ⊢
  dsimp only at hsucc ⊢
  rw [if_neg (by decide : ¬((0 : Int) ≠ 0))] at hsucc ⊢
  -- step 4: create the prototype
  by_cases hf1 : s.schedule (s.fcnt + 1) = true
  · exfalso
    have hf1x : ({ s with nextClassId := s.nextClassId + 1, fcnt := s.fcnt + 1, registry := s.nextClassId :: s.registry } : EngineState).schedule ({ s with nextClassId := s.nextClassId + 1, fcnt := s.fcnt + 1, registry := s.nextClassId :: s.registry } : EngineState).fcnt = true := hf1
    rw [JS_NewObject_eq_fail _ hf1x] at hsucc
    dsimp only at hsucc
    rw [if_pos (show JS_IsException JSVal.exception = true from rfl)] at hsucc
    dsimp only at hsucc
    simp [JS_IsException] at hsucc
  have hf1' : s.schedule (s.fcnt + 1) = false := bool_eq_false_of_not hf1
  have hf1x : ({ s with nextClassId := s.nextClassId + 1, fcnt := s.fcnt + 1, registry := s.nextClassId :: s.registry } : EngineState).schedule ({ s with nextClassId := s.nextClassId + 1, fcnt := s.fcnt + 1, registry := s.nextClassId :: s.registry } : EngineState).fcnt = false := hf1'
  rw [JS_NewObject_eq_success _ hf1x] at hsucc ⊢
  dsimp only at hsucc ⊢
  rw [if_neg (show ¬(JS_IsException (JSVal.obj s.nextObj) = true) by
    simp [JS_IsException])] at hsucc ⊢
  -- step 5: instance pass on the prototype
  obtain ⟨pr, sA, hB1⟩ : ∃ pr sA,
      BindMembersToObject { s with nextClassId := s.nextClassId + 1, fcnt := s.fcnt + 1 + 1, registry := s.nextClassId :: s.registry, nextObj := s.nextObj + 1, objs := (s.nextObj, plainData 1 JSVal.undefined) :: s.objs } (JSVal.obj s.nextObj) ms acs ps false = (pr, sA) := ⟨_, _, rfl⟩
  rw [hB1] at hsucc ⊢
  dsimp only at hsucc ⊢
  by_cases he1 : JS_IsException pr = true
  · exfalso
    rw [if_pos he1] at hsucc
    dsimp only at hsucc
    rw [hsucc] at he1
    exact Bool.noConfusion he1
  rw [if_neg he1] at hsucc ⊢
  rw [BindMembersToObject_eq] at hB1
  obtain ⟨-, htrA, hnxA, -, hcpA, -, -, -⟩ :=
    bindMemberList_spec (passMembers ms acs ps false)
      { s with nextClassId := s.nextClassId + 1, fcnt := s.fcnt + 1 + 1, registry := s.nextClassId :: s.registry, nextObj := s.nextObj + 1, objs := (s.nextObj, plainData 1 JSVal.undefined) :: s.objs }
      s.nextObj (plainData 1 JSVal.undefined)
      (by simp [lookupA])
      (by show s.nextObj < s.nextObj + 1; omega)
      (by rw [hB1]; exact bool_eq_false_of_not he1)
  rw [hB1] at htrA hnxA hcpA
  dsimp only at htrA hnxA hcpA
  -- step 6: create the constructor
  by_cases hfA : sA.schedule sA.fcnt = true
  · exfalso
    rw [CreateCFunction_ctorMagic,
      JS_NewCFunction2_eq_fail sA nm 2 GetCFuncConstructorMagic ctorId hfA]
      at hsucc
    dsimp only at hsucc
    rw [if_pos (show JS_IsException JSVal.exception = true from rfl)] at hsucc
    dsimp only at hsucc
    simp [JS_IsException] at hsucc
  have hfA' : sA.schedule sA.fcnt = false := bool_eq_false_of_not hfA
  rw [CreateCFunction_ctorMagic,
    JS_NewCFunction2_eq_success sA nm 2 GetCFuncConstructorMagic ctorId hfA']
    at hsucc ⊢
  dsimp only at hsucc ⊢
  rw [if_neg (show ¬(JS_IsException (JSVal.obj sA.nextObj) = true) by
    simp [JS_IsException])] at hsucc ⊢
  -- steps 7-8: constructor association and class prototype installation
  rw [JS_SetConstructor_obj] at hsucc ⊢
  simp only [JS_SetClassProto] at hsucc ⊢
  -- step 9: static pass on the constructor
  obtain ⟨cr, sE, hB2⟩ : ∃ cr sE,
      BindMembersToObject { sA with fcnt := sA.fcnt + 1, classProtos := (s.nextClassId, JSVal.obj s.nextObj) :: sA.classProtos, nextObj := sA.nextObj + 1, objs := defineOwnObjs (dupValObjs (defineOwnObjs (dupValObjs ((sA.nextObj, cfuncData GetCFuncConstructorMagic ctorId nm) :: sA.objs) (JSVal.obj s.nextObj)) sA.nextObj "prototype" (PropVal.data (JSVal.obj s.nextObj) 0)) (JSVal.obj sA.nextObj)) s.nextObj "constructor" (PropVal.data (JSVal.obj sA.nextObj) GetPropertyWritableConfigurable) } (JSVal.obj sA.nextObj) ms acs ps true = (cr, sE) := ⟨_, _, rfl⟩
  rw [hB2] at hsucc ⊢
  dsimp only at hsucc ⊢
  by_cases he2 : JS_IsException cr = true
  · exfalso
    rw [if_pos he2] at hsucc
    dsimp only at hsucc
    rw [hsucc] at he2
    exact Bool.noConfusion he2
  rw [if_neg he2] at hsucc ⊢
  have hne2 : s.nextObj ≠ sA.nextObj := by omega
  -- the constructor object is alive in the pre-static-pass store
  have hview2 : viewA (dupValObjs ((sA.nextObj, cfuncData GetCFuncConstructorMagic ctorId nm) :: sA.objs) (JSVal.obj s.nextObj)) sA.nextObj = some (ObjKind.cfunc GetCFuncConstructorMagic ctorId nm, 1, JSVal.undefined, []) := by
    rw [viewA_dupVal]
    simp [viewA, lookupA, objView, cfuncData]
  obtain ⟨dY, hdY, hkY, hcY, hpY, hprY⟩ := viewA_some _ _ _ _ _ _ hview2
  have hviewC : viewA (defineOwnObjs (dupValObjs (defineOwnObjs (dupValObjs ((sA.nextObj, cfuncData GetCFuncConstructorMagic ctorId nm) :: sA.objs) (JSVal.obj s.nextObj)) sA.nextObj "prototype" (PropVal.data (JSVal.obj s.nextObj) 0)) (JSVal.obj sA.nextObj)) s.nextObj "constructor" (PropVal.data (JSVal.obj sA.nextObj) GetPropertyWritableConfigurable)) sA.nextObj = some (dY.kind, dY.classId, dY.protoVal, upsertA dY.props "prototype" (PropVal.data (JSVal.obj s.nextObj) 0)) := by
    rw [viewA_defineOwn_ne _ _ _ _ _ (fun hh => hne2 hh.symm), viewA_dupVal]
    exact viewA_defineOwn_self _ _ _ _ dY hdY
  obtain ⟨dC, hdC, -, -, -, -⟩ := viewA_some _ _ _ _ _ _ hviewC
  rw [BindMembersToObject_eq] at hB2
  obtain ⟨-, htrE, -, -, hcpE, -, -, -⟩ :=
    bindMemberList_spec (passMembers ms acs ps true)
      { sA with fcnt := sA.fcnt + 1, classProtos := (s.nextClassId, JSVal.obj s.nextObj) :: sA.classProtos, nextObj := sA.nextObj + 1, objs := defineOwnObjs (dupValObjs (defineOwnObjs (dupValObjs ((sA.nextObj, cfuncData GetCFuncConstructorMagic ctorId nm) :: sA.objs) (JSVal.obj s.nextObj)) sA.nextObj "prototype" (PropVal.data (JSVal.obj s.nextObj) 0)) (JSVal.obj sA.nextObj)) s.nextObj "constructor" (PropVal.data (JSVal.obj sA.nextObj) GetPropertyWritableConfigurable) }
      sA.nextObj dC hdC
      (by show sA.nextObj < sA.nextObj + 1; omega)
      (by rw [hB2]; exact bool_eq_false_of_not he2)
  rw [hB2] at htrE hcpE
  dsimp only at htrE hcpE
  refine ⟨sA.nextObj, sE, by omega, rfl, ?_, ?_⟩
  · rw [hcpE]
    exact List.mem_cons_self _ _
  · rw [htrE, htrA, passEvents_eq_map, passEvents_eq_map]

/-- C5: on every successful CreateClass run the returned value is the
constructor object, a distinct prototype object was allocated and
installed as the class prototype of the reported class id, and — reading
the run's bind events — every method, accessor and data property whose
is-static flag is false is bound to the prototype and not to the
constructor, while every entry whose is-static flag is true is bound to
the constructor and not to the prototype. -/
theorem createClass_static_partition (s : EngineState)
    (cdo : Option JSClassDef) (ctorId : Int) (ms : List MethodEntry)
    (acs : List AccessorEntry) (ps : List PropertyEntry)
    (htr : s.trace = [])
    (hsucc : JS_IsException (CreateClass s cdo ctorId ms acs ps).1 = false) :
    ∃ pid fid, pid ≠ fid ∧
      (CreateClass s cdo ctorId ms acs ps).1 = JSVal.obj fid ∧
      (∃ c, (CreateClass s cdo ctorId ms acs ps).2.1 = some c ∧
         (c, JSVal.obj pid)
           ∈ (CreateClass s cdo ctorId ms acs ps).2.2.classProtos) ∧
      (CreateClass s cdo ctorId ms acs ps).2.2.trace
        = passEvents (JSVal.obj pid) ms acs ps false
            ++ passEvents (JSVal.obj fid) ms acs ps true ∧
      (∀ m ∈ ms,
        (m.is_static = false →
           Event.bindMethod (JSVal.obj pid) m
             ∈ (CreateClass s cdo ctorId ms acs ps).2.2.trace ∧
           Event.bindMethod (JSVal.obj fid) m
             ∉ (CreateClass s cdo ctorId ms acs ps).2.2.trace) ∧
        (m.is_static = true →
           Event.bindMethod (JSVal.obj fid) m
             ∈ (CreateClass s cdo ctorId ms acs ps).2.2.trace ∧
           Event.bindMethod (JSVal.obj pid) m
             ∉ (CreateClass s cdo ctorId ms acs ps).2.2.trace)) ∧
      (∀ a ∈ acs,
        (a.is_static = false →
           Event.bindAccessor (JSVal.obj pid) a
             ∈ (CreateClass s cdo ctorId ms acs ps).2.2.trace ∧
           Event.bindAccessor (JSVal.obj fid) a
             ∉ (CreateClass s cdo ctorId ms acs ps).2.2.trace) ∧
        (a.is_static = true →
           Event.bindAccessor (JSVal.obj fid) a
             ∈ (CreateClass s cdo ctorId ms acs ps).2.2.trace ∧
           Event.bindAccessor (JSVal.obj pid) a
             ∉ (CreateClass s cdo ctorId ms acs ps).2.2.trace)) ∧
      (∀ p ∈ ps,
        (p.is_static = false →
           Event.bindProperty (JSVal.obj pid) p
             ∈ (CreateClass s cdo ctorId ms acs ps).2.2.trace ∧
           Event.bindProperty (JSVal.obj fid) p
             ∉ (CreateClass s cdo ctorId ms acs ps).2.2.trace) ∧
        (p.is_static = true →
           Event.bindProperty (JSVal.obj fid) p
             ∈ (CreateClass s cdo ctorId ms acs ps).2.2.trace ∧
           Event.bindProperty (JSVal.obj pid) p
             ∉ (CreateClass s cdo ctorId ms acs ps).2.2.trace)) := by
  cases cdo with
  | none =>
    exfalso
    simp [CreateClass, ThrowInternalError, JS_IsException] at hsucc
  | some cd =>
    obtain ⟨cno⟩ := cd
    cases cno with
    | none =>
      exfalso
      simp [CreateClass, ThrowInternalError, JS_IsException] at hsucc
    | some nm =>
      obtain ⟨fid, sE, hne, hrun, hmem, htrace⟩ :=
        createClass_success_run s nm ctorId ms acs ps hsucc
      have hT : (CreateClass s (some { class_name := some nm })
            ctorId ms acs ps).2.2.trace
          = passEvents (JSVal.obj s.nextObj) ms acs ps false
              ++ passEvents (JSVal.obj fid) ms acs ps true := by
        rw [hrun]
        dsimp only
        rw [htrace, htr]
        simp
      refine ⟨s.nextObj, fid, hne, ?_, ⟨s.nextClassId, ?_, ?_⟩, hT,
        fun m hm => passPartitionMeth s.nextObj fid hne ms acs ps _ hT m hm,
        fun a ha => passPartitionAcc s.nextObj fid hne ms acs ps _ hT a ha,
        fun p hp => passPartitionProp s.nextObj fid hne ms acs ps _ hT p hp⟩
      · rw [hrun]
      · rw [hrun]
      · rw [hrun]
        exact hmem

/-- C5 witness: building class "K" with a non-static method "x" and a
static property "p" on an empty engine succeeds; the method is bound to
the prototype only and the property to the constructor only. -/
theorem createClass_static_partition_witness :
    emptyStateNoFail.trace = [] ∧
    JS_IsException (CreateClass emptyStateNoFail (some kDef) 7
        [dupMeth] [] [staticProp]).1 = false ∧
    (∃ pid fid, pid ≠ fid ∧
      (CreateClass emptyStateNoFail (some kDef) 7
          [dupMeth] [] [staticProp]).1 = JSVal.obj fid ∧
      (∃ c, (CreateClass emptyStateNoFail (some kDef) 7
            [dupMeth] [] [staticProp]).2.1 = some c ∧
         (c, JSVal.obj pid)
           ∈ (CreateClass emptyStateNoFail (some kDef) 7
                [dupMeth] [] [staticProp]).2.2.classProtos) ∧
      (CreateClass emptyStateNoFail (some kDef) 7
          [dupMeth] [] [staticProp]).2.2.trace
        = passEvents (JSVal.obj pid) [dupMeth] [] [staticProp] false
            ++ passEvents (JSVal.obj fid) [dupMeth] [] [staticProp] true ∧
      (∀ m ∈ [dupMeth],
        (m.is_static = false →
           Event.bindMethod (JSVal.obj pid) m
             ∈ (CreateClass emptyStateNoFail (some kDef) 7
                  [dupMeth] [] [staticProp]).2.2.trace ∧
           Event.bindMethod (JSVal.obj fid) m
             ∉ (CreateClass emptyStateNoFail (some kDef) 7
                  [dupMeth] [] [staticProp]).2.2.trace) ∧
        (m.is_static = true →
           Event.bindMethod (JSVal.obj fid) m
             ∈ (CreateClass emptyStateNoFail (some kDef) 7
                  [dupMeth] [] [staticProp]).2.2.trace ∧
           Event.bindMethod (JSVal.obj pid) m
             ∉ (CreateClass emptyStateNoFail (some kDef) 7
                  [dupMeth] [] [staticProp]).2.2.trace)) ∧
      (∀ a ∈ ([] : List AccessorEntry),
        (a.is_static = false →
           Event.bindAccessor (JSVal.obj pid) a
             ∈ (CreateClass emptyStateNoFail (some kDef) 7
                  [dupMeth] [] [staticProp]).2.2.trace ∧
           Event.bindAccessor (JSVal.obj fid) a
             ∉ (CreateClass emptyStateNoFail (some kDef) 7
                  [dupMeth] [] [staticProp]).2.2.trace) ∧
        (a.is_static = true →
           Event.bindAccessor (JSVal.obj fid) a
             ∈ (CreateClass emptyStateNoFail (some kDef) 7
                  [dupMeth] [] [staticProp]).2.2.trace ∧
           Event.bindAccessor (JSVal.obj pid) a
             ∉ (CreateClass emptyStateNoFail (some kDef) 7
                  [dupMeth] [] [staticProp]).2.2.trace)) ∧
      (∀ p ∈ [staticProp],
        (p.is_static = false →
           Event.bindProperty (JSVal.obj pid) p
             ∈ (CreateClass emptyStateNoFail (some kDef) 7
                  [dupMeth] [] [staticProp]).2.2.trace ∧
           Event.bindProperty (JSVal.obj fid) p
             ∉ (CreateClass emptyStateNoFail (some kDef) 7
                  [dupMeth] [] [staticProp]).2.2.trace) ∧
        (p.is_static = true →
           Event.bindProperty (JSVal.obj fid) p
             ∈ (CreateClass emptyStateNoFail (some kDef) 7
                  [dupMeth] [] [staticProp]).2.2.trace ∧
           Event.bindProperty (JSVal.obj pid) p
             ∉ (CreateClass emptyStateNoFail (some kDef) 7
                  [dupMeth] [] [staticProp]).2.2.trace))) :=
  ⟨rfl, by decide,
   createClass_static_partition emptyStateNoFail (some kDef) 7
     [dupMeth] [] [staticProp] rfl (by decide)⟩

-- ============================================================================
-- Reference-accounting toolkit
-- ============================================================================

theorem slotRefs_eq (s : EngineState) (o : Nat) :
    slotRefs s o = sumObjs s.objs o + sumProtos s.classProtos o := rfl

theorem sumObjs_updateA (l : List (Nat × ObjData)) (k : Nat) (v d : ObjData)
    (h : lookupA l k = some d) (o : Nat) :
    sumObjs (updateA l k v) o + objDataRefs o d
      = sumObjs l o + objDataRefs o v := by
  induction l with
  | nil => cases h
  | cons e r ih =>
    by_cases hk : e.1 = k
    · simp [lookupA, hk] at h
      simp only [updateA, if_pos hk, sumObjs, List.map_cons, List.sum_cons]
      subst h
      omega
    · simp [lookupA, hk] at h
      have hih := ih h
      simp only [sumObjs, List.map_cons, List.sum_cons] at hih ⊢
      simp only [updateA, if_neg hk, List.map_cons, List.sum_cons]
      omega

theorem sumProps_upsert_some (l : List (String × PropVal)) (n : String)
    (pv pvOld : PropVal) (h : lookupA l n = some pvOld) (o : Nat) :
    sumProps (upsertA l n pv) o + propValRefs o pvOld
      = sumProps l o + propValRefs o pv := by
  induction l with
  | nil => cases h
  | cons e r ih =>
    by_cases hk : e.1 = n
    · simp [lookupA, hk] at h
      simp only [upsertA, if_pos hk, sumProps, List.map_cons, List.sum_cons]
      subst h
      omega
    · simp [lookupA, hk] at h
      have hih := ih h
      simp only [sumProps, List.map_cons, List.sum_cons] at hih ⊢
      simp only [upsertA, if_neg hk, List.map_cons, List.sum_cons]
      omega

theorem sumProps_upsert_none (l : List (String × PropVal)) (n : String)
    (pv : PropVal) (h : lookupA l n = none) (o : Nat) :
    sumProps (upsertA l n pv) o = sumProps l o + propValRefs o pv := by
  induction l with
  | nil => simp [upsertA, sumProps]
  | cons e r ih =>
    by_cases hk : e.1 = n
    · simp [lookupA, hk] at h
    · simp [lookupA, hk] at h
      have hih := ih h
      simp only [sumProps, List.map_cons, List.sum_cons] at hih ⊢
      simp only [upsertA, if_neg hk, List.map_cons, List.sum_cons]
      omega

theorem lookup_le_sumObjs (l : List (Nat × ObjData)) (k : Nat) (d : ObjData)
    (h : lookupA l k = some d) (o : Nat) : objDataRefs o d ≤ sumObjs l o := by
  induction l with
  | nil => cases h
  | cons e r ih =>
    by_cases hk : e.1 = k
    · simp [lookupA, hk] at h
      simp only [sumProps, sumObjs, List.map_cons, List.sum_cons]
      subst h
      omega
    · simp [lookupA, hk] at h
      have hih := ih h
      simp only [sumObjs, List.map_cons, List.sum_cons] at hih ⊢
      omega

theorem lookup_le_sumProps (l : List (String × PropVal)) (n : String)
    (pv : PropVal) (h : lookupA l n = some pv) (o : Nat) :
    propValRefs o pv ≤ sumProps l o := by
  induction l with
  | nil => cases h
  | cons e r ih =>
    by_cases hk : e.1 = n
    · simp [lookupA, hk] at h
      simp only [sumProps, List.map_cons, List.sum_cons]
      subst h
      omega
    · simp [lookupA, hk] at h
      have hih := ih h
      simp only [sumProps, List.map_cons, List.sum_cons] at hih ⊢
      omega

theorem objDataRefs_rc (o : Nat) (d : ObjData) (n : Nat) :
    objDataRefs o { d with rc := n } = objDataRefs o d := rfl

theorem sumObjs_free (l : List (Nat × ObjData)) (v : JSVal) (o : Nat) :
    sumObjs (freeValObjs l v) o = sumObjs l o := by
  cases v with
  | undefined => rfl
  | exception => rfl
  | obj i =>
    simp only [freeValObjs]
    cases hl : lookupA l i with
    | none => rfl
    | some d =>
      dsimp only
      have hthis := sumObjs_updateA l i { d with rc := d.rc - 1 } d hl o
      have h2 : objDataRefs o { d with rc := d.rc - 1 } = objDataRefs o d := rfl
      rw [h2] at hthis
      omega

theorem sumObjs_dup (l : List (Nat × ObjData)) (v : JSVal) (o : Nat) :
    sumObjs (dupValObjs l v) o = sumObjs l o := by
  cases v with
  | undefined => rfl
  | exception => rfl
  | obj i =>
    simp only [dupValObjs]
    cases hl : lookupA l i with
    | none => rfl
    | some d =>
      dsimp only
      have hthis := sumObjs_updateA l i { d with rc := d.rc + 1 } d hl o
      have h2 : objDataRefs o { d with rc := d.rc + 1 } = objDataRefs o d := rfl
      rw [h2] at hthis
      omega

theorem sumObjs_release (l : List (Nat × ObjData)) (opv : Option PropVal)
    (o : Nat) : sumObjs (releasePropValObjs l opv) o = sumObjs l o := by
  cases opv with
  | none => rfl
  | some pv =>
    cases pv with
    | data v fl => simp [releasePropValObjs, sumObjs_free]
    | accessor g t => simp [releasePropValObjs, sumObjs_free]

theorem mem_updateA {κ α : Type} [DecidableEq κ] (l : List (κ × α)) (k : κ)
    (v : α) (e : κ × α) (h : e ∈ updateA l k v) : e ∈ l ∨ e = (k, v) := by
  induction l with
  | nil => simp [updateA] at h
  | cons x r ih =>
    by_cases hk : x.1 = k
    · simp only [updateA, if_pos hk] at h
      rcases List.mem_cons.mp h with h1 | h1
      · right; exact h1
      · left; exact List.mem_cons_of_mem _ h1
    · simp only [updateA, if_neg hk] at h
      rcases List.mem_cons.mp h with h1 | h1
      · left; exact h1 ▸ List.mem_cons_self _ _
      · rcases ih h1 with h2 | h2
        · left; exact List.mem_cons_of_mem _ h2
        · right; exact h2

theorem isSome_viewA (l : List (Nat × ObjData)) (i : Nat) :
    (viewA l i).isSome = (lookupA l i).isSome := by
  unfold viewA
  cases lookupA l i <;> simp

theorem pres_free (l : List (Nat × ObjData)) (v : JSVal) (i : Nat) :
    (lookupA (freeValObjs l v) i).isSome = (lookupA l i).isSome := by
  rw [← isSome_viewA, ← isSome_viewA, viewA_freeVal]

theorem pres_dup (l : List (Nat × ObjData)) (v : JSVal) (i : Nat) :
    (lookupA (dupValObjs l v) i).isSome = (lookupA l i).isSome := by
  rw [← isSome_viewA, ← isSome_viewA, viewA_dupVal]

theorem pres_defineOwn (l : List (Nat × ObjData)) (oid : Nat) (n : String)
    (pv : PropVal) (i : Nat) (h : (lookupA l i).isSome = true) :
    (lookupA (defineOwnObjs l oid n pv) i).isSome = true := by
  by_cases hio : i = oid
  · subst hio
    cases hl : lookupA l i with
    | none => rw [hl] at h; simp at h
    | some d =>
      rw [← isSome_viewA, viewA_defineOwn_self l i n pv d hl]
      rfl
  · rw [← isSome_viewA, viewA_defineOwn_ne _ _ _ _ _ hio, isSome_viewA]
    exact h

theorem lookupA_free_self (l : List (Nat × ObjData)) (i : Nat) (d : ObjData)
    (hl : lookupA l i = some d) :
    lookupA (freeValObjs l (JSVal.obj i)) i
      = some { d with rc := d.rc - 1 } := by
  simp [freeValObjs, hl, lookupA_updateA_self]

theorem lookupA_free_ne (l : List (Nat × ObjData)) (i o : Nat) (h : o ≠ i) :
    lookupA (freeValObjs l (JSVal.obj i)) o = lookupA l o := by
  simp only [freeValObjs]
  cases hl : lookupA l i with
  | none => rfl
  | some d => exact lookupA_updateA_ne l i o _ h

theorem lookupA_dup_self (l : List (Nat × ObjData)) (i : Nat) (d : ObjData)
    (hl : lookupA l i = some d) :
    lookupA (dupValObjs l (JSVal.obj i)) i
      = some { d with rc := d.rc + 1 } := by
  simp [dupValObjs, hl, lookupA_updateA_self]

theorem lookupA_dup_ne (l : List (Nat × ObjData)) (i o : Nat) (h : o ≠ i) :
    lookupA (dupValObjs l (JSVal.obj i)) o = lookupA l o := by
  simp only [dupValObjs]
  cases hl : lookupA l i with
  | none => rfl
  | some d => exact lookupA_updateA_ne l i o _ h

theorem slotRefs_free (s : EngineState) (v : JSVal) (o : Nat) :
    slotRefs (JS_FreeValue s v) o = slotRefs s o := by
  show sumObjs (freeValObjs s.objs v) o + sumProtos s.classProtos o
    = sumObjs s.objs o + sumProtos s.classProtos o
  rw [sumObjs_free]

theorem slotRefs_dup (s : EngineState) (v : JSVal) (o : Nat) :
    slotRefs (JS_DupValue s v) o = slotRefs s o := by
  show sumObjs (dupValObjs s.objs v) o + sumProtos s.classProtos o
    = sumObjs s.objs o + sumProtos s.classProtos o
  rw [sumObjs_dup]

theorem Good_congr (s : EngineState) (E1 E2 : Nat → Nat)
    (h : ∀ o, E1 o = E2 o) (hG : Good s E1) : Good s E2 := by
  obtain ⟨hW, hB, hE⟩ := hG
  exact ⟨hW, fun o => by rw [← h o]; exact hB o,
    fun o ho => by rw [← h o]; exact hE o ho⟩

theorem lookupA_none_of_ge (s : EngineState) (hW : WFS s) (o : Nat)
    (ho : s.nextObj ≤ o) : lookupA s.objs o = none := by
  cases hl : lookupA s.objs o with
  | none => rfl
  | some d =>
    have := hW.keysLt (o, d) (lookupA_mem _ _ _ hl)
    simp at this
    omega

/-- Dropping an owned reference restores the ledger without the pushed
value: JS_FreeValue gives one reference back to the engine. -/
theorem free_balance (s : EngineState) (E : Nat → Nat) (v : JSVal)
    (hG : Good s (Epush E v)) : Good (JS_FreeValue s v) E := by
  obtain ⟨hW, hB, hE⟩ := hG
  cases v with
  | undefined =>
    exact ⟨hW, fun o => by have hb := hB o; simpa [Epush, valRefs] using hb,
      fun o ho => by have he := hE o ho; simpa [Epush, valRefs] using he⟩
  | exception =>
    exact ⟨hW, fun o => by have hb := hB o; simpa [Epush, valRefs] using hb,
      fun o ho => by have he := hE o ho; simpa [Epush, valRefs] using he⟩
  | obj i =>
    cases hl : lookupA s.objs i with
    | none =>
      exfalso
      have hb := hB i
      simp [rcOf, hl, Epush, valRefs] at hb
      omega
    | some d =>
      refine ⟨⟨?_, ?_⟩, ?_, ?_⟩
      · intro e he
        simp only [JS_FreeValue, freeValObjs, hl] at he
        rcases mem_updateA _ _ _ _ he with h1 | h1
        · exact hW.keysLt e h1
        · rw [h1]
          exact hW.keysLt (i, d) (lookupA_mem _ _ _ hl)
      · intro o ho
        rw [slotRefs_free]
        exact hW.slotsLt o ho
      · intro o
        have hb := hB o
        rw [slotRefs_free]
        by_cases ho : o = i
        · subst ho
          show rcOf (JS_FreeValue s (JSVal.obj o)) o = slotRefs s o + E o
          simp only [rcOf, JS_FreeValue, lookupA_free_self s.objs o d hl]
          simp [rcOf, hl, Epush, valRefs] at hb
          omega
        · show rcOf (JS_FreeValue s (JSVal.obj i)) o = slotRefs s o + E o
          simp only [rcOf, JS_FreeValue, lookupA_free_ne s.objs i o ho]
          have hoi : ¬(i = o) := fun hh => ho hh.symm
          simp [rcOf, Epush, valRefs, hoi] at hb
          omega
      · intro o ho
        have he := hE o ho
        simp only [Epush, valRefs] at he
        omega

/-- Duplicating a present value pushes one reference onto the ledger. -/
theorem dup_balance (s : EngineState) (E : Nat → Nat) (v : JSVal)
    (hG : Good s E) (hp : presentVal s v) : Good (JS_DupValue s v) (Epush E v) := by
  obtain ⟨hW, hB, hE⟩ := hG
  cases v with
  | undefined =>
    exact ⟨hW, fun o => by have hb := hB o; simpa [Epush, valRefs] using hb,
      fun o ho => by have he := hE o ho; simpa [Epush, valRefs] using he⟩
  | exception =>
    exact ⟨hW, fun o => by have hb := hB o; simpa [Epush, valRefs] using hb,
      fun o ho => by have he := hE o ho; simpa [Epush, valRefs] using he⟩
  | obj i =>
    cases hl : lookupA s.objs i with
    | none =>
      exfalso
      simp only [presentVal, presentObj, hl] at hp
      cases hp
    | some d =>
      refine ⟨⟨?_, ?_⟩, ?_, ?_⟩
      · intro e he
        simp only [JS_DupValue, dupValObjs, hl] at he
        rcases mem_updateA _ _ _ _ he with h1 | h1
        · exact hW.keysLt e h1
        · rw [h1]
          exact hW.keysLt (i, d) (lookupA_mem _ _ _ hl)
      · intro o ho
        rw [slotRefs_dup]
        exact hW.slotsLt o ho
      · intro o
        have hb := hB o
        rw [slotRefs_dup]
        by_cases ho : o = i
        · subst ho
          show rcOf (JS_DupValue s (JSVal.obj o)) o
            = slotRefs s o + Epush E (JSVal.obj o) o
          simp only [rcOf, JS_DupValue, lookupA_dup_self s.objs o d hl]
          simp [Epush, valRefs]
          simp [rcOf, hl] at hb
          omega
        · show rcOf (JS_DupValue s (JSVal.obj i)) o
            = slotRefs s o + Epush E (JSVal.obj i) o
          simp only [rcOf, JS_DupValue, lookupA_dup_ne s.objs i o ho]
          have hoi : ¬(i = o) := fun hh => ho hh.symm
          simp [Epush, valRefs, hoi]
          simp [rcOf] at hb
          omega
      · intro o ho
        have he := hE o ho
        have ho2 : s.nextObj ≤ o := ho
        have hki : i < s.nextObj := hW.keysLt (i, d) (lookupA_mem _ _ _ hl)
        have hio : ¬(i = o) := by omega
        simp [Epush, valRefs, hio, he]

theorem lookupA_cons_self {κ α : Type} [DecidableEq κ] (l : List (κ × α))
    (k : κ) (v : α) : lookupA ((k, v) :: l) k = some v := by
  simp [lookupA]

theorem lookupA_cons_ne {κ α : Type} [DecidableEq κ] (l : List (κ × α))
    (k o : κ) (v : α) (h : ¬(k = o)) :
    lookupA ((k, v) :: l) o = lookupA l o := by
  simp [lookupA, h]

theorem sumObjs_cons (k : Nat) (d : ObjData) (l : List (Nat × ObjData))
    (o : Nat) : sumObjs ((k, d) :: l) o = objDataRefs o d + sumObjs l o := rfl

theorem sumProps_nil (o : Nat) : sumProps [] o = 0 := rfl

theorem sumProtos_cons (c : Nat) (v : JSVal) (l : List (Nat × JSVal))
    (o : Nat) : sumProtos ((c, v) :: l) o = valRefs o v + sumProtos l o := rfl

/-- Allocating a fresh object consumes the pushed prototype reference and
hands the caller one owned reference to the new object. -/
theorem alloc_balance (s : EngineState) (E : Nat → Nat) (k : ObjKind)
    (cid : Nat) (pv : JSVal) (hG : Good s (Epush E pv)) :
    (allocObj s k cid pv).1 = JSVal.obj s.nextObj ∧
    Good (allocObj s k cid pv).2 (Epush E (JSVal.obj s.nextObj)) := by
  obtain ⟨hW, hB, hE⟩ := hG
  refine ⟨rfl, ⟨?_, ?_⟩, ?_, ?_⟩
  · intro e he
    rcases List.mem_cons.mp he with h1 | h1
    · rw [h1]
      show s.nextObj < s.nextObj + 1
      omega
    · have h2 : e.1 < s.nextObj := hW.keysLt e h1
      show e.1 < s.nextObj + 1
      omega
  · intro o ho
    have ho2 : s.nextObj + 1 ≤ o := ho
    have h0 : slotRefs s o = 0 := hW.slotsLt o (by omega)
    rw [slotRefs_eq] at h0
    have hpv : E o + valRefs o pv = 0 := hE o (by omega)
    show objDataRefs o { kind := k, classId := cid, protoVal := pv, props := [], rc := 1 } + sumObjs s.objs o + sumProtos s.classProtos o = 0
    have hod : objDataRefs o ({ kind := k, classId := cid, protoVal := pv, props := [], rc := 1 } : ObjData) = valRefs o pv := by
      simp [objDataRefs]
    rw [hod]
    omega
  · intro o
    have hb := hB o
    simp only [Epush] at hb
    rw [slotRefs_eq] at hb
    by_cases ho : o = s.nextObj
    · subst ho
      have hself : lookupA ((s.nextObj, ({ kind := k, classId := cid, protoVal := pv, props := [], rc := 1 } : ObjData)) :: s.objs) s.nextObj = some { kind := k, classId := cid, protoVal := pv, props := [], rc := 1 } := lookupA_cons_self _ _ _
      have hrc : rcOf (allocObj s k cid pv).2 s.nextObj = 1 := by
        simp [rcOf, allocObj, hself]
      have hnone : lookupA s.objs s.nextObj = none := lookupA_none_of_ge s hW s.nextObj (le_refl _)
      have hrc0 : rcOf s s.nextObj = 0 := by simp [rcOf, hnone]
      have h0 : slotRefs s s.nextObj = 0 := hW.slotsLt s.nextObj (le_refl _)
      rw [slotRefs_eq] at h0
      have hpv : E s.nextObj + valRefs s.nextObj pv = 0 := hE s.nextObj (le_refl _)
      rw [hrc, slotRefs_eq]
      show 1 = objDataRefs s.nextObj { kind := k, classId := cid, protoVal := pv, props := [], rc := 1 } + sumObjs s.objs s.nextObj + sumProtos s.classProtos s.nextObj + Epush E (JSVal.obj s.nextObj) s.nextObj
      have hod : objDataRefs s.nextObj ({ kind := k, classId := cid, protoVal := pv, props := [], rc := 1 } : ObjData) = valRefs s.nextObj pv := by
        simp [objDataRefs]
      rw [hod]
      have hep : Epush E (JSVal.obj s.nextObj) s.nextObj = E s.nextObj + 1 := by
        simp [Epush, valRefs]
      rw [hep]
      omega
    · have hne : ¬(s.nextObj = o) := fun hh => ho hh.symm
      have hrc : rcOf (allocObj s k cid pv).2 o = rcOf s o := by
        simp only [rcOf, allocObj]
        rw [lookupA_cons_ne _ _ _ _ hne]
      rw [hrc, slotRefs_eq]
      show rcOf s o = objDataRefs o { kind := k, classId := cid, protoVal := pv, props := [], rc := 1 } + sumObjs s.objs o + sumProtos s.classProtos o + Epush E (JSVal.obj s.nextObj) o
      have hod : objDataRefs o ({ kind := k, classId := cid, protoVal := pv, props := [], rc := 1 } : ObjData) = valRefs o pv := by
        simp [objDataRefs]
      rw [hod]
      have hep : Epush E (JSVal.obj s.nextObj) o = E o := by
        simp [Epush, valRefs, hne]
      rw [hep]
      omega
  · intro o ho
    have ho2 : s.nextObj + 1 ≤ o := ho
    have hpv : E o + valRefs o pv = 0 := hE o (by omega)
    have hne : ¬(s.nextObj = o) := by omega
    have hep : Epush E (JSVal.obj s.nextObj) o = E o := by
      simp [Epush, valRefs, hne]
    rw [hep]
    omega

theorem objDataRefs_split (o : Nat) (d : ObjData) :
    objDataRefs o d = valRefs o d.protoVal + sumProps d.props o := rfl

/-- Overwriting an absent slot with the pushed property value transfers
the pushed references into the table. -/
theorem update_props_balance_none (s : EngineState) (E : Nat → Nat)
    (oid : Nat) (n : String) (pv : PropVal) (d : ObjData)
    (hl : lookupA s.objs oid = some d) (hold : lookupA d.props n = none)
    (hG : Good s (EpushP E pv)) :
    Good { s with objs := updateA s.objs oid { d with props := upsertA d.props n pv } } E := by
  obtain ⟨hW, hB, hE⟩ := hG
  have hups := fun o => sumProps_upsert_none d.props n pv hold o
  have hupd := fun o => sumObjs_updateA s.objs oid { d with props := upsertA d.props n pv } d hl o
  have hodr1 : ∀ o, objDataRefs o { d with props := upsertA d.props n pv } = valRefs o d.protoVal + sumProps (upsertA d.props n pv) o := fun o => rfl
  have hodr0 : ∀ o, objDataRefs o d = valRefs o d.protoVal + sumProps d.props o := fun o => rfl
  refine ⟨⟨?_, ?_⟩, ?_, ?_⟩
  · intro e he
    rcases mem_updateA _ _ _ _ he with h1 | h1
    · exact hW.keysLt e h1
    · rw [h1]
      exact hW.keysLt (oid, d) (lookupA_mem _ _ _ hl)
  · intro o ho
    have ho2 : s.nextObj ≤ o := ho
    have h0 : slotRefs s o = 0 := hW.slotsLt o ho2
    rw [slotRefs_eq] at h0
    have hpv : E o + propValRefs o pv = 0 := hE o ho2
    have hle := lookup_le_sumObjs s.objs oid d hl o
    show sumObjs (updateA s.objs oid { d with props := upsertA d.props n pv }) o + sumProtos s.classProtos o = 0
    have h1 := hupd o
    rw [hodr1 o, hodr0 o, hups o] at h1
    rw [hodr0 o] at hle
    omega
  · intro o
    have hb := hB o
    simp only [EpushP] at hb
    rw [slotRefs_eq] at hb
    have hrc : rcOf { s with objs := updateA s.objs oid { d with props := upsertA d.props n pv } } o = rcOf s o := by
      by_cases hoo : o = oid
      · subst hoo
        simp [rcOf, lookupA_updateA_self, hl]
      · simp only [rcOf]
        rw [lookupA_updateA_ne _ _ _ _ hoo]
    rw [hrc, slotRefs_eq]
    show rcOf s o = sumObjs (updateA s.objs oid { d with props := upsertA d.props n pv }) o + sumProtos s.classProtos o + E o
    have h1 := hupd o
    rw [hodr1 o, hodr0 o, hups o] at h1
    omega
  · intro o ho
    have ho2 : s.nextObj ≤ o := ho
    have hpv := hE o ho2
    simp only [EpushP] at hpv
    omega

/-- Overwriting an existing slot with the pushed property value transfers
the pushed references into the table and hands the old slot's references
to the ledger. -/
theorem update_props_balance_some (s : EngineState) (E : Nat → Nat)
    (oid : Nat) (n : String) (pv pvOld : PropVal) (d : ObjData)
    (hl : lookupA s.objs oid = some d) (hold : lookupA d.props n = some pvOld)
    (hG : Good s (EpushP E pv)) :
    Good { s with objs := updateA s.objs oid { d with props := upsertA d.props n pv } } (EpushP E pvOld) := by
  obtain ⟨hW, hB, hE⟩ := hG
  have hups := fun o => sumProps_upsert_some d.props n pv pvOld hold o
  have hupd := fun o => sumObjs_updateA s.objs oid { d with props := upsertA d.props n pv } d hl o
  have hodr1 : ∀ o, objDataRefs o { d with props := upsertA d.props n pv } = valRefs o d.protoVal + sumProps (upsertA d.props n pv) o := fun o => rfl
  have hodr0 : ∀ o, objDataRefs o d = valRefs o d.protoVal + sumProps d.props o := fun o => rfl
  refine ⟨⟨?_, ?_⟩, ?_, ?_⟩
  · intro e he
    rcases mem_updateA _ _ _ _ he with h1 | h1
    · exact hW.keysLt e h1
    · rw [h1]
      exact hW.keysLt (oid, d) (lookupA_mem _ _ _ hl)
  · intro o ho
    have ho2 : s.nextObj ≤ o := ho
    have h0 : slotRefs s o = 0 := hW.slotsLt o ho2
    rw [slotRefs_eq] at h0
    have hpv : E o + propValRefs o pv = 0 := hE o ho2
    have hle := lookup_le_sumObjs s.objs oid d hl o
    have hleP := lookup_le_sumProps d.props n pvOld hold o
    show sumObjs (updateA s.objs oid { d with props := upsertA d.props n pv }) o + sumProtos s.classProtos o = 0
    have h1 := hupd o
    rw [hodr1 o, hodr0 o] at h1
    have h2 := hups o
    rw [hodr0 o] at hle
    omega
  · intro o
    have hb := hB o
    simp only [EpushP] at hb
    rw [slotRefs_eq] at hb
    have hrc : rcOf { s with objs := updateA s.objs oid { d with props := upsertA d.props n pv } } o = rcOf s o := by
      by_cases hoo : o = oid
      · subst hoo
        simp [rcOf, lookupA_updateA_self, hl]
      · simp only [rcOf]
        rw [lookupA_updateA_ne _ _ _ _ hoo]
    rw [hrc, slotRefs_eq]
    show rcOf s o = sumObjs (updateA s.objs oid { d with props := upsertA d.props n pv }) o + sumProtos s.classProtos o + EpushP E pvOld o
    simp only [EpushP]
    have h1 := hupd o
    rw [hodr1 o, hodr0 o] at h1
    have h2 := hups o
    omega
  · intro o ho
    have ho2 : s.nextObj ≤ o := ho
    have hpv : E o + propValRefs o pv = 0 := hE o ho2
    have h0 : slotRefs s o = 0 := hW.slotsLt o ho2
    rw [slotRefs_eq] at h0
    have hle := lookup_le_sumObjs s.objs oid d hl o
    have hleP := lookup_le_sumProps d.props n pvOld hold o
    rw [hodr0 o] at hle
    simp only [EpushP]
    omega

/-- Property definition on a live object consumes the pushed references
of the new slot value and releases the overwritten slot's references:
the ledger returns to its pre-push state. -/
theorem defineOwn_balance (s : EngineState) (E : Nat → Nat) (oid : Nat)
    (n : String) (pv : PropVal) (d : ObjData)
    (hl : lookupA s.objs oid = some d) (hG : Good s (EpushP E pv)) :
    Good (defineOwn s oid n pv) E := by
  have hstate : defineOwn s oid n pv
      = { s with objs := releasePropValObjs (updateA s.objs oid { d with props := upsertA d.props n pv }) (lookupA d.props n) } := by
    simp [defineOwn, defineOwnObjs, hl]
  cases hold : lookupA d.props n with
  | none =>
    rw [hstate, hold]
    exact update_props_balance_none s E oid n pv d hl hold hG
  | some pvOld =>
    rw [hstate, hold]
    cases pvOld with
    | data v fl =>
      have hmid := update_props_balance_some s E oid n pv (PropVal.data v fl) d hl hold hG
      have hmid2 : Good { s with objs := updateA s.objs oid { d with props := upsertA d.props n pv } } (Epush E v) :=
        Good_congr _ _ _ (fun o => by simp [EpushP, Epush, propValRefs]) hmid
      exact free_balance _ E v hmid2
    | accessor g t =>
      have hmid := update_props_balance_some s E oid n pv (PropVal.accessor g t) d hl hold hG
      have hmid2 : Good { s with objs := updateA s.objs oid { d with props := upsertA d.props n pv } } (Epush (Epush E t) g) :=
        Good_congr _ _ _ (fun o => by simp [EpushP, Epush, propValRefs]; omega) hmid
      have h1 := free_balance _ (Epush E t) g hmid2
      exact free_balance _ E t h1

theorem pres_cons_any (l : List (Nat × ObjData)) (k : Nat) (v : ObjData)
    (i : Nat) (h : (lookupA l i).isSome = true) :
    (lookupA ((k, v) :: l) i).isSome = true := by
  by_cases hk : k = i <;> simp [lookupA, hk, h]

/-- The conditional release used on the accessor failure paths. -/
theorem freeIfDefined_balance (s : EngineState) (E : Nat → Nat) (v : JSVal)
    (hG : Good s (Epush E v)) :
    Good (if JS_IsUndefined v then s else JS_FreeValue s v) E := by
  cases v with
  | undefined =>
    simp only [JS_IsUndefined, if_pos]
    exact Good_congr _ _ _ (fun o => by simp [Epush, valRefs]) hG
  | exception =>
    simp only [JS_IsUndefined]
    rw [if_neg (by simp)]
    exact free_balance _ _ _ hG
  | obj i =>
    simp only [JS_IsUndefined]
    rw [if_neg (by simp)]
    exact free_balance _ _ _ hG

theorem Good_same (s s' : EngineState) (E : Nat → Nat)
    (hobjs : s'.objs = s.objs) (hcp : s'.classProtos = s.classProtos)
    (hnx : s'.nextObj = s.nextObj) (hG : Good s E) : Good s' E := by
  obtain ⟨⟨hk, hs⟩, hB, hE⟩ := hG
  refine ⟨⟨?_, ?_⟩, ?_, ?_⟩
  · intro e he
    rw [hobjs] at he
    rw [hnx]
    exact hk e he
  · intro o ho
    rw [hnx] at ho
    have h1 := hs o ho
    rw [slotRefs_eq] at h1 ⊢
    rw [hobjs, hcp]
    exact h1
  · intro o
    have h1 := hB o
    rw [slotRefs_eq] at h1 ⊢
    rw [show rcOf s' o = rcOf s o by simp [rcOf, hobjs], hobjs, hcp]
    exact h1
  · intro o ho
    rw [hnx] at ho
    exact hE o ho

theorem newCFunction_balance (s : EngineState) (E : Nat → Nat)
    (fname : String) (flen ft : Nat) (hid : Int) (hG : Good s E)
    (r : JSVal) (s' : EngineState)
    (hEq : JS_NewCFunction2 s fname flen ft hid = (r, s')) :
    (JS_IsException r = true → Good s' E) ∧
    (JS_IsException r = false → Good s' (Epush E r)) ∧
    (∀ i, presentObj s i → presentObj s' i) := by
  by_cases hf : s.schedule s.fcnt = true
  · rw [JS_NewCFunction2_eq_fail _ _ _ _ _ hf] at hEq
    injection hEq with h1 h2
    subst h1
    subst h2
    refine ⟨fun _ => Good_same s _ _ rfl rfl rfl hG,
      fun h => by simp [JS_IsException] at h, fun i h => h⟩
  · have hf' := bool_eq_false_of_not hf
    rw [JS_NewCFunction2_eq_success _ _ _ _ _ hf'] at hEq
    injection hEq with h1 h2
    subst h1
    subst h2
    have hpre : Good ({ s with fcnt := s.fcnt + 1 } : EngineState)
        (Epush E JSVal.undefined) :=
      Good_congr _ _ _ (fun o => by simp [Epush, valRefs])
        (Good_same s _ _ rfl rfl rfl hG)
    have halloc := alloc_balance { s with fcnt := s.fcnt + 1 } E
      (ObjKind.cfunc ft hid fname) 1 JSVal.undefined hpre
    refine ⟨fun h => by simp [JS_IsException] at h, fun _ => ?_, fun i h => ?_⟩
    · exact halloc.2
    · exact pres_cons_any _ _ _ _ h

theorem newObject_balance (s : EngineState) (E : Nat → Nat) (hG : Good s E)
    (r : JSVal) (s' : EngineState) (hEq : JS_NewObject s = (r, s')) :
    (JS_IsException r = true → Good s' E) ∧
    (JS_IsException r = false → Good s' (Epush E r)) ∧
    (∀ i, presentObj s i → presentObj s' i) := by
  by_cases hf : s.schedule s.fcnt = true
  · rw [JS_NewObject_eq_fail _ hf] at hEq
    injection hEq with h1 h2
    subst h1
    subst h2
    refine ⟨fun _ => Good_same s _ _ rfl rfl rfl hG,
      fun h => by simp [JS_IsException] at h, fun i h => h⟩
  · have hf' := bool_eq_false_of_not hf
    rw [JS_NewObject_eq_success _ hf'] at hEq
    injection hEq with h1 h2
    subst h1
    subst h2
    have hpre : Good ({ s with fcnt := s.fcnt + 1 } : EngineState)
        (Epush E JSVal.undefined) :=
      Good_congr _ _ _ (fun o => by simp [Epush, valRefs])
        (Good_same s _ _ rfl rfl rfl hG)
    have halloc := alloc_balance { s with fcnt := s.fcnt + 1 } E
      ObjKind.plain 1 JSVal.undefined hpre
    refine ⟨fun h => by simp [JS_IsException] at h, fun _ => ?_, fun i h => ?_⟩
    · exact halloc.2
    · exact pres_cons_any _ _ _ _ h

theorem defineStr_balance (s : EngineState) (E : Nat → Nat) (target : JSVal)
    (n : String) (v : JSVal) (flags : Nat) (hG : Good s (Epush E v))
    (r : Int) (s' : EngineState)
    (hEq : JS_DefinePropertyValueStr s target n v flags = (r, s')) :
    (r < 0 → Good s' (Epush E v)) ∧
    (0 ≤ r → Good s' E) ∧
    (∀ i, presentObj s i → presentObj s' i) := by
  by_cases hf : s.schedule s.fcnt = true
  · simp [JS_DefinePropertyValueStr, fallibleCall, hf] at hEq
    obtain ⟨h1, h2⟩ := hEq
    subst h1
    subst h2
    exact ⟨fun _ => Good_same s _ _ rfl rfl rfl hG, fun h => by omega,
      fun i h => h⟩
  · have hf' := bool_eq_false_of_not hf
    simp only [JS_DefinePropertyValueStr, fallibleCall, hf',
      Bool.false_eq_true, if_false] at hEq
    cases target with
    | undefined =>
      dsimp only at hEq
      injection hEq with h1 h2
      subst h1
      subst h2
      exact ⟨fun _ => Good_same s _ _ rfl rfl rfl hG, fun h => by omega,
      fun i h => h⟩
    | exception =>
      dsimp only at hEq
      injection hEq with h1 h2
      subst h1
      subst h2
      exact ⟨fun _ => Good_same s _ _ rfl rfl rfl hG, fun h => by omega,
      fun i h => h⟩
    | obj oid =>
      dsimp only at hEq
      cases hl : lookupA s.objs oid with
      | none =>
        rw [hl] at hEq
        dsimp only at hEq
        injection hEq with h1 h2
        subst h1
        subst h2
        exact ⟨fun _ => Good_same s _ _ rfl rfl rfl hG, fun h => by omega,
      fun i h => h⟩
      | some d =>
        rw [hl] at hEq
        dsimp only at hEq
        injection hEq with h1 h2
        subst h1
        subst h2
        have hGP : Good ({ s with fcnt := s.fcnt + 1 } : EngineState)
            (EpushP E (PropVal.data v flags)) :=
          Good_congr _ _ _
            (fun o => by simp [Epush, EpushP, propValRefs])
            (Good_same s _ _ rfl rfl rfl hG)
        refine ⟨fun h => by omega, fun _ => ?_, fun i h => ?_⟩
        · exact defineOwn_balance _ E oid n (PropVal.data v flags) d hl hGP
        · exact pres_defineOwn _ _ _ _ _ h

theorem defineGetSet_balance (s : EngineState) (E : Nat → Nat)
    (target : JSVal) (n : String) (g t : JSVal) (flags : Nat)
    (hG : Good s (EpushP E (PropVal.accessor g t)))
    (r : Int) (s' : EngineState)
    (hEq : JS_DefinePropertyGetSet s target n g t flags = (r, s')) :
    (r < 0 → Good s' (EpushP E (PropVal.accessor g t))) ∧
    (0 ≤ r → Good s' E) ∧
    (∀ i, presentObj s i → presentObj s' i) := by
  by_cases hf : s.schedule s.fcnt = true
  · simp [JS_DefinePropertyGetSet, fallibleCall, hf] at hEq
    obtain ⟨h1, h2⟩ := hEq
    subst h1
    subst h2
    exact ⟨fun _ => Good_same s _ _ rfl rfl rfl hG, fun h => by omega,
      fun i h => h⟩
  · have hf' := bool_eq_false_of_not hf
    simp only [JS_DefinePropertyGetSet, fallibleCall, hf',
      Bool.false_eq_true, if_false] at hEq
    cases target with
    | undefined =>
      dsimp only at hEq
      injection hEq with h1 h2
      subst h1
      subst h2
      exact ⟨fun _ => Good_same s _ _ rfl rfl rfl hG, fun h => by omega,
        fun i h => h⟩
    | exception =>
      dsimp only at hEq
      injection hEq with h1 h2
      subst h1
      subst h2
      exact ⟨fun _ => Good_same s _ _ rfl rfl rfl hG, fun h => by omega,
        fun i h => h⟩
    | obj oid =>
      dsimp only at hEq
      cases hl : lookupA s.objs oid with
      | none =>
        rw [hl] at hEq
        dsimp only at hEq
        injection hEq with h1 h2
        subst h1
        subst h2
        exact ⟨fun _ => Good_same s _ _ rfl rfl rfl hG, fun h => by omega,
          fun i h => h⟩
      | some d =>
        rw [hl] at hEq
        dsimp only at hEq
        injection hEq with h1 h2
        subst h1
        subst h2
        have hGP : Good ({ s with fcnt := s.fcnt + 1 } : EngineState)
            (EpushP E (PropVal.accessor g t)) :=
          Good_same s _ _ rfl rfl rfl hG
        refine ⟨fun h => by omega, fun _ => ?_, fun i h => ?_⟩
        · exact defineOwn_balance _ E oid n (PropVal.accessor g t) d hl hGP
        · exact pres_defineOwn _ _ _ _ _ h

theorem good_throwInternal (s : EngineState) (E : Nat → Nat) (msg : String)
    (hG : Good s E) : Good (ThrowInternalError s msg).2 E :=
  Good_same s _ _ rfl rfl rfl hG

theorem good_retrace (s : EngineState) (E : Nat → Nat) (tr : List Event)
    (hG : Good s E) : Good { s with trace := tr } E :=
  Good_same s _ _ rfl rfl rfl hG

theorem pres_freeIf (s : EngineState) (v : JSVal) (i : Nat)
    (h : presentObj s i) :
    presentObj (if JS_IsUndefined v then s else JS_FreeValue s v) i := by
  by_cases hv : JS_IsUndefined v = true
  · rw [if_pos hv]
    exact h
  · rw [if_neg hv]
    show (lookupA (freeValObjs s.objs v) i).isSome = true
    rw [pres_free]
    exact h

theorem presentVal_mono (s s' : EngineState) (v : JSVal)
    (h : ∀ i, presentObj s i → presentObj s' i) (hv : presentVal s v) :
    presentVal s' v := by
  cases v with
  | undefined => trivial
  | exception => trivial
  | obj j => exact h j hv

theorem createOrUndef_balance (s : EngineState) (E : Nat → Nat) (c : Prop)
    [Decidable c] (fname : String) (flen ft : Nat) (hid : Int)
    (hG : Good s E) (r : JSVal) (s' : EngineState)
    (hEq : (if c then CreateCFunction s fname flen ft hid
            else (JSVal.undefined, s)) = (r, s'))
    (hft : ft = GetCFuncGetterMagic ∨ ft = GetCFuncSetterMagic) :
    (JS_IsException r = true → Good s' E) ∧
    (JS_IsException r = false → Good s' (Epush E r)) ∧
    (∀ i, presentObj s i → presentObj s' i) := by
  by_cases hc : c
  · rw [if_pos hc] at hEq
    rcases hft with h | h
    · subst h
      rw [CreateCFunction_getterMagic] at hEq
      exact newCFunction_balance s E fname flen _ hid hG r s' hEq
    · subst h
      rw [CreateCFunction_setterMagic] at hEq
      exact newCFunction_balance s E fname flen _ hid hG r s' hEq
  · rw [if_neg hc] at hEq
    injection hEq with h1 h2
    subst h1
    subst h2
    exact ⟨fun h => by simp [JS_IsException] at h,
      fun _ => Good_congr _ _ _ (fun o => by simp [Epush, valRefs]) hG,
      fun i h => h⟩

theorem BindMethodToObject_balance (s : EngineState) (E : Nat → Nat)
    (obj : JSVal) (m : MethodEntry) (hG : Good s E) :
    Good (BindMethodToObject s obj m).2 E ∧
    (∀ i, presentObj s i → presentObj (BindMethodToObject s obj m).2 i) := by
  unfold BindMethodToObject
  rw [CreateCFunction_genericMagic]
  obtain ⟨mf, s1, hC⟩ : ∃ mf s1,
      JS_NewCFunction2 s m.name m.length GetCFuncGenericMagic m.handler_id
        = (mf, s1) := ⟨_, _, rfl⟩
  rw [hC]
  dsimp only
  obtain ⟨hCexc, hCok, hCpres⟩ :=
    newCFunction_balance s E m.name m.length GetCFuncGenericMagic
      m.handler_id hG mf s1 hC
  by_cases he : JS_IsException mf = true
  · rw [if_pos he]
    exact ⟨hCexc he, hCpres⟩
  · rw [if_neg he]
    have hG1 := hCok (bool_eq_false_of_not he)
    obtain ⟨r2, s2, hD⟩ : ∃ r2 s2,
        JS_DefinePropertyValueStr s1 obj m.name mf
          GetPropertyWritableConfigurable = (r2, s2) := ⟨_, _, rfl⟩
    rw [hD]
    dsimp only
    obtain ⟨hDneg, hDok, hDpres⟩ :=
      defineStr_balance s1 E obj m.name mf GetPropertyWritableConfigurable
        hG1 r2 s2 hD
    by_cases hr : r2 < 0
    · rw [if_pos hr]
      have hfree := free_balance s2 E mf (hDneg hr)
      refine ⟨good_throwInternal _ E _ hfree, ?_⟩
      intro i hi
      show (lookupA (freeValObjs s2.objs mf) i).isSome = true
      rw [pres_free]
      exact hDpres i (hCpres i hi)
    · rw [if_neg hr]
      have hok := hDok (by omega)
      exact ⟨good_retrace s2 E _ hok, fun i hi => hDpres i (hCpres i hi)⟩

theorem BindPropertyToObject_balance (s : EngineState) (E : Nat → Nat)
    (obj : JSVal) (p : PropertyEntry) (hG : Good s E)
    (hpv : presentVal s p.value) :
    Good (BindPropertyToObject s obj p).2 E ∧
    (∀ i, presentObj s i → presentObj (BindPropertyToObject s obj p).2 i) := by
  unfold BindPropertyToObject
  dsimp only
  have hG1 : Good (JS_DupValue s p.value) (Epush E p.value) :=
    dup_balance s E p.value hG hpv
  obtain ⟨r2, s2, hD⟩ : ∃ r2 s2,
      JS_DefinePropertyValueStr (JS_DupValue s p.value) obj p.name p.value
        p.flags = (r2, s2) := ⟨_, _, rfl⟩
  rw [hD]
  dsimp only
  obtain ⟨hDneg, hDok, hDpres⟩ :=
    defineStr_balance (JS_DupValue s p.value) E obj p.name p.value p.flags
      hG1 r2 s2 hD
  have hdup : ∀ i, presentObj s i → presentObj (JS_DupValue s p.value) i := by
    intro i hi
    show (lookupA (dupValObjs s.objs p.value) i).isSome = true
    rw [pres_dup]
    exact hi
  by_cases hr : r2 < 0
  · rw [if_pos hr]
    have hfree := free_balance s2 E p.value (hDneg hr)
    refine ⟨good_throwInternal _ E _ hfree, ?_⟩
    intro i hi
    show (lookupA (freeValObjs s2.objs p.value) i).isSome = true
    rw [pres_free]
    exact hDpres i (hdup i hi)
  · rw [if_neg hr]
    have hok := hDok (by omega)
    exact ⟨good_retrace s2 E _ hok, fun i hi => hDpres i (hdup i hi)⟩

theorem BindAccessorToObject_balance (s : EngineState) (E : Nat → Nat)
    (obj : JSVal) (a : AccessorEntry) (hG : Good s E) :
    Good (BindAccessorToObject s obj a).2 E ∧
    (∀ i, presentObj s i → presentObj (BindAccessorToObject s obj a).2 i) := by
  unfold BindAccessorToObject
  obtain ⟨g, s1, hCg⟩ : ∃ g s1,
      (if a.getter_id ≠ 0 then
         CreateCFunction s a.name 0 GetCFuncGetterMagic a.getter_id
       else (JSVal.undefined, s)) = (g, s1) := ⟨_, _, rfl⟩
  rw [hCg]
  dsimp only
  obtain ⟨hg1, hg2, hgp⟩ :=
    createOrUndef_balance s E _ a.name 0 GetCFuncGetterMagic a.getter_id hG
      g s1 hCg (Or.inl rfl)
  by_cases heg : JS_IsException g = true
  · rw [if_pos heg]
    exact ⟨hg1 heg, hgp⟩
  · rw [if_neg heg]
    have hGg := hg2 (bool_eq_false_of_not heg)
    obtain ⟨t, s2, hCt⟩ : ∃ t s2,
        (if a.setter_id ≠ 0 then
           CreateCFunction s1 a.name 1 GetCFuncSetterMagic a.setter_id
         else (JSVal.undefined, s1)) = (t, s2) := ⟨_, _, rfl⟩
    rw [hCt]
    dsimp only
    obtain ⟨ht1, ht2, htp⟩ :=
      createOrUndef_balance s1 (Epush E g) _ a.name 1 GetCFuncSetterMagic
        a.setter_id hGg t s2 hCt (Or.inr rfl)
    by_cases het : JS_IsException t = true
    · rw [if_pos het]
      have h3 := freeIfDefined_balance s2 E g (ht1 het)
      exact ⟨h3, fun i hi => pres_freeIf s2 g i (htp i (hgp i hi))⟩
    · rw [if_neg het]
      have hGt := ht2 (bool_eq_false_of_not het)
      have hGcomb : Good s2 (EpushP E (PropVal.accessor g t)) :=
        Good_congr _ _ _
          (fun o => by simp [Epush, EpushP, propValRefs]; omega) hGt
      obtain ⟨r3, s3, hD⟩ : ∃ r3 s3,
          JS_DefinePropertyGetSet s2 obj a.name g t GetPropertyConfigurable
            = (r3, s3) := ⟨_, _, rfl⟩
      rw [hD]
      dsimp only
      obtain ⟨hDneg, hDok, hDpres⟩ :=
        defineGetSet_balance s2 E obj a.name g t GetPropertyConfigurable
          hGcomb r3 s3 hD
      by_cases hr : r3 < 0
      · rw [if_pos hr]
        have hGfail := hDneg hr
        have hsplit : Good s3 (Epush (Epush E t) g) :=
          Good_congr _ _ _
            (fun o => by simp [Epush, EpushP, propValRefs]; omega) hGfail
        have h4 := freeIfDefined_balance s3 (Epush E t) g hsplit
        have h5 := freeIfDefined_balance _ E t h4
        refine ⟨good_throwInternal _ E _ h5, ?_⟩
        intro i hi
        exact pres_freeIf _ t i (pres_freeIf s3 g i (hDpres i (htp i (hgp i hi))))
      · rw [if_neg hr]
        have hok := hDok (by omega)
        exact ⟨good_retrace s3 E _ hok,
          fun i hi => hDpres i (htp i (hgp i hi))⟩

theorem bindMethods_good (li : List MethodEntry) :
    ∀ (s : EngineState) (E : Nat → Nat) (obj : JSVal) (st : Bool),
    Good s E →
    Good (bindMethods s obj st li).2 E ∧
    (∀ i, presentObj s i → presentObj (bindMethods s obj st li).2 i) := by
  induction li with
  | nil => exact fun s E obj st hG => ⟨hG, fun i h => h⟩
  | cons m rest ih =>
    intro s E obj st hG
    simp only [bindMethods]
    by_cases hst : m.is_static = st
    · rw [if_pos hst]
      obtain ⟨r1, s1, hB⟩ : ∃ r1 s1, BindMethodToObject s obj m = (r1, s1) :=
        ⟨_, _, rfl⟩
      rw [hB]
      dsimp only
      obtain ⟨hg1, hp1⟩ := BindMethodToObject_balance s E obj m hG
      rw [hB] at hg1 hp1
      by_cases he : JS_IsException r1 = true
      · rw [if_pos he]
        exact ⟨hg1, hp1⟩
      · rw [if_neg he]
        obtain ⟨hg2, hp2⟩ := ih s1 E obj st hg1
        exact ⟨hg2, fun i h => hp2 i (hp1 i h)⟩
    · rw [if_neg hst]
      exact ih s E obj st hG

theorem bindAccessors_good (li : List AccessorEntry) :
    ∀ (s : EngineState) (E : Nat → Nat) (obj : JSVal) (st : Bool),
    Good s E →
    Good (bindAccessors s obj st li).2 E ∧
    (∀ i, presentObj s i → presentObj (bindAccessors s obj st li).2 i) := by
  induction li with
  | nil => exact fun s E obj st hG => ⟨hG, fun i h => h⟩
  | cons a rest ih =>
    intro s E obj st hG
    simp only [bindAccessors]
    by_cases hst : a.is_static = st
    · rw [if_pos hst]
      obtain ⟨r1, s1, hB⟩ : ∃ r1 s1, BindAccessorToObject s obj a = (r1, s1) :=
        ⟨_, _, rfl⟩
      rw [hB]
      dsimp only
      obtain ⟨hg1, hp1⟩ := BindAccessorToObject_balance s E obj a hG
      rw [hB] at hg1 hp1
      by_cases he : JS_IsException r1 = true
      · rw [if_pos he]
        exact ⟨hg1, hp1⟩
      · rw [if_neg he]
        obtain ⟨hg2, hp2⟩ := ih s1 E obj st hg1
        exact ⟨hg2, fun i h => hp2 i (hp1 i h)⟩
    · rw [if_neg hst]
      exact ih s E obj st hG

theorem bindProperties_good (li : List PropertyEntry) :
    ∀ (s : EngineState) (E : Nat → Nat) (obj : JSVal) (st : Bool),
    Good s E → (∀ p ∈ li, presentVal s p.value) →
    Good (bindProperties s obj st li).2 E ∧
    (∀ i, presentObj s i → presentObj (bindProperties s obj st li).2 i) := by
  induction li with
  | nil => exact fun s E obj st hG _ => ⟨hG, fun i h => h⟩
  | cons p rest ih =>
    intro s E obj st hG hpo
    simp only [bindProperties]
    by_cases hst : p.is_static = st
    · rw [if_pos hst]
      obtain ⟨r1, s1, hB⟩ : ∃ r1 s1, BindPropertyToObject s obj p = (r1, s1) :=
        ⟨_, _, rfl⟩
      rw [hB]
      dsimp only
      obtain ⟨hg1, hp1⟩ := BindPropertyToObject_balance s E obj p hG
        (hpo p (List.mem_cons_self _ _))
      rw [hB] at hg1 hp1
      by_cases he : JS_IsException r1 = true
      · rw [if_pos he]
        exact ⟨hg1, hp1⟩
      · rw [if_neg he]
        obtain ⟨hg2, hp2⟩ := ih s1 E obj st hg1
          (fun q hq => presentVal_mono s s1 q.value hp1
            (hpo q (List.mem_cons_of_mem _ hq)))
        exact ⟨hg2, fun i h => hp2 i (hp1 i h)⟩
    · rw [if_neg hst]
      exact ih s E obj st hG (fun q hq => hpo q (List.mem_cons_of_mem _ hq))

/-- One binding pass preserves the ledger balance — every reference the
pass acquires is either transferred into a property slot or released on
the failure path — and keeps every allocated object present. -/
theorem BindMembersToObject_good (s : EngineState) (E : Nat → Nat)
    (obj : JSVal) (ms : List MethodEntry) (acs : List AccessorEntry)
    (ps : List PropertyEntry) (st : Bool) (hG : Good s E)
    (hpo : ∀ p ∈ ps, presentVal s p.value) :
    Good (BindMembersToObject s obj ms acs ps st).2 E ∧
    (∀ i, presentObj s i →
       presentObj (BindMembersToObject s obj ms acs ps st).2 i) := by
  unfold BindMembersToObject
  obtain ⟨r1, s1, h1⟩ : ∃ r1 s1, bindMethods s obj st ms = (r1, s1) :=
    ⟨_, _, rfl⟩
  rw [h1]
  dsimp only
  obtain ⟨hg1, hp1⟩ := bindMethods_good ms s E obj st hG
  rw [h1] at hg1 hp1
  by_cases he1 : JS_IsException r1 = true
  · rw [if_pos he1]
    exact ⟨hg1, hp1⟩
  · rw [if_neg he1]
    obtain ⟨r2, s2, h2⟩ : ∃ r2 s2, bindAccessors s1 obj st acs = (r2, s2) :=
      ⟨_, _, rfl⟩
    rw [h2]
    dsimp only
    obtain ⟨hg2, hp2⟩ := bindAccessors_good acs s1 E obj st hg1
    rw [h2] at hg2 hp2
    by_cases he2 : JS_IsException r2 = true
    · rw [if_pos he2]
      exact ⟨hg2, fun i h => hp2 i (hp1 i h)⟩
    · rw [if_neg he2]
      obtain ⟨r3, s3, h3⟩ : ∃ r3 s3, bindProperties s2 obj st ps = (r3, s3) :=
        ⟨_, _, rfl⟩
      rw [h3]
      dsimp only
      obtain ⟨hg3, hp3⟩ := bindProperties_good ps s2 E obj st hg2
        (fun q hq => presentVal_mono s s2 q.value
          (fun i h => hp2 i (hp1 i h)) (hpo q hq))
      rw [h3] at hg3 hp3
      by_cases he3 : JS_IsException r3 = true
      · rw [if_pos he3]
        exact ⟨hg3, fun i h => hp3 i (hp2 i (hp1 i h))⟩
      · rw [if_neg he3]
        exact ⟨hg3, fun i h => hp3 i (hp2 i (hp1 i h))⟩

/-- JS_SetClassProto consumes the caller's prototype reference into the
class-prototype table slot. -/
theorem setClassProto_balance (s : EngineState) (E : Nat → Nat) (cid : Nat)
    (proto : JSVal) (hG : Good s (Epush E proto)) :
    Good (JS_SetClassProto s cid proto) E := by
  obtain ⟨⟨hk, hs⟩, hB, hE⟩ := hG
  refine ⟨⟨fun e he => hk e he, ?_⟩, ?_, ?_⟩
  · intro o ho
    have h1 := hs o ho
    have h2 := hE o ho
    rw [slotRefs_eq] at h1
    show sumObjs s.objs o + sumProtos ((cid, proto) :: s.classProtos) o = 0
    rw [sumProtos_cons]
    simp only [Epush] at h2
    omega
  · intro o
    have h1 := hB o
    rw [slotRefs_eq] at h1
    show rcOf s o = sumObjs s.objs o + sumProtos ((cid, proto) :: s.classProtos) o + E o
    rw [sumProtos_cons]
    simp only [Epush] at h1
    omega
  · intro o ho
    have h2 := hE o ho
    simp only [Epush] at h2
    omega

/-- JS_SetConstructor holds its two cross-links in property slots backed
by duplicated references: the ledger is unchanged. -/
theorem setConstructor_balance (s : EngineState) (E : Nat → Nat)
    (fid pid : Nat) (hpf : presentObj s fid) (hpp : presentObj s pid)
    (hG : Good s E) :
    Good (JS_SetConstructor s (JSVal.obj fid) (JSVal.obj pid)) E ∧
    (∀ i, presentObj s i →
       presentObj (JS_SetConstructor s (JSVal.obj fid) (JSVal.obj pid)) i) := by
  unfold JS_SetConstructor
  dsimp only
  have hd1 : Good (JS_DupValue s (JSVal.obj pid)) (Epush E (JSVal.obj pid)) :=
    dup_balance s E _ hG hpp
  have hpres1 : ∀ i, presentObj s i → presentObj (JS_DupValue s (JSVal.obj pid)) i := by
    intro i hi
    show (lookupA (dupValObjs s.objs (JSVal.obj pid)) i).isSome = true
    rw [pres_dup]
    exact hi
  obtain ⟨dF, hdF⟩ := Option.isSome_iff_exists.mp (hpres1 fid hpf)
  have hd2 : Good (defineOwn (JS_DupValue s (JSVal.obj pid)) fid "prototype"
      (PropVal.data (JSVal.obj pid) 0)) E :=
    defineOwn_balance _ E fid "prototype" _ dF hdF
      (Good_congr _ _ _ (fun o => by simp [Epush, EpushP, propValRefs]) hd1)
  have hpres2 : ∀ i, presentObj s i →
      presentObj (defineOwn (JS_DupValue s (JSVal.obj pid)) fid "prototype"
        (PropVal.data (JSVal.obj pid) 0)) i := by
    intro i hi
    exact pres_defineOwn _ _ _ _ _ (hpres1 i hi)
  have hd3 : Good (JS_DupValue (defineOwn (JS_DupValue s (JSVal.obj pid)) fid
      "prototype" (PropVal.data (JSVal.obj pid) 0)) (JSVal.obj fid))
      (Epush E (JSVal.obj fid)) :=
    dup_balance _ E _ hd2 (hpres2 fid hpf)
  have hpres3 : ∀ i, presentObj s i →
      presentObj (JS_DupValue (defineOwn (JS_DupValue s (JSVal.obj pid)) fid
        "prototype" (PropVal.data (JSVal.obj pid) 0)) (JSVal.obj fid)) i := by
    intro i hi
    show (lookupA (dupValObjs (defineOwn (JS_DupValue s (JSVal.obj pid)) fid
      "prototype" (PropVal.data (JSVal.obj pid) 0)).objs (JSVal.obj fid)) i).isSome = true
    rw [pres_dup]
    exact hpres2 i hi
  obtain ⟨dP, hdP⟩ := Option.isSome_iff_exists.mp (hpres3 pid hpp)
  have hd4 : Good (defineOwn (JS_DupValue (defineOwn (JS_DupValue s
      (JSVal.obj pid)) fid "prototype" (PropVal.data (JSVal.obj pid) 0))
      (JSVal.obj fid)) pid "constructor"
      (PropVal.data (JSVal.obj fid) GetPropertyWritableConfigurable)) E :=
    defineOwn_balance _ E pid "constructor" _ dP hdP
      (Good_congr _ _ _ (fun o => by simp [Epush, EpushP, propValRefs]) hd3)
  refine ⟨hd4, ?_⟩
  intro i hi
  exact pres_defineOwn _ _ _ _ _ (hpres3 i hi)

/-- C1 (amended): whenever CreateClass returns an exception — at any step
from validation through the static binding pass — every object reference
the builder acquired has been released or handed to an engine slot: the
reference-count ledger returns exactly to the caller's pre-call state
(`Good s E` is preserved with the same external ledger E).  No rollback
beyond reference release is performed: the consumed class id, a completed
`JS_NewClass` registration, and a class prototype installed before a
static-pass failure remain in place (see the rollback counterexample). -/
theorem createClass_failure_releases_refs (s : EngineState) (E : Nat → Nat)
    (cdo : Option JSClassDef) (ctorId : Int) (ms : List MethodEntry)
    (acs : List AccessorEntry) (ps : List PropertyEntry)
    (hG : Good s E) (hpo : ∀ p ∈ ps, presentVal s p.value)
    (hexc : JS_IsException (CreateClass s cdo ctorId ms acs ps).1 = true) :
    Good (CreateClass s cdo ctorId ms acs ps).2.2 E := by
  cases cdo with
  | none =>
    simp only [CreateClass]
    exact Good_same s _ _ rfl rfl rfl hG
  | some cd =>
    obtain ⟨cno⟩ := cd
    cases cno with
    | none =>
      simp only [CreateClass]
      exact Good_same s _ _ rfl rfl rfl hG
    | some nm =>
      by_cases hne : nm = ""
      · simp only [CreateClass]
        rw [if_pos hne]
        exact Good_same s _ _ rfl rfl rfl hG
      simp only [CreateClass, JS_NewClassID] at hexc ⊢
      rw [if_neg hne] at hexc ⊢
      by_cases hge : 65536 ≤ s.nextClassId
      · rw [if_pos hge]
        exact Good_same s _ _ rfl rfl rfl hG
      rw [if_neg hge] at hexc ⊢
      by_cases hf0 : s.schedule s.fcnt = true
      · have hf0x : ({ s with nextClassId := s.nextClassId + 1 } : EngineState).schedule ({ s with nextClassId := s.nextClassId + 1 } : EngineState).fcnt = true := hf0
        rw [JS_NewClass_eq_fail _ _ hf0x]
        dsimp only
        rw [if_pos (by decide : ((-1 : Int) ≠ 0))]
        exact Good_same s _ _ rfl rfl rfl hG
      have hf0' : s.schedule s.fcnt = false := bool_eq_false_of_not hf0
      have hf0x : ({ s with nextClassId := s.nextClassId + 1 } : EngineState).schedule ({ s with nextClassId := s.nextClassId + 1 } : EngineState).fcnt = false := hf0'
      rw [JS_NewClass_eq_success _ _ hf0x] at hexc ⊢
      dsimp only at hexc ⊢
      rw [if_neg (by decide : ¬((0 : Int) ≠ 0))] at hexc ⊢
      by_cases hf1 : s.schedule (s.fcnt + 1) = true
      · have hf1x : ({ s with nextClassId := s.nextClassId + 1, fcnt := s.fcnt + 1, registry := s.nextClassId :: s.registry } : EngineState).schedule ({ s with nextClassId := s.nextClassId + 1, fcnt := s.fcnt + 1, registry := s.nextClassId :: s.registry } : EngineState).fcnt = true := hf1
        rw [JS_NewObject_eq_fail _ hf1x]
        dsimp only
        rw [if_pos (show JS_IsException JSVal.exception = true from rfl)]
        exact Good_same s _ _ rfl rfl rfl hG
      have hf1' : s.schedule (s.fcnt + 1) = false := bool_eq_false_of_not hf1
      have hf1x : ({ s with nextClassId := s.nextClassId + 1, fcnt := s.fcnt + 1, registry := s.nextClassId :: s.registry } : EngineState).schedule ({ s with nextClassId := s.nextClassId + 1, fcnt := s.fcnt + 1, registry := s.nextClassId :: s.registry } : EngineState).fcnt = false := hf1'
      rw [JS_NewObject_eq_success _ hf1x] at hexc ⊢
      dsimp only at hexc ⊢
      rw [if_neg (show ¬(JS_IsException (JSVal.obj s.nextObj) = true) by
        simp [JS_IsException])] at hexc ⊢
      -- the prototype is allocated: Good with its reference pushed
      have hEqNO : JS_NewObject { s with nextClassId := s.nextClassId + 1, fcnt := s.fcnt + 1, registry := s.nextClassId :: s.registry } = (JSVal.obj s.nextObj, { s with nextClassId := s.nextClassId + 1, fcnt := s.fcnt + 1 + 1, registry := s.nextClassId :: s.registry, nextObj := s.nextObj + 1, objs := (s.nextObj, plainData 1 JSVal.undefined) :: s.objs }) := by
        rw [JS_NewObject_eq_success _ hf1x]
      obtain ⟨-, hok0, -⟩ := newObject_balance
        { s with nextClassId := s.nextClassId + 1, fcnt := s.fcnt + 1, registry := s.nextClassId :: s.registry } E
        (Good_same s _ _ rfl rfl rfl hG) _ _ hEqNO
      have hGS3 := hok0 (by simp [JS_IsException])
      -- instance pass
      obtain ⟨pr, sA, hB1⟩ : ∃ pr sA,
          BindMembersToObject { s with nextClassId := s.nextClassId + 1, fcnt := s.fcnt + 1 + 1, registry := s.nextClassId :: s.registry, nextObj := s.nextObj + 1, objs := (s.nextObj, plainData 1 JSVal.undefined) :: s.objs } (JSVal.obj s.nextObj) ms acs ps false = (pr, sA) := ⟨_, _, rfl⟩
      rw [hB1] at hexc ⊢
      dsimp only at hexc ⊢
      obtain ⟨hgA, hpA⟩ := BindMembersToObject_good _ (Epush E (JSVal.obj s.nextObj)) (JSVal.obj s.nextObj) ms acs ps false hGS3
        (fun p hp => presentVal_mono s _ p.value
          (fun i h => pres_cons_any _ _ _ _ h) (hpo p hp))
      rw [hB1] at hgA hpA
      by_cases he1 : JS_IsException pr = true
      · rw [if_pos he1]
        dsimp only
        exact free_balance sA E _ hgA
      rw [if_neg he1] at hexc ⊢
      by_cases hfA : sA.schedule sA.fcnt = true
      · rw [CreateCFunction_ctorMagic,
          JS_NewCFunction2_eq_fail sA nm 2 GetCFuncConstructorMagic ctorId hfA]
        dsimp only
        rw [if_pos (show JS_IsException JSVal.exception = true from rfl)]
        dsimp only
        have hgA2 : Good ({ sA with fcnt := sA.fcnt + 1, pendingError := some (ErrKind.engineFailure, "") } : EngineState) (Epush E (JSVal.obj s.nextObj)) :=
          Good_same sA _ _ rfl rfl rfl hgA
        exact free_balance _ E _ hgA2
      have hfA' : sA.schedule sA.fcnt = false := bool_eq_false_of_not hfA
      rw [CreateCFunction_ctorMagic,
        JS_NewCFunction2_eq_success sA nm 2 GetCFuncConstructorMagic ctorId hfA']
        at hexc ⊢
      dsimp only at hexc ⊢
      rw [if_neg (show ¬(JS_IsException (JSVal.obj sA.nextObj) = true) by
        simp [JS_IsException])] at hexc ⊢
      -- the constructor is allocated: both partials now on the ledger
      have hEqCF : JS_NewCFunction2 sA nm 2 GetCFuncConstructorMagic ctorId = (JSVal.obj sA.nextObj, { sA with fcnt := sA.fcnt + 1, nextObj := sA.nextObj + 1, objs := (sA.nextObj, cfuncData GetCFuncConstructorMagic ctorId nm) :: sA.objs }) := by
        rw [JS_NewCFunction2_eq_success sA nm 2 GetCFuncConstructorMagic ctorId hfA']
      obtain ⟨-, hokB, -⟩ := newCFunction_balance sA (Epush E (JSVal.obj s.nextObj)) nm 2 GetCFuncConstructorMagic ctorId hgA _ _ hEqCF
      have hGSB := hokB (by simp [JS_IsException])
      -- constructor association and class prototype installation
      have hppB : presentObj ({ sA with fcnt := sA.fcnt + 1, nextObj := sA.nextObj + 1, objs := (sA.nextObj, cfuncData GetCFuncConstructorMagic ctorId nm) :: sA.objs } : EngineState) s.nextObj :=
        pres_cons_any _ _ _ _ (hpA s.nextObj (by simp [presentObj, lookupA]))
      have hpfB : presentObj ({ sA with fcnt := sA.fcnt + 1, nextObj := sA.nextObj + 1, objs := (sA.nextObj, cfuncData GetCFuncConstructorMagic ctorId nm) :: sA.objs } : EngineState) sA.nextObj := by
        simp [presentObj, lookupA]
      obtain ⟨hGSC, hpSC⟩ := setConstructor_balance _ _ sA.nextObj s.nextObj hpfB hppB hGSB
      have hGSCre := Good_congr _ _ (Epush (Epush E (JSVal.obj sA.nextObj)) (JSVal.obj s.nextObj)) (fun o => by simp [Epush]; omega) hGSC
      have hGS7 := setClassProto_balance _ (Epush E (JSVal.obj sA.nextObj)) s.nextClassId (JSVal.obj s.nextObj) hGSCre
      -- static pass
      obtain ⟨cr, sE, hB2⟩ : ∃ cr sE,
          BindMembersToObject (JS_SetClassProto (JS_SetConstructor { sA with fcnt := sA.fcnt + 1, nextObj := sA.nextObj + 1, objs := (sA.nextObj, cfuncData GetCFuncConstructorMagic ctorId nm) :: sA.objs } (JSVal.obj sA.nextObj) (JSVal.obj s.nextObj)) s.nextClassId (JSVal.obj s.nextObj)) (JSVal.obj sA.nextObj) ms acs ps true = (cr, sE) := ⟨_, _, rfl⟩
      rw [hB2] at hexc ⊢
      dsimp only at hexc ⊢
      obtain ⟨hgE, hpE⟩ := BindMembersToObject_good _ (Epush E (JSVal.obj sA.nextObj)) (JSVal.obj sA.nextObj) ms acs ps true hGS7
        (fun p hp => presentVal_mono s _ p.value
          (fun i h => hpSC i (pres_cons_any _ _ _ _ (hpA i (pres_cons_any _ _ _ _ h)))) (hpo p hp))
      rw [hB2] at hgE hpE
      by_cases he2 : JS_IsException cr = true
      · rw [if_pos he2]
        dsimp only
        exact free_balance sE E _ hgE
      · rw [if_neg he2] at hexc
        exfalso
        simp [JS_IsException] at hexc

/-- C1 witness: on an empty engine whose fourth engine call fails — the
static-pass property definition of `cxRun` — CreateClass returns an
exception and the ledger balance is fully restored (no leaked
references), starting from the empty balanced ledger. -/
theorem createClass_failure_releases_refs_witness :
    Good (emptyStateFailAt 3) (fun _ => 0) ∧
    (∀ p ∈ [staticProp], presentVal (emptyStateFailAt 3) p.value) ∧
    JS_IsException (CreateClass (emptyStateFailAt 3) (some kDef) 7 [] []
      [staticProp]).1 = true ∧
    Good (CreateClass (emptyStateFailAt 3) (some kDef) 7 [] []
      [staticProp]).2.2 (fun _ => 0) := by
  have hGood : Good (emptyStateFailAt 3) (fun _ => 0) := by
    refine ⟨⟨?_, ?_⟩, ?_, ?_⟩
    · intro e he
      simp [emptyStateFailAt, emptyStateNoFail] at he
    · intro o ho
      simp [slotRefs, emptyStateFailAt, emptyStateNoFail, sumObjs, sumProtos]
    · intro o
      simp [rcOf, slotRefs, lookupA, emptyStateFailAt, emptyStateNoFail,
        sumObjs, sumProtos]
    · intro o ho
      rfl
  have hpo : ∀ p ∈ [staticProp], presentVal (emptyStateFailAt 3) p.value := by
    intro p hp
    rw [List.mem_singleton] at hp
    subst hp
    exact trivial
  exact ⟨hGood, hpo, by decide,
    createClass_failure_releases_refs (emptyStateFailAt 3) (fun _ => 0)
      (some kDef) 7 [] [] [staticProp] hGood hpo (by decide)⟩
